import Mathlib

/-!
# Triangulation accessors (`deal.II/source/grid/tria_accessor.cc`)

A shallow embedding of the accessor layer of the triangulation: the level
storage addressed by `(present_level, present_index)` handles, the line, quad
and cell accessors working on it, and the properties of the accessor contract.

Conventions of the embedding.

* The triangulation an accessor points to is passed explicitly; a mutating
  member function returns the triangulation after the call.
* A member function returns `Except Exc α`.  `Assert (cond, exc)` of the debug
  build fails with `exc`; a vector subscript outside the vector (undefined in
  the source) fails with `Exc.OutOfBounds`.
* `int` values are integers.  Vector sizes and subscripts are taken to be
  representable in `int`, so `(int) v.size ()` is the size.  Where the source
  adds an `unsigned int` to a stored `int` and returns the sum as `int`
  (`child_index`), the 32-bit conversion is explicit (`toInt32`).
-/

namespace DealII

/-! ## Data model -/

/-- The three states of an iterator (`IteratorState`). -/
inductive IteratorState where
  | valid
  | past_the_end
  | invalid
  deriving DecidableEq, Repr

/-- The exceptions raised by the assertions of the accessors; `OutOfBounds` for
a vector subscript outside the vector; `LoopFuel` for a loop cut off by the
bound put on the number of its iterations. -/
inductive Exc where
  | ExcCantCompareIterators
  | ExcDereferenceInvalidObject
  | ExcCellNotUsed
  | ExcInvalidIndex (i lo hi : Nat)
  | ExcInvalidNeighbor (i : Nat)
  | ExcUnusedCellAsChild
  | ExcUnusedCellAsNeighbor
  | ExcRefineCellNotActive
  | ExcCellFlaggedForCoarsening
  | ExcCellFlaggedForRefinement
  | ExcNotUsefulForThisDimension
  | OutOfBounds
  | LoopFuel
  deriving DecidableEq, Repr

deriving instance DecidableEq for Except

/-- Modelled from the spec: the `Assert` macro of the debug build, which is not
part of the sources at hand.  A violated condition fails with the exception. -/
def Assert (cond : Bool) (exc : Exc) : Except Exc Unit :=
  if cond then .ok () else .error exc

/-- A point of the domain; coordinates in exact arithmetic. -/
abbrev Point := List Rat

/-- Modelled from the spec: a line, two vertex indices (`Line::vertex (i)`). -/
structure Line where
  v0 : Int := 0
  v1 : Int := 0
  deriving DecidableEq, Repr

/-- Modelled from the spec: a quad, four bounding line indices
(`Quad::line (i)`). -/
structure Quad where
  l0 : Int := 0
  l1 : Int := 0
  l2 : Int := 0
  l3 : Int := 0
  deriving DecidableEq, Repr

/-- Modelled from the spec: the line arrays of one level
(`levels[l]->lines`), with the members the accessors use. -/
structure TriangulationLevelLines where
  lines : List Line := []
  children : List Int := []
  used : List Bool := []
  user_flags : List Bool := []
  material_id : List Nat := []
  user_pointers : List Nat := []
  deriving DecidableEq, Repr

/-- Modelled from the spec: the quad arrays of one level
(`levels[l]->quads`), with the members the accessors use. -/
structure TriangulationLevelQuads where
  quads : List Quad := []
  children : List Int := []
  used : List Bool := []
  user_flags : List Bool := []
  material_id : List Nat := []
  user_pointers : List Nat := []
  deriving DecidableEq, Repr

/-- Modelled from the spec: one level of the triangulation
(`TriangulationLevel`): the cell flags, the neighbor table with one
`(level, index)` pair per cell and face, and the line and quad arrays. -/
structure TriangulationLevel where
  refine_flags : List Bool := []
  coarsen_flags : List Bool := []
  neighbors : List (Int × Int) := []
  lines : TriangulationLevelLines := {}
  quads : TriangulationLevelQuads := {}
  deriving DecidableEq, Repr

/-- Modelled from the spec: the triangulation, its levels and its vertices. -/
structure Triangulation where
  levels : List TriangulationLevel := []
  vertices : List Point := []
  deriving DecidableEq, Repr

/-- The handle of `TriaAccessor`: the address of the triangulation it belongs
to, and the level and index of the slot. -/
structure TriaAccessor where
  tria : Nat := 0
  present_level : Int
  present_index : Int
  deriving DecidableEq, Repr

/-- Read `v[i]` for an `int` subscript. -/
def vecGet {α : Type} (v : List α) (i : Int) : Except Exc α :=
  if i < 0 then .error .OutOfBounds
  else
    match v[i.toNat]? with
    | some x => .ok x
    | none => .error .OutOfBounds

/-- Write `v[i] = x` for an `int` subscript. -/
def vecSet {α : Type} (v : List α) (i : Int) (x : α) : Except Exc (List α) :=
  if i < 0 then .error .OutOfBounds
  else if i.toNat < v.length then .ok (v.set i.toNat x)
  else .error .OutOfBounds

/-- Replace level `l` of the triangulation. -/
def Triangulation.setLevel (t : Triangulation) (l : Int) (lv : TriangulationLevel) :
    Except Exc Triangulation :=
  match vecSet t.levels l lv with
  | .ok ls => .ok { t with levels := ls }
  | .error e => .error e

/-- The triangulation with level `l` replaced by `lv`. -/
def Triangulation.withLevel (t : Triangulation) (l : Int) (lv : TriangulationLevel) :
    Triangulation :=
  { t with levels := t.levels.set l.toNat lv }

/-- Conversion of a 32-bit `unsigned int` value to `int`. -/
def toInt32 (x : Int) : Int := (x + 2147483648) % 4294967296 - 2147483648

/-! ## TriaAccessor -/

/-- The function `TriaAccessor<dim>::level`. -/
def TriaAccessor.level (a : TriaAccessor) : Int := a.present_level

/-- The function `TriaAccessor<dim>::index`. -/
def TriaAccessor.index (a : TriaAccessor) : Int := a.present_index

/-- The function `TriaAccessor<dim>::state`. -/
def TriaAccessor.state (a : TriaAccessor) : IteratorState :=
  if a.present_level ≥ 0 ∧ a.present_index ≥ 0 then .valid
  else if a.present_level = -1 ∧ a.present_index = -1 then .past_the_end
  else .invalid

/-- Short-circuit `x && y` of two calls that may fail. -/
def andThen (x y : Except Exc Bool) : Except Exc Bool := do
  if (← x) then y else pure false

/-- Short-circuit `x || y` of two calls that may fail. -/
def orElse (x y : Except Exc Bool) : Except Exc Bool := do
  if (← x) then pure true else y

/-! ## LineAccessor -/

/-- The function `LineAccessor<dim>::used`. -/
def LineAccessor.used (t : Triangulation) (a : TriaAccessor) : Except Exc Bool := do
  Assert (a.state == .valid) .ExcDereferenceInvalidObject
  let lv ← vecGet t.levels a.present_level
  vecGet lv.lines.used a.present_index

/-- The functions `LineAccessor<dim>::set_used_flag` (`b = true`) and
`LineAccessor<dim>::clear_used_flag` (`b = false`). -/
def LineAccessor.write_used_flag (b : Bool) (t : Triangulation) (a : TriaAccessor) :
    Except Exc Triangulation := do
  Assert (a.state == .valid) .ExcDereferenceInvalidObject
  let lv ← vecGet t.levels a.present_level
  let u ← vecSet lv.lines.used a.present_index b
  t.setLevel a.present_level { lv with lines := { lv.lines with used := u } }

/-- The function `LineAccessor<dim>::set_used_flag`. -/
def LineAccessor.set_used_flag (t : Triangulation) (a : TriaAccessor) :
    Except Exc Triangulation :=
  LineAccessor.write_used_flag true t a

/-- The function `LineAccessor<dim>::clear_used_flag`. -/
def LineAccessor.clear_used_flag (t : Triangulation) (a : TriaAccessor) :
    Except Exc Triangulation :=
  LineAccessor.write_used_flag false t a

/-- The function `LineAccessor<dim>::set_user_flag`. -/
def LineAccessor.set_user_flag (t : Triangulation) (a : TriaAccessor) :
    Except Exc Triangulation := do
  Assert (← LineAccessor.used t a) .ExcCellNotUsed
  let lv ← vecGet t.levels a.present_level
  let u ← vecSet lv.lines.user_flags a.present_index true
  t.setLevel a.present_level { lv with lines := { lv.lines with user_flags := u } }

/-- The function `LineAccessor<dim>::set_user_pointer`. -/
def LineAccessor.set_user_pointer (t : Triangulation) (a : TriaAccessor) (p : Nat) :
    Except Exc Triangulation := do
  Assert (← LineAccessor.used t a) .ExcCellNotUsed
  let lv ← vecGet t.levels a.present_level
  let u ← vecSet lv.lines.user_pointers a.present_index p
  t.setLevel a.present_level { lv with lines := { lv.lines with user_pointers := u } }

/-- The function `LineAccessor<dim>::child_index`. -/
def LineAccessor.child_index (t : Triangulation) (a : TriaAccessor) (i : Nat) :
    Except Exc Int := do
  Assert (i < 2) (.ExcInvalidIndex i 0 1)
  let lv ← vecGet t.levels a.present_level
  let c ← vecGet lv.lines.children a.present_index
  pure (toInt32 (c + i))

/-- The function `LineAccessor<dim>::set_children`. -/
def LineAccessor.set_children (t : Triangulation) (a : TriaAccessor) (index : Int) :
    Except Exc Triangulation := do
  Assert (← LineAccessor.used t a) .ExcCellNotUsed
  let lv ← vecGet t.levels a.present_level
  let ch ← vecSet lv.lines.children a.present_index index
  t.setLevel a.present_level { lv with lines := { lv.lines with children := ch } }

/-- The function `LineAccessor<dim>::clear_children`. -/
def LineAccessor.clear_children (t : Triangulation) (a : TriaAccessor) :
    Except Exc Triangulation :=
  LineAccessor.set_children t a (-1)

/-- The function `LineAccessor<dim>::has_children`. -/
def LineAccessor.has_children (t : Triangulation) (a : TriaAccessor) : Except Exc Bool := do
  Assert (a.state == .valid) .ExcDereferenceInvalidObject
  let lv ← vecGet t.levels a.present_level
  let c ← vecGet lv.lines.children a.present_index
  pure (c != -1)

/-! ## Traversal

`operator ++` and `operator --` of the line and of the quad accessor are the
same loops over `lines.lines` and over `quads.quads`; `sz` is the size of the
vector scanned.  One unit of fuel is one evaluation of the loop condition. -/

/-- The `while` loop of `operator ++`, entered with the index already
incremented. -/
def advanceLoop (sz : TriangulationLevel → Nat) (t : Triangulation) :
    Nat → Int → Int → Except Exc (Int × Int)
  | 0, _, _ => .error .LoopFuel
  | fuel + 1, present_level, present_index => do
    let lv ← vecGet t.levels present_level
    if present_index ≥ (sz lv : Int) then
      if present_level + 1 ≥ (t.levels.length : Int) then
        pure (-1, -1)
      else
        advanceLoop sz t fuel (present_level + 1) 0
    else
      pure (present_level, present_index)

/-- The `while` loop of `operator --`, entered with the index already
decremented. -/
def retreatLoop (sz : TriangulationLevel → Nat) (t : Triangulation) :
    Nat → Int → Int → Except Exc (Int × Int)
  | 0, _, _ => .error .LoopFuel
  | fuel + 1, present_level, present_index =>
    if present_index < 0 then
      if present_level - 1 = -1 then
        pure (-1, -1)
      else do
        let lv ← vecGet t.levels (present_level - 1)
        retreatLoop sz t fuel (present_level - 1) ((sz lv : Int) - 1)
    else
      pure (present_level, present_index)

/-- Size of `lines.lines` of a level. -/
def lineSize (lv : TriangulationLevel) : Nat := lv.lines.lines.length

/-- Size of `quads.quads` of a level. -/
def quadSize (lv : TriangulationLevel) : Nat := lv.quads.quads.length

/-- The common body of `operator ++`. -/
def advance (sz : TriangulationLevel → Nat) (t : Triangulation) (a : TriaAccessor) :
    Except Exc TriaAccessor := do
  let r ← advanceLoop sz t (t.levels.length + 2) a.present_level (a.present_index + 1)
  pure { a with present_level := r.1, present_index := r.2 }

/-- The common body of `operator --`. -/
def retreat (sz : TriangulationLevel → Nat) (t : Triangulation) (a : TriaAccessor) :
    Except Exc TriaAccessor := do
  let r ← retreatLoop sz t (t.levels.length + 2) a.present_level (a.present_index - 1)
  pure { a with present_level := r.1, present_index := r.2 }

/-- The function `LineAccessor<dim>::operator ++`. -/
def LineAccessor.operator_inc (t : Triangulation) (a : TriaAccessor) :
    Except Exc TriaAccessor :=
  advance lineSize t a

/-- The function `LineAccessor<dim>::operator --`. -/
def LineAccessor.operator_dec (t : Triangulation) (a : TriaAccessor) :
    Except Exc TriaAccessor :=
  retreat lineSize t a

/-! ## QuadAccessor -/

/-- The function `QuadAccessor<dim>::used`. -/
def QuadAccessor.used (t : Triangulation) (a : TriaAccessor) : Except Exc Bool := do
  Assert (a.state == .valid) .ExcDereferenceInvalidObject
  let lv ← vecGet t.levels a.present_level
  vecGet lv.quads.used a.present_index

/-- The functions `QuadAccessor<dim>::set_used_flag` (`b = true`) and
`QuadAccessor<dim>::clear_used_flag` (`b = false`). -/
def QuadAccessor.write_used_flag (b : Bool) (t : Triangulation) (a : TriaAccessor) :
    Except Exc Triangulation := do
  Assert (a.state == .valid) .ExcDereferenceInvalidObject
  let lv ← vecGet t.levels a.present_level
  let u ← vecSet lv.quads.used a.present_index b
  t.setLevel a.present_level { lv with quads := { lv.quads with used := u } }

/-- The function `QuadAccessor<dim>::set_used_flag`. -/
def QuadAccessor.set_used_flag (t : Triangulation) (a : TriaAccessor) :
    Except Exc Triangulation :=
  QuadAccessor.write_used_flag true t a

/-- The function `QuadAccessor<dim>::clear_used_flag`. -/
def QuadAccessor.clear_used_flag (t : Triangulation) (a : TriaAccessor) :
    Except Exc Triangulation :=
  QuadAccessor.write_used_flag false t a

/-- The function `QuadAccessor<dim>::set_user_flag`. -/
def QuadAccessor.set_user_flag (t : Triangulation) (a : TriaAccessor) :
    Except Exc Triangulation := do
  Assert (← QuadAccessor.used t a) .ExcCellNotUsed
  let lv ← vecGet t.levels a.present_level
  let u ← vecSet lv.quads.user_flags a.present_index true
  t.setLevel a.present_level { lv with quads := { lv.quads with user_flags := u } }

/-- The function `QuadAccessor<dim>::set_user_pointer`. -/
def QuadAccessor.set_user_pointer (t : Triangulation) (a : TriaAccessor) (p : Nat) :
    Except Exc Triangulation := do
  Assert (← QuadAccessor.used t a) .ExcCellNotUsed
  let lv ← vecGet t.levels a.present_level
  let u ← vecSet lv.quads.user_pointers a.present_index p
  t.setLevel a.present_level { lv with quads := { lv.quads with user_pointers := u } }

/-- The function `QuadAccessor<dim>::child_index`. -/
def QuadAccessor.child_index (t : Triangulation) (a : TriaAccessor) (i : Nat) :
    Except Exc Int := do
  Assert (i < 4) (.ExcInvalidIndex i 0 3)
  let lv ← vecGet t.levels a.present_level
  let c ← vecGet lv.quads.children a.present_index
  pure (toInt32 (c + i))

/-- The function `QuadAccessor<dim>::set_children`. -/
def QuadAccessor.set_children (t : Triangulation) (a : TriaAccessor) (index : Int) :
    Except Exc Triangulation := do
  Assert (← QuadAccessor.used t a) .ExcCellNotUsed
  let lv ← vecGet t.levels a.present_level
  let ch ← vecSet lv.quads.children a.present_index index
  t.setLevel a.present_level { lv with quads := { lv.quads with children := ch } }

/-- The function `QuadAccessor<dim>::clear_children`. -/
def QuadAccessor.clear_children (t : Triangulation) (a : TriaAccessor) :
    Except Exc Triangulation :=
  QuadAccessor.set_children t a (-1)

/-- The function `QuadAccessor<dim>::has_children`. -/
def QuadAccessor.has_children (t : Triangulation) (a : TriaAccessor) : Except Exc Bool := do
  Assert (a.state == .valid) .ExcDereferenceInvalidObject
  let lv ← vecGet t.levels a.present_level
  let c ← vecGet lv.quads.children a.present_index
  pure (c != -1)

/-- The function `QuadAccessor<dim>::operator ++`. -/
def QuadAccessor.operator_inc (t : Triangulation) (a : TriaAccessor) :
    Except Exc TriaAccessor :=
  advance quadSize t a

/-- The function `QuadAccessor<dim>::operator --`. -/
def QuadAccessor.operator_dec (t : Triangulation) (a : TriaAccessor) :
    Except Exc TriaAccessor :=
  retreat quadSize t a

/-- The handle addresses a slot of every line array of its level. -/
def LineAccessor.in_range (t : Triangulation) (a : TriaAccessor) : Bool :=
  match vecGet t.levels a.present_level with
  | .ok lv =>
    decide (0 ≤ a.present_index) &&
    decide (a.present_index.toNat < lv.lines.lines.length) &&
    decide (a.present_index.toNat < lv.lines.children.length) &&
    decide (a.present_index.toNat < lv.lines.used.length) &&
    decide (a.present_index.toNat < lv.lines.user_flags.length) &&
    decide (a.present_index.toNat < lv.lines.material_id.length) &&
    decide (a.present_index.toNat < lv.lines.user_pointers.length)
  | .error _ => false

/-- The handle addresses a slot of every quad array of its level. -/
def QuadAccessor.in_range (t : Triangulation) (a : TriaAccessor) : Bool :=
  match vecGet t.levels a.present_level with
  | .ok lv =>
    decide (0 ≤ a.present_index) &&
    decide (a.present_index.toNat < lv.quads.quads.length) &&
    decide (a.present_index.toNat < lv.quads.children.length) &&
    decide (a.present_index.toNat < lv.quads.used.length) &&
    decide (a.present_index.toNat < lv.quads.user_flags.length) &&
    decide (a.present_index.toNat < lv.quads.material_id.length) &&
    decide (a.present_index.toNat < lv.quads.user_pointers.length)
  | .error _ => false

/-! ## CellAccessor -/

/-- The space dimension `deal_II_dimension` the file is compiled for: the cell
accessor is specialised for one and for two dimensions. -/
inductive Dim where
  | one
  | two
  deriving DecidableEq, Repr

/-- Modelled from the spec: `GeometryInfo<dim>::faces_per_cell`, declared in
`grid/geometry_info.h`: a cell has `2*dim` faces, 2 in 1D and 4 in 2D. -/
def faces_per_cell : Dim → Nat
  | .one => 2
  | .two => 4

/-- Modelled from the spec: the base class `TriaSubstructAccessor<dim>` of the
cell accessor, declared in `grid/tria_accessor.h`: the line accessor in 1D and
the quad accessor in 2D.  This is its `used`. -/
def CellAccessor.used (dim : Dim) (t : Triangulation) (a : TriaAccessor) :
    Except Exc Bool :=
  match dim with
  | .one => LineAccessor.used t a
  | .two => QuadAccessor.used t a

/-- Modelled from the spec: `has_children` of the base class
`TriaSubstructAccessor<dim>` of the cell accessor. -/
def CellAccessor.has_children (dim : Dim) (t : Triangulation) (a : TriaAccessor) :
    Except Exc Bool :=
  match dim with
  | .one => LineAccessor.has_children t a
  | .two => QuadAccessor.has_children t a

/-- Modelled from the spec: `set_used_flag` of the base class
`TriaSubstructAccessor<dim>` of the cell accessor. -/
def CellAccessor.set_used_flag (dim : Dim) (t : Triangulation) (a : TriaAccessor) :
    Except Exc Triangulation :=
  match dim with
  | .one => LineAccessor.set_used_flag t a
  | .two => QuadAccessor.set_used_flag t a

/-- Modelled from the spec: `clear_used_flag` of the base class
`TriaSubstructAccessor<dim>` of the cell accessor. -/
def CellAccessor.clear_used_flag (dim : Dim) (t : Triangulation) (a : TriaAccessor) :
    Except Exc Triangulation :=
  match dim with
  | .one => LineAccessor.clear_used_flag t a
  | .two => QuadAccessor.clear_used_flag t a

/-- Modelled from the spec: `set_children` of the base class
`TriaSubstructAccessor<dim>` of the cell accessor. -/
def CellAccessor.set_children (dim : Dim) (t : Triangulation) (a : TriaAccessor)
    (index : Int) : Except Exc Triangulation :=
  match dim with
  | .one => LineAccessor.set_children t a index
  | .two => QuadAccessor.set_children t a index

/-- Modelled from the spec: `clear_children` of the base class
`TriaSubstructAccessor<dim>` of the cell accessor. -/
def CellAccessor.clear_children (dim : Dim) (t : Triangulation) (a : TriaAccessor) :
    Except Exc Triangulation :=
  match dim with
  | .one => LineAccessor.clear_children t a
  | .two => QuadAccessor.clear_children t a

/-- Modelled from the spec: `set_user_flag` of the base class
`TriaSubstructAccessor<dim>` of the cell accessor. -/
def CellAccessor.set_user_flag (dim : Dim) (t : Triangulation) (a : TriaAccessor) :
    Except Exc Triangulation :=
  match dim with
  | .one => LineAccessor.set_user_flag t a
  | .two => QuadAccessor.set_user_flag t a

/-- Modelled from the spec: `set_user_pointer` of the base class
`TriaSubstructAccessor<dim>` of the cell accessor. -/
def CellAccessor.set_user_pointer (dim : Dim) (t : Triangulation) (a : TriaAccessor)
    (p : Nat) : Except Exc Triangulation :=
  match dim with
  | .one => LineAccessor.set_user_pointer t a p
  | .two => QuadAccessor.set_user_pointer t a p

/-- The functions `CellAccessor<1>::set_material_id` and
`CellAccessor<2>::set_material_id`. -/
def CellAccessor.set_material_id (dim : Dim) (t : Triangulation) (a : TriaAccessor)
    (mat_id : Nat) : Except Exc Triangulation := do
  Assert (← CellAccessor.used dim t a) .ExcCellNotUsed
  let lv ← vecGet t.levels a.present_level
  match dim with
  | .one =>
    let m ← vecSet lv.lines.material_id a.present_index mat_id
    t.setLevel a.present_level { lv with lines := { lv.lines with material_id := m } }
  | .two =>
    let m ← vecSet lv.quads.material_id a.present_index mat_id
    t.setLevel a.present_level { lv with quads := { lv.quads with material_id := m } }

/-- The function `CellAccessor<dim>::active`. -/
def CellAccessor.active (dim : Dim) (t : Triangulation) (a : TriaAccessor) :
    Except Exc Bool := do
  let c ← CellAccessor.has_children dim t a
  pure (!c)

/-- The function `CellAccessor<dim>::neighbor_index`. -/
def CellAccessor.neighbor_index (dim : Dim) (t : Triangulation) (a : TriaAccessor)
    (i : Nat) : Except Exc Int := do
  Assert (i < faces_per_cell dim) (.ExcInvalidNeighbor i)
  let lv ← vecGet t.levels a.present_level
  let n ← vecGet lv.neighbors (a.present_index * faces_per_cell dim + i)
  pure n.2

/-- The function `CellAccessor<dim>::neighbor_level`. -/
def CellAccessor.neighbor_level (dim : Dim) (t : Triangulation) (a : TriaAccessor)
    (i : Nat) : Except Exc Int := do
  Assert (i < faces_per_cell dim) (.ExcInvalidNeighbor i)
  let lv ← vecGet t.levels a.present_level
  let n ← vecGet lv.neighbors (a.present_index * faces_per_cell dim + i)
  pure n.1

/-- The function `CellAccessor<dim>::set_neighbor`: both components of the
table entry are written from the handle `pointer`. -/
def CellAccessor.set_neighbor (dim : Dim) (t : Triangulation) (a : TriaAccessor)
    (i : Nat) (pointer : TriaAccessor) : Except Exc Triangulation := do
  Assert (i < faces_per_cell dim) (.ExcInvalidNeighbor i)
  let lv ← vecGet t.levels a.present_level
  let nb ← vecSet lv.neighbors (a.present_index * faces_per_cell dim + i)
    (pointer.present_level, pointer.present_index)
  t.setLevel a.present_level { lv with neighbors := nb }

/-- The function `CellAccessor<dim>::at_boundary (const unsigned int i)`. -/
def CellAccessor.at_boundary (dim : Dim) (t : Triangulation) (a : TriaAccessor)
    (i : Nat) : Except Exc Bool := do
  Assert (← CellAccessor.used dim t a) .ExcCellNotUsed
  Assert (i < faces_per_cell dim) (.ExcInvalidIndex i 0 (faces_per_cell dim - 1))
  let n ← CellAccessor.neighbor_index dim t a i
  pure (n == -1)

/-- The functions `CellAccessor<1>::at_boundary ()` and
`CellAccessor<2>::at_boundary ()`, without argument. -/
def CellAccessor.at_boundary_cell (dim : Dim) (t : Triangulation) (a : TriaAccessor) :
    Except Exc Bool :=
  match dim with
  | .one =>
    orElse (CellAccessor.at_boundary .one t a 0) (CellAccessor.at_boundary .one t a 1)
  | .two =>
    orElse (orElse (orElse (CellAccessor.at_boundary .two t a 0)
      (CellAccessor.at_boundary .two t a 1)) (CellAccessor.at_boundary .two t a 2))
      (CellAccessor.at_boundary .two t a 3)

/-- The function `CellAccessor<dim>::refine_flag_set`. -/
def CellAccessor.refine_flag_set (dim : Dim) (t : Triangulation) (a : TriaAccessor) :
    Except Exc Bool := do
  Assert (← CellAccessor.used dim t a) .ExcCellNotUsed
  let lv ← vecGet t.levels a.present_level
  let cond ← orElse (CellAccessor.active dim t a)
    (do let f ← vecGet lv.refine_flags a.present_index; pure (!f))
  Assert cond .ExcRefineCellNotActive
  vecGet lv.refine_flags a.present_index

/-- The function `CellAccessor<dim>::coarsen_flag_set`. -/
def CellAccessor.coarsen_flag_set (dim : Dim) (t : Triangulation) (a : TriaAccessor) :
    Except Exc Bool := do
  Assert (← CellAccessor.used dim t a) .ExcCellNotUsed
  let lv ← vecGet t.levels a.present_level
  let cond ← orElse (CellAccessor.active dim t a)
    (do let f ← vecGet lv.coarsen_flags a.present_index; pure (!f))
  Assert cond .ExcRefineCellNotActive
  vecGet lv.coarsen_flags a.present_index

/-- The function `CellAccessor<dim>::set_refine_flag`. -/
def CellAccessor.set_refine_flag (dim : Dim) (t : Triangulation) (a : TriaAccessor) :
    Except Exc Triangulation := do
  Assert (← andThen (CellAccessor.used dim t a) (CellAccessor.active dim t a))
    .ExcRefineCellNotActive
  Assert (!(← CellAccessor.coarsen_flag_set dim t a)) .ExcCellFlaggedForCoarsening
  let lv ← vecGet t.levels a.present_level
  let f ← vecSet lv.refine_flags a.present_index true
  t.setLevel a.present_level { lv with refine_flags := f }

/-- The function `CellAccessor<dim>::clear_refine_flag`. -/
def CellAccessor.clear_refine_flag (dim : Dim) (t : Triangulation) (a : TriaAccessor) :
    Except Exc Triangulation := do
  Assert (← andThen (CellAccessor.used dim t a) (CellAccessor.active dim t a))
    .ExcRefineCellNotActive
  let lv ← vecGet t.levels a.present_level
  let f ← vecSet lv.refine_flags a.present_index false
  t.setLevel a.present_level { lv with refine_flags := f }

/-- The function `CellAccessor<dim>::set_coarsen_flag`. -/
def CellAccessor.set_coarsen_flag (dim : Dim) (t : Triangulation) (a : TriaAccessor) :
    Except Exc Triangulation := do
  Assert (← andThen (CellAccessor.used dim t a) (CellAccessor.active dim t a))
    .ExcRefineCellNotActive
  Assert (!(← CellAccessor.refine_flag_set dim t a)) .ExcCellFlaggedForRefinement
  let lv ← vecGet t.levels a.present_level
  let f ← vecSet lv.coarsen_flags a.present_index true
  t.setLevel a.present_level { lv with coarsen_flags := f }

/-- The function `CellAccessor<dim>::clear_coarsen_flag`. -/
def CellAccessor.clear_coarsen_flag (dim : Dim) (t : Triangulation) (a : TriaAccessor) :
    Except Exc Triangulation := do
  Assert (← andThen (CellAccessor.used dim t a) (CellAccessor.active dim t a))
    .ExcRefineCellNotActive
  let lv ← vecGet t.levels a.present_level
  let f ← vecSet lv.coarsen_flags a.present_index false
  t.setLevel a.present_level { lv with coarsen_flags := f }

/-! ## Cell slots, sequences of calls, invariants of the cell flags -/

/-- The used flags of the cells of a level: those of the lines in 1D, of the
quads in 2D. -/
def TriangulationLevel.cell_used (dim : Dim) (lv : TriangulationLevel) : List Bool :=
  match dim with
  | .one => lv.lines.used
  | .two => lv.quads.used

/-- The children offsets of the cells of a level: those of the lines in 1D, of
the quads in 2D. -/
def TriangulationLevel.cell_children (dim : Dim) (lv : TriangulationLevel) : List Int :=
  match dim with
  | .one => lv.lines.children
  | .two => lv.quads.children

/-- The handle addresses a cell slot: a slot of every array of the cells of its
level, of the cell flags and, with all its faces, of the neighbor table. -/
def CellAccessor.in_range (dim : Dim) (t : Triangulation) (a : TriaAccessor) : Bool :=
  (match dim with
    | .one => LineAccessor.in_range t a
    | .two => QuadAccessor.in_range t a) &&
  match vecGet t.levels a.present_level with
  | .ok lv =>
    decide (a.present_index.toNat < lv.refine_flags.length) &&
    decide (a.present_index.toNat < lv.coarsen_flags.length) &&
    decide (a.present_index.toNat * faces_per_cell dim + faces_per_cell dim
      ≤ lv.neighbors.length)
  | .error _ => false

/-- The values stored for the cell slot a handle addresses: the level `lv`, the
used flag `u`, the children offset `c`, the refine flag `rf` and the coarsen
flag `cf`. -/
structure CellReads (dim : Dim) (t : Triangulation) (a : TriaAccessor)
    (lv : TriangulationLevel) (u : Bool) (c : Int) (rf cf : Bool) : Prop where
  hlv : vecGet t.levels a.present_level = .ok lv
  hi : 0 ≤ a.present_index
  hu : vecGet (lv.cell_used dim) a.present_index = .ok u
  hc : vecGet (lv.cell_children dim) a.present_index = .ok c
  hrf : vecGet lv.refine_flags a.present_index = .ok rf
  hcf : vecGet lv.coarsen_flags a.present_index = .ok cf

/-- The arrays the flag invariant reads are equal in two levels. -/
structure SameCellArrays (dim : Dim) (lv lv2 : TriangulationLevel) : Prop where
  hrf : lv2.refine_flags = lv.refine_flags
  hcf : lv2.coarsen_flags = lv.coarsen_flags
  hu : lv2.cell_used dim = lv.cell_used dim
  hc : lv2.cell_children dim = lv.cell_children dim

/-- The stored refine flag of the slot a handle addresses. -/
def stored_refine_flag (t : Triangulation) (a : TriaAccessor) : Except Exc Bool := do
  let lv ← vecGet t.levels a.present_level
  vecGet lv.refine_flags a.present_index

/-- The stored coarsen flag of the slot a handle addresses. -/
def stored_coarsen_flag (t : Triangulation) (a : TriaAccessor) : Except Exc Bool := do
  let lv ← vecGet t.levels a.present_level
  vecGet lv.coarsen_flags a.present_index

/-- The four calls that write the refine and coarsen flags. -/
inductive FlagOp where
  | set_refine_flag
  | clear_refine_flag
  | set_coarsen_flag
  | clear_coarsen_flag
  deriving DecidableEq, Repr

/-- A call of a flag function on the cell handle `a`. -/
def FlagOp.apply (dim : Dim) (op : FlagOp) (t : Triangulation) (a : TriaAccessor) :
    Except Exc Triangulation :=
  match op with
  | .set_refine_flag => CellAccessor.set_refine_flag dim t a
  | .clear_refine_flag => CellAccessor.clear_refine_flag dim t a
  | .set_coarsen_flag => CellAccessor.set_coarsen_flag dim t a
  | .clear_coarsen_flag => CellAccessor.clear_coarsen_flag dim t a

/-- A sequence of calls of flag functions, each on its own cell handle; it
stops at the first call that fails. -/
def runFlagOps (dim : Dim) : List (FlagOp × TriaAccessor) → Triangulation →
    Except Exc Triangulation
  | [], t => .ok t
  | (op, a) :: ops, t => do
    let t2 ← op.apply dim t a
    runFlagOps dim ops t2

/-- No cell slot has both its refine flag and its coarsen flag set. -/
abbrev NoBothFlags (t : Triangulation) : Prop :=
  ∀ lv ∈ t.levels, ∀ i < lv.refine_flags.length,
    ¬ (lv.refine_flags[i]? = some true ∧ lv.coarsen_flags[i]? = some true)

/-- For every cell slot, a set refine flag or a set coarsen flag implies that
the slot is used and has no children. -/
abbrev FlagsImplyUsedActive (dim : Dim) (t : Triangulation) : Prop :=
  ∀ lv ∈ t.levels,
    (∀ i < lv.refine_flags.length, lv.refine_flags[i]? = some true →
      (lv.cell_used dim)[i]? = some true ∧ (lv.cell_children dim)[i]? = some (-1)) ∧
    (∀ i < lv.coarsen_flags.length, lv.coarsen_flags[i]? = some true →
      (lv.cell_used dim)[i]? = some true ∧ (lv.cell_children dim)[i]? = some (-1))

/-- The calls of the mutation surface of a cell accessor. -/
inductive CellOp where
  | set_used_flag
  | clear_used_flag
  | set_children (index : Int)
  | clear_children
  | set_neighbor (i : Nat) (pointer : TriaAccessor)
  | set_refine_flag
  | clear_refine_flag
  | set_coarsen_flag
  | clear_coarsen_flag
  | set_material_id (mat_id : Nat)
  | set_user_flag
  | set_user_pointer (p : Nat)
  deriving DecidableEq, Repr

/-- A call of the mutation surface on the cell handle `a`. -/
def CellOp.apply (dim : Dim) (op : CellOp) (t : Triangulation) (a : TriaAccessor) :
    Except Exc Triangulation :=
  match op with
  | .set_used_flag => CellAccessor.set_used_flag dim t a
  | .clear_used_flag => CellAccessor.clear_used_flag dim t a
  | .set_children index => CellAccessor.set_children dim t a index
  | .clear_children => CellAccessor.clear_children dim t a
  | .set_neighbor i pointer => CellAccessor.set_neighbor dim t a i pointer
  | .set_refine_flag => CellAccessor.set_refine_flag dim t a
  | .clear_refine_flag => CellAccessor.clear_refine_flag dim t a
  | .set_coarsen_flag => CellAccessor.set_coarsen_flag dim t a
  | .clear_coarsen_flag => CellAccessor.clear_coarsen_flag dim t a
  | .set_material_id mat_id => CellAccessor.set_material_id dim t a mat_id
  | .set_user_flag => CellAccessor.set_user_flag dim t a
  | .set_user_pointer p => CellAccessor.set_user_pointer dim t a p

/-! ## Sample triangulations -/

/-- A level of line cells with the given used flags, children offsets and cell
flags; every slot lies on the boundary with both faces. -/
def sampleLineLevel (used : List Bool) (children : List Int)
    (refine coarsen : List Bool) : TriangulationLevel :=
  { refine_flags := refine
    coarsen_flags := coarsen
    neighbors := List.replicate (2 * used.length) (-1, -1)
    lines :=
      { lines := List.replicate used.length {}
        children := children
        used := used
        user_flags := List.replicate used.length false
        material_id := List.replicate used.length 0
        user_pointers := List.replicate used.length 0 } }

/-- A level of quad cells with the given used flags, children offsets and cell
flags; every slot lies on the boundary with all four faces. -/
def sampleQuadLevel (used : List Bool) (children : List Int)
    (refine coarsen : List Bool) : TriangulationLevel :=
  { refine_flags := refine
    coarsen_flags := coarsen
    neighbors := List.replicate (4 * used.length) (-1, -1)
    quads :=
      { quads := List.replicate used.length {}
        children := children
        used := used
        user_flags := List.replicate used.length false
        material_id := List.replicate used.length 0
        user_pointers := List.replicate used.length 0 } }

/-- One level with a single used, active, unflagged line cell. -/
def oneLine : Triangulation :=
  { levels := [sampleLineLevel [true] [-1] [false] [false]] }

/-- One level with a single used, active, unflagged quad cell. -/
def oneQuad : Triangulation :=
  { levels := [sampleQuadLevel [true] [-1] [false] [false]] }

/-- The single line cell of `oneLine` with its coarsen flag set. -/
def oneLineCoarsen : Triangulation :=
  { levels := [sampleLineLevel [true] [-1] [false] [true]] }

/-- The single quad cell of `oneQuad` with its refine flag set. -/
def oneQuadRefine : Triangulation :=
  { levels := [sampleQuadLevel [true] [-1] [true] [false]] }

/-- The quad cell of `oneQuadRefine` after `clear_used_flag`. -/
def oneQuadRefineUnused : Triangulation :=
  { levels := [sampleQuadLevel [false] [-1] [true] [false]] }

/-- The quad cell of `oneQuadRefine` after `set_children (0)`. -/
def oneQuadRefineChildren : Triangulation :=
  { levels := [sampleQuadLevel [true] [0] [true] [false]] }

/-- The quad cell of `oneQuad` after `clear_used_flag`. -/
def oneQuadUnused : Triangulation :=
  { levels := [sampleQuadLevel [false] [-1] [false] [false]] }

/-- Three line cells in a row on one level; the middle one, slot `(0, 1)`, has
the neighbors `(0, 0)` and `(0, 2)`. -/
def innerLine : Triangulation :=
  { levels := [{ sampleLineLevel [true, true, true] [-1, -1, -1] [false, false, false]
        [false, false, false] with
      neighbors := [(-1, -1), (0, 1), (0, 0), (0, 2), (0, 1), (-1, -1)] }] }

/-- One used quad with the boundary indicator 255, interior to the domain. -/
def interiorQuad : Triangulation :=
  { levels :=
      [{ quads :=
          { quads := [{}]
            children := [-1]
            used := [true]
            user_flags := [false]
            material_id := [255]
            user_pointers := [0] } }] }

/-- One used line with the boundary indicator 255, interior to the domain. -/
def interiorLine : Triangulation :=
  { levels :=
      [{ lines :=
          { lines := [{}]
            children := [-1]
            used := [true]
            user_flags := [false]
            material_id := [255]
            user_pointers := [0] } }] }

/-- The handle of slot `(0, 0)`. -/
def firstSlot : TriaAccessor := { present_level := 0, present_index := 0 }

/-! ## Slots and traversals -/

/-- The slots `(l, 0), ..., (l, n - 1)` of a level with `n` slots. -/
def levelSlots (l n : Nat) : List (Int × Int) :=
  (List.range n).map fun (i : Nat) => ((l : Int), (i : Int))

/-- The slots of consecutive levels with the given sizes, the first of them
numbered `l`, level by level and by increasing index. -/
def slotsFrom : Nat → List Nat → List (Int × Int)
  | _, [] => []
  | l, n :: sizes => levelSlots l n ++ slotsFrom (l + 1) sizes

/-- All slots `(l, i)`, `0 ≤ l < L`, `0 ≤ i < size (l)`, of the vector whose
size is `sz`, in lexicographic order. -/
def allSlots (sz : TriangulationLevel → Nat) (t : Triangulation) : List (Int × Int) :=
  slotsFrom 0 (t.levels.map sz)

/-- Lexicographic order on `(level, index)`. -/
def slotLt (x y : Int × Int) : Prop :=
  x.1 < y.1 ∨ (x.1 = y.1 ∧ x.2 < y.2)

/-- Size of level `l` of the vector whose size is `sz`; zero outside the
levels. -/
def levelSize (sz : TriangulationLevel → Nat) (t : Triangulation) (l : Int) : Nat :=
  match vecGet t.levels l with
  | .ok lv => sz lv
  | .error _ => 0

/-- The loop of a caller, `for (; a.state () != past_the_end; step (a))`: the
`(level, index)` pairs of the handles visited, in the order of the visit. -/
def traverse (step : TriaAccessor → Except Exc TriaAccessor) :
    Nat → TriaAccessor → Except Exc (List (Int × Int))
  | 0, _ => .error .LoopFuel
  | fuel + 1, a =>
    if a.state = .past_the_end then .ok []
    else do
      let a2 ← step a
      let rest ← traverse step fuel a2
      pure ((a.present_level, a.present_index) :: rest)

/-- Three levels of lines with 2, 0 and 1 slots. -/
def threeLevels : Triangulation :=
  { levels := [sampleLineLevel [true, false] [-1, -1] [false, false] [false, false],
      {}, sampleLineLevel [true] [-1] [false] [false]] }

/-- Three levels of quads with 0, 2 and 0 slots. -/
def threeQuadLevels : Triangulation :=
  { levels := [{}, sampleQuadLevel [true, true] [-1, -1] [false, false] [false, false],
      {}] }

/-- The level with the entry at position `pos` of its neighbor table replaced. -/
def TriangulationLevel.withNeighbor (lv : TriangulationLevel) (pos : Int) (n : Int × Int) :
    TriangulationLevel :=
  { lv with neighbors := lv.neighbors.set pos.toNat n }

/-! ## Handle identity -/

/-- The function `TriaAccessor<dim>::copy_from`: the handle `a` after
`a.copy_from (b)`. -/
def TriaAccessor.copy_from (_a b : TriaAccessor) : TriaAccessor :=
  { present_level := b.present_level, present_index := b.present_index, tria := b.tria }

/-- The function `TriaAccessor<dim>::operator ==`. -/
def TriaAccessor.operator_eq (a b : TriaAccessor) : Except Exc Bool := do
  Assert (a.tria == b.tria) .ExcCantCompareIterators
  pure ((a.present_index == b.present_index) && (a.present_level == b.present_level))

/-- The function `TriaAccessor<dim>::operator !=`. -/
def TriaAccessor.operator_ne (a b : TriaAccessor) : Except Exc Bool := do
  Assert (a.tria == b.tria) .ExcCantCompareIterators
  pure ((a.present_index != b.present_index) || (a.present_level != b.present_level))

/-! ## Boundary indicator of lines and quads

The template parameter `dim` of the line and of the quad accessor is a
number: the boundary indicator is asserted to be useful from `dim = 2` on for
a line and from `dim = 3` on for a quad. -/

/-- The function `LineAccessor<dim>::boundary_indicator`. -/
def LineAccessor.boundary_indicator (dim : Nat) (t : Triangulation) (a : TriaAccessor) :
    Except Exc Nat := do
  Assert (dim ≥ 2) .ExcNotUsefulForThisDimension
  Assert (← LineAccessor.used t a) .ExcCellNotUsed
  let lv ← vecGet t.levels a.present_level
  vecGet lv.lines.material_id a.present_index

/-- The function `LineAccessor<dim>::set_boundary_indicator`. -/
def LineAccessor.set_boundary_indicator (dim : Nat) (t : Triangulation) (a : TriaAccessor)
    (boundary_ind : Nat) : Except Exc Triangulation := do
  Assert (dim ≥ 2) .ExcNotUsefulForThisDimension
  Assert (← LineAccessor.used t a) .ExcCellNotUsed
  let lv ← vecGet t.levels a.present_level
  let m ← vecSet lv.lines.material_id a.present_index boundary_ind
  t.setLevel a.present_level { lv with lines := { lv.lines with material_id := m } }

/-- The function `LineAccessor<dim>::at_boundary`. -/
def LineAccessor.at_boundary (dim : Nat) (t : Triangulation) (a : TriaAccessor) :
    Except Exc Bool := do
  let b ← LineAccessor.boundary_indicator dim t a
  pure (b != 255)

/-- The function `QuadAccessor<dim>::boundary_indicator`. -/
def QuadAccessor.boundary_indicator (dim : Nat) (t : Triangulation) (a : TriaAccessor) :
    Except Exc Nat := do
  Assert (dim ≥ 3) .ExcNotUsefulForThisDimension
  Assert (← QuadAccessor.used t a) .ExcCellNotUsed
  let lv ← vecGet t.levels a.present_level
  vecGet lv.quads.material_id a.present_index

/-- The function `QuadAccessor<dim>::set_boundary_indicator`. -/
def QuadAccessor.set_boundary_indicator (dim : Nat) (t : Triangulation) (a : TriaAccessor)
    (boundary_ind : Nat) : Except Exc Triangulation := do
  Assert (dim ≥ 3) .ExcNotUsefulForThisDimension
  Assert (← QuadAccessor.used t a) .ExcCellNotUsed
  let lv ← vecGet t.levels a.present_level
  let m ← vecSet lv.quads.material_id a.present_index boundary_ind
  t.setLevel a.present_level { lv with quads := { lv.quads with material_id := m } }

/-- The function `QuadAccessor<dim>::at_boundary`. -/
def QuadAccessor.at_boundary (dim : Nat) (t : Triangulation) (a : TriaAccessor) :
    Except Exc Bool := do
  let b ← QuadAccessor.boundary_indicator dim t a
  pure (b != 255)

/-! ## User flag and user pointer of lines and quads

A pointer is a number, the null pointer is `0`. -/

/-- The function `LineAccessor<dim>::user_flag_set`. -/
def LineAccessor.user_flag_set (t : Triangulation) (a : TriaAccessor) : Except Exc Bool := do
  Assert (← LineAccessor.used t a) .ExcCellNotUsed
  let lv ← vecGet t.levels a.present_level
  vecGet lv.lines.user_flags a.present_index

/-- The function `LineAccessor<dim>::clear_user_flag`. -/
def LineAccessor.clear_user_flag (t : Triangulation) (a : TriaAccessor) :
    Except Exc Triangulation := do
  Assert (← LineAccessor.used t a) .ExcCellNotUsed
  let lv ← vecGet t.levels a.present_level
  let u ← vecSet lv.lines.user_flags a.present_index false
  t.setLevel a.present_level { lv with lines := { lv.lines with user_flags := u } }

/-- The function `LineAccessor<dim>::user_pointer`. -/
def LineAccessor.user_pointer (t : Triangulation) (a : TriaAccessor) : Except Exc Nat := do
  Assert (← LineAccessor.used t a) .ExcCellNotUsed
  let lv ← vecGet t.levels a.present_level
  vecGet lv.lines.user_pointers a.present_index

/-- The function `LineAccessor<dim>::clear_user_pointer`. -/
def LineAccessor.clear_user_pointer (t : Triangulation) (a : TriaAccessor) :
    Except Exc Triangulation := do
  Assert (← LineAccessor.used t a) .ExcCellNotUsed
  let lv ← vecGet t.levels a.present_level
  let u ← vecSet lv.lines.user_pointers a.present_index 0
  t.setLevel a.present_level { lv with lines := { lv.lines with user_pointers := u } }

/-- The function `QuadAccessor<dim>::user_flag_set`. -/
def QuadAccessor.user_flag_set (t : Triangulation) (a : TriaAccessor) : Except Exc Bool := do
  Assert (← QuadAccessor.used t a) .ExcCellNotUsed
  let lv ← vecGet t.levels a.present_level
  vecGet lv.quads.user_flags a.present_index

/-- The function `QuadAccessor<dim>::clear_user_flag`. -/
def QuadAccessor.clear_user_flag (t : Triangulation) (a : TriaAccessor) :
    Except Exc Triangulation := do
  Assert (← QuadAccessor.used t a) .ExcCellNotUsed
  let lv ← vecGet t.levels a.present_level
  let u ← vecSet lv.quads.user_flags a.present_index false
  t.setLevel a.present_level { lv with quads := { lv.quads with user_flags := u } }

/-- The function `QuadAccessor<dim>::user_pointer`. -/
def QuadAccessor.user_pointer (t : Triangulation) (a : TriaAccessor) : Except Exc Nat := do
  Assert (← QuadAccessor.used t a) .ExcCellNotUsed
  let lv ← vecGet t.levels a.present_level
  vecGet lv.quads.user_pointers a.present_index

/-- The function `QuadAccessor<dim>::clear_user_pointer`. -/
def QuadAccessor.clear_user_pointer (t : Triangulation) (a : TriaAccessor) :
    Except Exc Triangulation := do
  Assert (← QuadAccessor.used t a) .ExcCellNotUsed
  let lv ← vecGet t.levels a.present_level
  let u ← vecSet lv.quads.user_pointers a.present_index 0
  t.setLevel a.present_level { lv with quads := { lv.quads with user_pointers := u } }

/-! ## Vertices and diameter -/

/-- Modelled from the spec: `Line::vertex (i)`, declared with the class `Line`
outside the sources at hand: the index of the `i`-th end point of a line. -/
def Line.vertex (ln : Line) (i : Nat) : Int :=
  if i = 0 then ln.v0 else ln.v1

/-- Modelled from the spec: `Quad::line (i)`, declared with the class `Quad`
outside the sources at hand: the index of the `i`-th bounding line of a quad. -/
def Quad.line (q : Quad) (i : Nat) : Int :=
  if i = 0 then q.l0 else if i = 1 then q.l1 else if i = 2 then q.l2 else q.l3

/-- Modelled from the spec: `operator -` of `Point<dim>`, coordinate by
coordinate. -/
def Point.sub (p q : Point) : Point :=
  List.zipWith (fun x y => x - y) p q

/-- Modelled from the spec: `Point<dim>::square`, the square of the Euclidean
norm. -/
def Point.square (p : Point) : Rat :=
  (p.map fun x => x * x).sum

/-- The function `LineAccessor<dim>::vertex_index`. -/
def LineAccessor.vertex_index (t : Triangulation) (a : TriaAccessor) (i : Nat) :
    Except Exc Int := do
  Assert (i < 2) (.ExcInvalidIndex i 0 1)
  let lv ← vecGet t.levels a.present_level
  let ln ← vecGet lv.lines.lines a.present_index
  pure (ln.vertex i)

/-- The function `LineAccessor<dim>::vertex`. -/
def LineAccessor.vertex (t : Triangulation) (a : TriaAccessor) (i : Nat) :
    Except Exc Point := do
  let vi ← LineAccessor.vertex_index t a i
  vecGet t.vertices vi

/-- The function `LineAccessor<dim>::diameter` in exact arithmetic: the
argument of `sqrt`, which is the square of the value returned. -/
def LineAccessor.diameter_square (t : Triangulation) (a : TriaAccessor) :
    Except Exc Rat := do
  let v1 ← LineAccessor.vertex t a 1
  let v0 ← LineAccessor.vertex t a 0
  pure (v1.sub v0).square

/-- The function `QuadAccessor<dim>::line_index`. -/
def QuadAccessor.line_index (t : Triangulation) (a : TriaAccessor) (i : Nat) :
    Except Exc Int := do
  Assert (i < 4) (.ExcInvalidIndex i 0 3)
  let lv ← vecGet t.levels a.present_level
  let q ← vecGet lv.quads.quads a.present_index
  pure (q.line i)

/-- The function `QuadAccessor<dim>::line`: the iterator to the `i`-th bounding
line is the handle of that line on the level of the quad. -/
def QuadAccessor.line (t : Triangulation) (a : TriaAccessor) (i : Nat) :
    Except Exc TriaAccessor := do
  let li ← QuadAccessor.line_index t a i
  pure { tria := a.tria, present_level := a.present_level, present_index := li }

/-- The table `corner_convention` of `QuadAccessor<dim>::vertex_index`. -/
def corner_convention : List Nat := [0, 0, 1, 1]

/-- The function `QuadAccessor<dim>::vertex_index`. -/
def QuadAccessor.vertex_index (t : Triangulation) (a : TriaAccessor) (corner : Nat) :
    Except Exc Int := do
  Assert (corner < 4) (.ExcInvalidIndex corner 0 3)
  let c ← vecGet corner_convention corner
  let l ← QuadAccessor.line t a corner
  LineAccessor.vertex_index t l c

/-- The function `QuadAccessor<dim>::vertex`. -/
def QuadAccessor.vertex (t : Triangulation) (a : TriaAccessor) (i : Nat) :
    Except Exc Point := do
  let vi ← QuadAccessor.vertex_index t a i
  vecGet t.vertices vi

/-- The function `QuadAccessor<dim>::diameter` in exact arithmetic: the
argument of `sqrt`, which is the square of the value returned. -/
def QuadAccessor.diameter_square (t : Triangulation) (a : TriaAccessor) :
    Except Exc Rat := do
  let v2 ← QuadAccessor.vertex t a 2
  let v0 ← QuadAccessor.vertex t a 0
  let v3 ← QuadAccessor.vertex t a 3
  let v1 ← QuadAccessor.vertex t a 1
  pure (max (v2.sub v0).square (v3.sub v1).square)

/-- The level of the unit square: the lines `0 → 1`, `1 → 2`, `3 → 2`, `0 → 3`
between its four vertices and the quad bounded by them. -/
def unitSquareLevel : TriangulationLevel :=
  { refine_flags := [false]
    coarsen_flags := [false]
    neighbors := List.replicate 4 (-1, -1)
    lines :=
      { lines := [⟨0, 1⟩, ⟨1, 2⟩, ⟨3, 2⟩, ⟨0, 3⟩]
        children := [-1, -1, -1, -1]
        used := [true, true, true, true]
        user_flags := [false, false, false, false]
        material_id := [0, 0, 0, 0]
        user_pointers := [0, 0, 0, 0] }
    quads :=
      { quads := [⟨0, 1, 2, 3⟩]
        children := [-1]
        used := [true]
        user_flags := [false]
        material_id := [0]
        user_pointers := [0] } }

/-- The unit square with the vertices `(0,0)`, `(1,0)`, `(1,1)`, `(0,1)`. -/
def unitSquare : Triangulation :=
  { vertices := [[0, 0], [1, 0], [1, 1], [0, 1]]
    levels := [unitSquareLevel] }

/-! ## Children and neighbors -/

/-- The check of the debug build on the iterator `q` just built, `usedq` being
the result of `q->used ()`: unless `q` is past the end it must point to a used
object, else the check fails with `exc`. -/
def checkUsed (usedq : Except Exc Bool) (q : TriaAccessor) (exc : Exc) :
    Except Exc TriaAccessor :=
  if q.state = .past_the_end then pure q
  else do
    Assert (← usedq) exc
    pure q

/-- The function `LineAccessor<dim>::child`, with the check of the debug
build. -/
def LineAccessor.child (t : Triangulation) (a : TriaAccessor) (i : Nat) :
    Except Exc TriaAccessor := do
  Assert (i < 2) (.ExcInvalidIndex i 0 1)
  let ci ← LineAccessor.child_index t a i
  let q : TriaAccessor :=
    { tria := a.tria, present_level := a.present_level + 1, present_index := ci }
  checkUsed (LineAccessor.used t q) q .ExcUnusedCellAsChild

/-- The function `QuadAccessor<dim>::child`, with the check of the debug
build. -/
def QuadAccessor.child (t : Triangulation) (a : TriaAccessor) (i : Nat) :
    Except Exc TriaAccessor := do
  Assert (i < 4) (.ExcInvalidIndex i 0 3)
  let ci ← QuadAccessor.child_index t a i
  let q : TriaAccessor :=
    { tria := a.tria, present_level := a.present_level + 1, present_index := ci }
  checkUsed (QuadAccessor.used t q) q .ExcUnusedCellAsChild

/-- Modelled from the spec: `child_index` of the base class
`TriaSubstructAccessor<dim>` of the cell accessor. -/
def CellAccessor.child_index (dim : Dim) (t : Triangulation) (a : TriaAccessor) (i : Nat) :
    Except Exc Int :=
  match dim with
  | .one => LineAccessor.child_index t a i
  | .two => QuadAccessor.child_index t a i

/-- The function `CellAccessor<dim>::child`, with the check of the debug
build. -/
def CellAccessor.child (dim : Dim) (t : Triangulation) (a : TriaAccessor) (i : Nat) :
    Except Exc TriaAccessor := do
  let ci ← CellAccessor.child_index dim t a i
  let q : TriaAccessor :=
    { tria := a.tria, present_level := a.present_level + 1, present_index := ci }
  checkUsed (CellAccessor.used dim t q) q .ExcUnusedCellAsChild

/-- The function `CellAccessor<dim>::neighbor`, with the check of the debug
build. -/
def CellAccessor.neighbor (dim : Dim) (t : Triangulation) (a : TriaAccessor) (i : Nat) :
    Except Exc TriaAccessor := do
  let nl ← CellAccessor.neighbor_level dim t a i
  let ni ← CellAccessor.neighbor_index dim t a i
  let q : TriaAccessor := { tria := a.tria, present_level := nl, present_index := ni }
  checkUsed (CellAccessor.used dim t q) q .ExcUnusedCellAsNeighbor

/-- The number of children of a cell: 2 for a line, 4 for a quad. -/
def children_per_cell : Dim → Nat
  | .one => 2
  | .two => 4

/-- The contract of `child (i)` for an entity with the children offset `k`,
where `child` and `used` are those of the line, of the quad or of the cell
accessor and `arity` is the number of children.  If `child (i)` returns, it
returns the handle `(level + 1, k + i)`.  When the slots `k .. k + arity - 1`
of level `level + 1` have `int` indices and are all used, `child (i)` returns
that handle, which is valid and used.  When the handle built is not past the
end and its slot is unused, `child (i)` fails with `ExcUnusedCellAsChild`. -/
abbrev ChildContract (child : Triangulation → TriaAccessor → Nat → Except Exc TriaAccessor)
    (used : Triangulation → TriaAccessor → Except Exc Bool) (arity : Nat)
    (t : Triangulation) (a : TriaAccessor) (k : Int) (i : Nat) : Prop :=
  (∀ r, child t a i = .ok r → r = ⟨a.tria, a.present_level + 1, k + i⟩) ∧
  ((∀ j : Nat, j < arity → used t ⟨a.tria, a.present_level + 1, k + j⟩ = .ok true) →
    k + arity ≤ 2147483648 →
    child t a i = .ok ⟨a.tria, a.present_level + 1, k + i⟩ ∧
    TriaAccessor.state ⟨a.tria, a.present_level + 1, k + i⟩ = .valid ∧
    used t ⟨a.tria, a.present_level + 1, k + i⟩ = .ok true) ∧
  (TriaAccessor.state ⟨a.tria, a.present_level + 1, toInt32 (k + i)⟩ ≠ .past_the_end →
    used t ⟨a.tria, a.present_level + 1, toInt32 (k + i)⟩ = .ok false →
    child t a i = .error .ExcUnusedCellAsChild)

/-- Two levels of lines: a refined line on level 0 with the children offset 0,
and its two used children on level 1. -/
def refinedLine : Triangulation :=
  { levels := [sampleLineLevel [true] [0] [false] [false],
      sampleLineLevel [true, true] [-1, -1] [false, false] [false, false]] }

/-- Two levels of quads: a refined quad on level 0 with the children offset 0,
and four children on level 1 of which the last is unused. -/
def brokenQuad : Triangulation :=
  { levels := [sampleQuadLevel [true] [0] [false] [false],
      sampleQuadLevel [true, true, true, false] [-1, -1, -1, -1]
        [false, false, false, false] [false, false, false, false]] }

/-! ## Contract of the children offset -/

/-- The contract of the children offset of an entity, where `used`,
`set_children`, `clear_children` and `has_children` are those of the line, of
the quad or of the cell accessor and `inr` tells whether the handle is in
range.  For a used entity in range, `set_children (k)` succeeds and afterwards
`has_children ()` returns `k != -1`; `clear_children ()` is
`set_children (-1)`; `has_children ()` fails when the state is not valid;
`set_children (k)` fails when the entity is unused. -/
abbrev ChildrenContract (inr : Bool) (used : Triangulation → TriaAccessor → Except Exc Bool)
    (set_children : Triangulation → TriaAccessor → Int → Except Exc Triangulation)
    (clear_children : Triangulation → TriaAccessor → Except Exc Triangulation)
    (has_children : Triangulation → TriaAccessor → Except Exc Bool)
    (t : Triangulation) (a : TriaAccessor) : Prop :=
  (inr = true → used t a = .ok true →
    ∀ k : Int, ∃ t2, set_children t a k = .ok t2 ∧ has_children t2 a = .ok (k != -1)) ∧
  clear_children t a = set_children t a (-1) ∧
  (a.state ≠ .valid → has_children t a = .error .ExcDereferenceInvalidObject) ∧
  (used t a = .ok false → ∀ k : Int, set_children t a k = .error .ExcCellNotUsed)

/-! ## Traversal with a log

The loops of `operator ++` and `operator --` once more, with a log of what a
run does.  The size of a level outside the levels, which the source has no
right to read, is taken to be `0` here (`levelSize`), so that a run goes on
after such a read and the log shows it. -/

/-- The log of a run of the loop: the `(level, index)` pair it ends with, the
number of times the body of the loop was entered, and the levels whose size
was read, in the order of the reads. -/
structure LoopLog where
  result : Int × Int
  iterations : Nat
  reads : List Int
  deriving DecidableEq, Repr

/-- The log after one more pass through the body of the loop, which read the
size of level `l` before the run logged in `g`. -/
def LoopLog.after (l : Int) (g : LoopLog) : LoopLog :=
  { result := g.result, iterations := g.iterations + 1, reads := l :: g.reads }

/-- The `while` loop of `operator ++` with its log; the loop condition reads
the size of the present level. -/
def advanceLoopLog (sz : TriangulationLevel → Nat) (t : Triangulation) :
    Nat → Int → Int → Option LoopLog
  | 0, _, _ => none
  | fuel + 1, present_level, present_index =>
    if present_index ≥ (levelSize sz t present_level : Int) then
      if present_level + 1 ≥ (t.levels.length : Int) then
        some { result := (-1, -1), iterations := 1, reads := [present_level] }
      else
        (advanceLoopLog sz t fuel (present_level + 1) 0).map (LoopLog.after present_level)
    else
      some { result := (present_level, present_index), iterations := 0,
             reads := [present_level] }

/-- The `while` loop of `operator --` with its log; the body of the loop reads
the size of the level it has stepped down to. -/
def retreatLoopLog (sz : TriangulationLevel → Nat) (t : Triangulation) :
    Nat → Int → Int → Option LoopLog
  | 0, _, _ => none
  | fuel + 1, present_level, present_index =>
    if present_index < 0 then
      if present_level - 1 = -1 then
        some { result := (-1, -1), iterations := 1, reads := [] }
      else
        (retreatLoopLog sz t fuel (present_level - 1)
          ((levelSize sz t (present_level - 1) : Int) - 1)).map
          (LoopLog.after (present_level - 1))
    else
      some { result := (present_level, present_index), iterations := 0, reads := [] }

/-- The bounds on a traversal step from the handle `a`, where `sz` is the size
of the vector scanned and `inc`, `dec` are `operator ++` and `operator --`.
The loop of `operator ++` is left after at most `L - level` passes through its
body and that of `operator --` after at most `level + 1`, `L` being the number
of levels; every level whose size is read lies in `[0, L)`; and the operators
return the handle the logged run ends with. -/
abbrev TraversalBounded (sz : TriangulationLevel → Nat)
    (inc dec : Triangulation → TriaAccessor → Except Exc TriaAccessor)
    (t : Triangulation) (a : TriaAccessor) : Prop :=
  (∃ g, advanceLoopLog sz t (t.levels.length + 2) a.present_level (a.present_index + 1)
        = some g ∧
      (g.iterations : Int) ≤ (t.levels.length : Int) - a.present_level ∧
      (∀ l ∈ g.reads, 0 ≤ l ∧ l < (t.levels.length : Int)) ∧
      inc t a = .ok ⟨a.tria, g.result.1, g.result.2⟩) ∧
  (∃ g, retreatLoopLog sz t (t.levels.length + 2) a.present_level (a.present_index - 1)
        = some g ∧
      (g.iterations : Int) ≤ a.present_level + 1 ∧
      (∀ l ∈ g.reads, 0 ≤ l ∧ l < (t.levels.length : Int)) ∧
      dec t a = .ok ⟨a.tria, g.result.1, g.result.2⟩)

/-! ## Frame of a write to the neighbor table -/

/-- What `set_neighbor (i, h)` on the cell `a` leaves as it is, `t` being the
triangulation before and `t2` the one after the call: the vertices and the
number of levels; every level other than that of `a`; on the level of `a` the
line and the quad arrays (payload, children, used flags, user flags, material
ids, user pointers), the refine and the coarsen flags and the size of the
neighbor table; and what `neighbor_level (j)` and `neighbor_index (j)` return
for every cell handle `c` and face `j < faces_per_cell` other than face `i`
of `a`. -/
abbrev NeighborFrame (dim : Dim) (t t2 : Triangulation) (a : TriaAccessor) (i : Nat) :
    Prop :=
  t2.vertices = t.vertices ∧
  t2.levels.length = t.levels.length ∧
  (∀ l : Int, l ≠ a.present_level → vecGet t2.levels l = vecGet t.levels l) ∧
  (∃ lv lv2, vecGet t.levels a.present_level = .ok lv ∧
    vecGet t2.levels a.present_level = .ok lv2 ∧
    lv2.lines = lv.lines ∧ lv2.quads = lv.quads ∧
    lv2.refine_flags = lv.refine_flags ∧ lv2.coarsen_flags = lv.coarsen_flags ∧
    lv2.neighbors.length = lv.neighbors.length) ∧
  (∀ (c : TriaAccessor) (j : Nat), j < faces_per_cell dim →
    ¬ (c.present_level = a.present_level ∧ c.present_index = a.present_index ∧ j = i) →
    CellAccessor.neighbor_level dim t2 c j = CellAccessor.neighbor_level dim t c j ∧
    CellAccessor.neighbor_index dim t2 c j = CellAccessor.neighbor_index dim t c j)

/-! ## Calls that keep the storage on failure

A call of a mutating member function, once more, as a function from the
storage before the call to the outcome of the call and the storage after it:
the statements of the function body in their order, an `Assert` that fails
ending the call at that statement. -/

/-- A call: the outcome and the storage after the call, from the storage
before it. -/
abbrev Call := Triangulation → Except Exc Unit × Triangulation

/-- The statement `Assert (cond, exc)`; `cond` is evaluated on the storage by
`const` member functions and writes nothing. -/
def Call.Assert (cond : Triangulation → Except Exc Bool) (exc : Exc) : Call :=
  fun t => (cond t >>= fun c => DealII.Assert c exc, t)

/-- A statement that assigns to an element of the storage; `w` gives the
storage after the assignment. -/
def Call.assign (w : Triangulation → Except Exc Triangulation) : Call :=
  fun t =>
    match w t with
    | .ok t2 => (.ok (), t2)
    | .error e => (.error e, t)

/-- The statements `x; y`. -/
def Call.seq (x y : Call) : Call :=
  fun t =>
    match x t with
    | (.ok (), t1) => y t1
    | (.error e, t1) => (.error e, t1)

/-- The triangulation a call returns, or the exception it fails with. -/
def Call.toExcept (c : Call) (t : Triangulation) : Except Exc Triangulation :=
  match c t with
  | (.ok (), t2) => .ok t2
  | (.error e, _) => .error e

/-- A call that fails leaves the storage as it was before the call. -/
abbrev Call.Atomic (c : Call) : Prop :=
  ∀ t e, (c t).1 = .error e → (c t).2 = t

/-- The assignment `tria->levels[l]->arr[idx] = v`, where `upd` puts the
vector written back into the level. -/
def assignSlot {α : Type} (arr : TriangulationLevel → List α)
    (upd : TriangulationLevel → List α → TriangulationLevel) (l idx : Int) (v : α)
    (t : Triangulation) : Except Exc Triangulation := do
  let lv ← vecGet t.levels l
  let x ← vecSet (arr lv) idx v
  t.setLevel l (upd lv x)

/-- The level with `lines.used` replaced. -/
def TriangulationLevel.setLinesUsed (lv : TriangulationLevel) (x : List Bool) :
    TriangulationLevel :=
  { lv with lines := { lv.lines with used := x } }

/-- The level with `lines.user_flags` replaced. -/
def TriangulationLevel.setLinesUserFlags (lv : TriangulationLevel) (x : List Bool) :
    TriangulationLevel :=
  { lv with lines := { lv.lines with user_flags := x } }

/-- The level with `lines.user_pointers` replaced. -/
def TriangulationLevel.setLinesUserPointers (lv : TriangulationLevel) (x : List Nat) :
    TriangulationLevel :=
  { lv with lines := { lv.lines with user_pointers := x } }

/-- The level with `lines.children` replaced. -/
def TriangulationLevel.setLinesChildren (lv : TriangulationLevel) (x : List Int) :
    TriangulationLevel :=
  { lv with lines := { lv.lines with children := x } }

/-- The level with `lines.material_id` replaced. -/
def TriangulationLevel.setLinesMaterialId (lv : TriangulationLevel) (x : List Nat) :
    TriangulationLevel :=
  { lv with lines := { lv.lines with material_id := x } }

/-- The level with `quads.used` replaced. -/
def TriangulationLevel.setQuadsUsed (lv : TriangulationLevel) (x : List Bool) :
    TriangulationLevel :=
  { lv with quads := { lv.quads with used := x } }

/-- The level with `quads.user_flags` replaced. -/
def TriangulationLevel.setQuadsUserFlags (lv : TriangulationLevel) (x : List Bool) :
    TriangulationLevel :=
  { lv with quads := { lv.quads with user_flags := x } }

/-- The level with `quads.user_pointers` replaced. -/
def TriangulationLevel.setQuadsUserPointers (lv : TriangulationLevel) (x : List Nat) :
    TriangulationLevel :=
  { lv with quads := { lv.quads with user_pointers := x } }

/-- The level with `quads.children` replaced. -/
def TriangulationLevel.setQuadsChildren (lv : TriangulationLevel) (x : List Int) :
    TriangulationLevel :=
  { lv with quads := { lv.quads with children := x } }

/-- The level with `quads.material_id` replaced. -/
def TriangulationLevel.setQuadsMaterialId (lv : TriangulationLevel) (x : List Nat) :
    TriangulationLevel :=
  { lv with quads := { lv.quads with material_id := x } }

/-- The level with `refine_flags` replaced. -/
def TriangulationLevel.setRefineFlags (lv : TriangulationLevel) (x : List Bool) :
    TriangulationLevel :=
  { lv with refine_flags := x }

/-- The level with `coarsen_flags` replaced. -/
def TriangulationLevel.setCoarsenFlags (lv : TriangulationLevel) (x : List Bool) :
    TriangulationLevel :=
  { lv with coarsen_flags := x }

/-- The level with `neighbors` replaced. -/
def TriangulationLevel.setNeighbors (lv : TriangulationLevel) (x : List (Int × Int)) :
    TriangulationLevel :=
  { lv with neighbors := x }

/-- The mutating member functions of the line and of the quad accessor. -/
inductive SubOp where
  | set_used_flag
  | clear_used_flag
  | set_user_flag
  | clear_user_flag
  | set_user_pointer (p : Nat)
  | clear_user_pointer
  | set_children (index : Int)
  | clear_children
  | set_boundary_indicator (dim : Nat) (boundary_ind : Nat)
  deriving DecidableEq, Repr

/-- A call of a mutating member function of the line accessor on the handle
`a`, as embedded in the sections on the line accessor. -/
def LineAccessor.apply (op : SubOp) (t : Triangulation) (a : TriaAccessor) :
    Except Exc Triangulation :=
  match op with
  | .set_used_flag => LineAccessor.set_used_flag t a
  | .clear_used_flag => LineAccessor.clear_used_flag t a
  | .set_user_flag => LineAccessor.set_user_flag t a
  | .clear_user_flag => LineAccessor.clear_user_flag t a
  | .set_user_pointer p => LineAccessor.set_user_pointer t a p
  | .clear_user_pointer => LineAccessor.clear_user_pointer t a
  | .set_children index => LineAccessor.set_children t a index
  | .clear_children => LineAccessor.clear_children t a
  | .set_boundary_indicator dim b => LineAccessor.set_boundary_indicator dim t a b

/-- A call of a mutating member function of the quad accessor on the handle
`a`, as embedded in the sections on the quad accessor. -/
def QuadAccessor.apply (op : SubOp) (t : Triangulation) (a : TriaAccessor) :
    Except Exc Triangulation :=
  match op with
  | .set_used_flag => QuadAccessor.set_used_flag t a
  | .clear_used_flag => QuadAccessor.clear_used_flag t a
  | .set_user_flag => QuadAccessor.set_user_flag t a
  | .clear_user_flag => QuadAccessor.clear_user_flag t a
  | .set_user_pointer p => QuadAccessor.set_user_pointer t a p
  | .clear_user_pointer => QuadAccessor.clear_user_pointer t a
  | .set_children index => QuadAccessor.set_children t a index
  | .clear_children => QuadAccessor.clear_children t a
  | .set_boundary_indicator dim b => QuadAccessor.set_boundary_indicator dim t a b

/-- The body shared by the mutators of the line accessor that assert
`used ()` and then assign `v` to the slot of the vector `arr`. -/
def LineAccessor.usedThenAssign {α : Type} (arr : TriangulationLevel → List α)
    (upd : TriangulationLevel → List α → TriangulationLevel) (a : TriaAccessor) (v : α) :
    Call :=
  Call.seq (Call.Assert (fun t => LineAccessor.used t a) .ExcCellNotUsed)
    (Call.assign (assignSlot arr upd a.present_level a.present_index v))

/-- The body shared by the mutators of the quad accessor that assert
`used ()` and then assign `v` to the slot of the vector `arr`. -/
def QuadAccessor.usedThenAssign {α : Type} (arr : TriangulationLevel → List α)
    (upd : TriangulationLevel → List α → TriangulationLevel) (a : TriaAccessor) (v : α) :
    Call :=
  Call.seq (Call.Assert (fun t => QuadAccessor.used t a) .ExcCellNotUsed)
    (Call.assign (assignSlot arr upd a.present_level a.present_index v))

/-- The statements of the mutating member functions of the line accessor:
`set_used_flag` and `clear_used_flag` assert a valid state, the others assert
`used ()`, `set_boundary_indicator` after `dim >= 2`; `clear_children` is the
call `set_children (-1)`. -/
def LineAccessor.call (op : SubOp) (a : TriaAccessor) : Call :=
  match op with
  | .set_used_flag =>
    Call.seq (Call.Assert (fun _ => pure (a.state == .valid)) .ExcDereferenceInvalidObject)
      (Call.assign (assignSlot (fun lv => lv.lines.used) TriangulationLevel.setLinesUsed
        a.present_level a.present_index true))
  | .clear_used_flag =>
    Call.seq (Call.Assert (fun _ => pure (a.state == .valid)) .ExcDereferenceInvalidObject)
      (Call.assign (assignSlot (fun lv => lv.lines.used) TriangulationLevel.setLinesUsed
        a.present_level a.present_index false))
  | .set_user_flag =>
    LineAccessor.usedThenAssign (fun lv => lv.lines.user_flags)
      TriangulationLevel.setLinesUserFlags a true
  | .clear_user_flag =>
    LineAccessor.usedThenAssign (fun lv => lv.lines.user_flags)
      TriangulationLevel.setLinesUserFlags a false
  | .set_user_pointer p =>
    LineAccessor.usedThenAssign (fun lv => lv.lines.user_pointers)
      TriangulationLevel.setLinesUserPointers a p
  | .clear_user_pointer =>
    LineAccessor.usedThenAssign (fun lv => lv.lines.user_pointers)
      TriangulationLevel.setLinesUserPointers a 0
  | .set_children index =>
    LineAccessor.usedThenAssign (fun lv => lv.lines.children)
      TriangulationLevel.setLinesChildren a index
  | .clear_children =>
    LineAccessor.usedThenAssign (fun lv => lv.lines.children)
      TriangulationLevel.setLinesChildren a (-1)
  | .set_boundary_indicator dim boundary_ind =>
    Call.seq (Call.Assert (fun _ => pure (decide (dim ≥ 2))) .ExcNotUsefulForThisDimension)
      (LineAccessor.usedThenAssign (fun lv => lv.lines.material_id)
        TriangulationLevel.setLinesMaterialId a boundary_ind)

/-- The statements of the mutating member functions of the quad accessor:
`set_used_flag` and `clear_used_flag` assert a valid state, the others assert
`used ()`, `set_boundary_indicator` after `dim >= 3`; `clear_children` is the
call `set_children (-1)`. -/
def QuadAccessor.call (op : SubOp) (a : TriaAccessor) : Call :=
  match op with
  | .set_used_flag =>
    Call.seq (Call.Assert (fun _ => pure (a.state == .valid)) .ExcDereferenceInvalidObject)
      (Call.assign (assignSlot (fun lv => lv.quads.used) TriangulationLevel.setQuadsUsed
        a.present_level a.present_index true))
  | .clear_used_flag =>
    Call.seq (Call.Assert (fun _ => pure (a.state == .valid)) .ExcDereferenceInvalidObject)
      (Call.assign (assignSlot (fun lv => lv.quads.used) TriangulationLevel.setQuadsUsed
        a.present_level a.present_index false))
  | .set_user_flag =>
    QuadAccessor.usedThenAssign (fun lv => lv.quads.user_flags)
      TriangulationLevel.setQuadsUserFlags a true
  | .clear_user_flag =>
    QuadAccessor.usedThenAssign (fun lv => lv.quads.user_flags)
      TriangulationLevel.setQuadsUserFlags a false
  | .set_user_pointer p =>
    QuadAccessor.usedThenAssign (fun lv => lv.quads.user_pointers)
      TriangulationLevel.setQuadsUserPointers a p
  | .clear_user_pointer =>
    QuadAccessor.usedThenAssign (fun lv => lv.quads.user_pointers)
      TriangulationLevel.setQuadsUserPointers a 0
  | .set_children index =>
    QuadAccessor.usedThenAssign (fun lv => lv.quads.children)
      TriangulationLevel.setQuadsChildren a index
  | .clear_children =>
    QuadAccessor.usedThenAssign (fun lv => lv.quads.children)
      TriangulationLevel.setQuadsChildren a (-1)
  | .set_boundary_indicator dim boundary_ind =>
    Call.seq (Call.Assert (fun _ => pure (decide (dim ≥ 3))) .ExcNotUsefulForThisDimension)
      (QuadAccessor.usedThenAssign (fun lv => lv.quads.material_id)
        TriangulationLevel.setQuadsMaterialId a boundary_ind)

/-- The assertion `Assert (used () && active (), ExcRefineCellNotActive ())`
of the four functions that write the refine and coarsen flags. -/
def CellAccessor.assertUsedActive (dim : Dim) (a : TriaAccessor) : Call :=
  Call.Assert (fun t => andThen (CellAccessor.used dim t a) (CellAccessor.active dim t a))
    .ExcRefineCellNotActive

/-- The mutating member functions a cell accessor inherits from its base
class: those of the line accessor in 1D, of the quad accessor in 2D. -/
def CellAccessor.subCall (dim : Dim) (op : SubOp) (a : TriaAccessor) : Call :=
  match dim with
  | .one => LineAccessor.call op a
  | .two => QuadAccessor.call op a

/-- The statements of the mutating member functions of the cell accessor;
the two assignments of `set_neighbor`, to the components `first` and `second`
of one table entry, are one assignment of the pair. -/
def CellOp.call (dim : Dim) (op : CellOp) (a : TriaAccessor) : Call :=
  match op with
  | .set_used_flag => CellAccessor.subCall dim .set_used_flag a
  | .clear_used_flag => CellAccessor.subCall dim .clear_used_flag a
  | .set_children index => CellAccessor.subCall dim (.set_children index) a
  | .clear_children => CellAccessor.subCall dim .clear_children a
  | .set_user_flag => CellAccessor.subCall dim .set_user_flag a
  | .set_user_pointer p => CellAccessor.subCall dim (.set_user_pointer p) a
  | .set_neighbor i pointer =>
    Call.seq (Call.Assert (fun _ => pure (decide (i < faces_per_cell dim)))
        (.ExcInvalidNeighbor i))
      (Call.assign (assignSlot (fun lv => lv.neighbors) TriangulationLevel.setNeighbors
        a.present_level (a.present_index * faces_per_cell dim + i)
        (pointer.present_level, pointer.present_index)))
  | .set_refine_flag =>
    Call.seq (CellAccessor.assertUsedActive dim a)
      (Call.seq
        (Call.Assert (fun t => do
            let b ← CellAccessor.coarsen_flag_set dim t a
            pure (!b)) .ExcCellFlaggedForCoarsening)
        (Call.assign (assignSlot (fun lv => lv.refine_flags)
          TriangulationLevel.setRefineFlags a.present_level a.present_index true)))
  | .clear_refine_flag =>
    Call.seq (CellAccessor.assertUsedActive dim a)
      (Call.assign (assignSlot (fun lv => lv.refine_flags)
        TriangulationLevel.setRefineFlags a.present_level a.present_index false))
  | .set_coarsen_flag =>
    Call.seq (CellAccessor.assertUsedActive dim a)
      (Call.seq
        (Call.Assert (fun t => do
            let b ← CellAccessor.refine_flag_set dim t a
            pure (!b)) .ExcCellFlaggedForRefinement)
        (Call.assign (assignSlot (fun lv => lv.coarsen_flags)
          TriangulationLevel.setCoarsenFlags a.present_level a.present_index true)))
  | .clear_coarsen_flag =>
    Call.seq (CellAccessor.assertUsedActive dim a)
      (Call.assign (assignSlot (fun lv => lv.coarsen_flags)
        TriangulationLevel.setCoarsenFlags a.present_level a.present_index false))
  | .set_material_id mat_id =>
    Call.seq (Call.Assert (fun t => CellAccessor.used dim t a) .ExcCellNotUsed)
      (match dim with
        | .one =>
          Call.assign (assignSlot (fun lv => lv.lines.material_id)
            TriangulationLevel.setLinesMaterialId a.present_level a.present_index mat_id)
        | .two =>
          Call.assign (assignSlot (fun lv => lv.quads.material_id)
            TriangulationLevel.setQuadsMaterialId a.present_level a.present_index mat_id))

/-! ## Basic facts on vectors -/

theorem vecGet_eq_ok_iff {α : Type} (v : List α) (i : Int) (x : α) :
    vecGet v i = .ok x ↔ 0 ≤ i ∧ v[i.toNat]? = some x := by
  unfold vecGet
  split
  · constructor
    · intro h; cases h
    · rintro ⟨h, _⟩; omega
  · rename_i hi
    cases hv : v[i.toNat]? with
    | none => simp
    | some y =>
      simp only [Except.ok.injEq, Option.some.injEq]
      exact ⟨fun h => ⟨by omega, h⟩, fun h => h.2⟩

theorem vecSet_eq_ok_iff {α : Type} (v : List α) (i : Int) (x : α) (w : List α) :
    vecSet v i x = .ok w ↔ 0 ≤ i ∧ i.toNat < v.length ∧ w = v.set i.toNat x := by
  unfold vecSet
  split
  · constructor
    · intro h; cases h
    · rintro ⟨h, _⟩; omega
  · split
    · constructor
      · intro h
        cases h
        exact ⟨by omega, by assumption, rfl⟩
      · rintro ⟨_, _, rfl⟩; rfl
    · constructor
      · intro h; cases h
      · rintro ⟨_, h, _⟩; omega

theorem vecGet_vecSet_same {α : Type} {v w : List α} {i : Int} {x : α}
    (h : vecSet v i x = .ok w) : vecGet w i = .ok x := by
  obtain ⟨h0, hlt, rfl⟩ := (vecSet_eq_ok_iff v i x w).1 h
  rw [vecGet_eq_ok_iff]
  exact ⟨h0, by simp [hlt]⟩

theorem vecGet_vecSet_other {α : Type} {v w : List α} {i j : Int} {x : α}
    (h : vecSet v i x = .ok w) (hij : j ≠ i) : vecGet w j = vecGet v j := by
  obtain ⟨h0, _, rfl⟩ := (vecSet_eq_ok_iff v i x w).1 h
  unfold vecGet
  split
  · rfl
  · have : i.toNat ≠ j.toNat := by omega
    rw [List.getElem?_set_ne this]

/-! ## Monadic plumbing -/

@[simp] theorem Assert_true (e : Exc) : Assert true e = .ok () := rfl

@[simp] theorem Assert_false (e : Exc) : Assert false e = .error e := rfl

@[simp] theorem bind_ok {α β : Type} (x : α) (f : α → Except Exc β) :
    (Except.ok x >>= f) = f x := rfl

@[simp] theorem bind_error {α β : Type} (e : Exc) (f : α → Except Exc β) :
    (Except.error e >>= f) = .error e := rfl

@[simp] theorem pure_eq_ok {α : Type} (x : α) : (pure x : Except Exc α) = .ok x := rfl

theorem vecGet_ok_of_lt {α : Type} (v : List α) (i : Int) (h0 : 0 ≤ i)
    (h : i.toNat < v.length) : vecGet v i = .ok (v.get ⟨i.toNat, h⟩) := by
  rw [vecGet_eq_ok_iff]
  exact ⟨h0, by simp [List.getElem?_eq_getElem h]⟩

theorem setLevel_eq_ok_iff (t t2 : Triangulation) (l : Int) (lv : TriangulationLevel) :
    t.setLevel l lv = .ok t2 ↔
      0 ≤ l ∧ l.toNat < t.levels.length ∧
        t2 = { t with levels := t.levels.set l.toNat lv } := by
  unfold Triangulation.setLevel
  cases h : vecSet t.levels l lv with
  | error e =>
    constructor
    · intro h; cases h
    · rintro ⟨h0, hlt, _⟩
      have := (vecSet_eq_ok_iff t.levels l lv _).2 ⟨h0, hlt, rfl⟩
      rw [h] at this
      cases this
  | ok ls =>
    obtain ⟨h0, hlt, rfl⟩ := (vecSet_eq_ok_iff _ _ _ _).1 h
    simp only [Except.ok.injEq]
    constructor
    · intro h; exact ⟨h0, hlt, h.symm⟩
    · rintro ⟨_, _, h⟩; exact h.symm

theorem setLevel_ok_of_get {t : Triangulation} {l : Int} {lv0 : TriangulationLevel}
    (h : vecGet t.levels l = .ok lv0) (lv : TriangulationLevel) :
    t.setLevel l lv = .ok (t.withLevel l lv) := by
  obtain ⟨h0, hg⟩ := (vecGet_eq_ok_iff _ _ _).1 h
  rw [setLevel_eq_ok_iff]
  refine ⟨h0, ?_, rfl⟩
  by_contra hlt
  rw [List.getElem?_eq_none (by omega)] at hg
  cases hg

theorem vecGet_set_same {α : Type} {v : List α} {i : Int} {x0 : α}
    (h : vecGet v i = .ok x0) (x : α) : vecGet (v.set i.toNat x) i = .ok x := by
  obtain ⟨h0, hg⟩ := (vecGet_eq_ok_iff _ _ _).1 h
  rw [vecGet_eq_ok_iff]
  refine ⟨h0, ?_⟩
  have hlt : i.toNat < v.length := by
    by_contra hlt
    rw [List.getElem?_eq_none (by omega)] at hg
    cases hg
  simp [hlt]

theorem vecGet_withLevel {t : Triangulation} {l : Int} {lv0 : TriangulationLevel}
    (h : vecGet t.levels l = .ok lv0) (lv : TriangulationLevel) :
    vecGet (t.withLevel l lv).levels l = .ok lv :=
  vecGet_set_same h lv

theorem vecSet_ok_of_lt {α : Type} (v : List α) (i : Int) (x : α) (h0 : 0 ≤ i)
    (h : i.toNat < v.length) : vecSet v i x = .ok (v.set i.toNat x) :=
  (vecSet_eq_ok_iff v i x _).2 ⟨h0, h, rfl⟩

theorem toInt32_of_fits (x : Int) (h1 : -2147483648 ≤ x) (h2 : x ≤ 2147483647) :
    toInt32 x = x := by
  unfold toInt32
  omega


/-! ## State of a handle, child offsets -/

theorem line_in_range_iff (t : Triangulation) (a : TriaAccessor) :
    LineAccessor.in_range t a = true ↔
      ∃ lv, vecGet t.levels a.present_level = .ok lv ∧ 0 ≤ a.present_index ∧
        a.present_index.toNat < lv.lines.lines.length ∧
        a.present_index.toNat < lv.lines.children.length ∧
        a.present_index.toNat < lv.lines.used.length ∧
        a.present_index.toNat < lv.lines.user_flags.length ∧
        a.present_index.toNat < lv.lines.material_id.length ∧
        a.present_index.toNat < lv.lines.user_pointers.length := by
  unfold LineAccessor.in_range
  cases h : vecGet t.levels a.present_level with
  | error e => simp
  | ok lv => simp [and_assoc]

theorem quad_in_range_iff (t : Triangulation) (a : TriaAccessor) :
    QuadAccessor.in_range t a = true ↔
      ∃ lv, vecGet t.levels a.present_level = .ok lv ∧ 0 ≤ a.present_index ∧
        a.present_index.toNat < lv.quads.quads.length ∧
        a.present_index.toNat < lv.quads.children.length ∧
        a.present_index.toNat < lv.quads.used.length ∧
        a.present_index.toNat < lv.quads.user_flags.length ∧
        a.present_index.toNat < lv.quads.material_id.length ∧
        a.present_index.toNat < lv.quads.user_pointers.length := by
  unfold QuadAccessor.in_range
  cases h : vecGet t.levels a.present_level with
  | error e => simp
  | ok lv => simp [and_assoc]

/-- C1: the state of a handle is one of the three values and a function of the
two integers alone: valid iff both are non-negative, past the end iff both are
`-1`, invalid for every other pair, such as `(-1, 0)`, `(0, -1)`, `(-2, -2)`. -/
theorem C1_state_of_level_index (p : Nat) (l i : Int) :
    (TriaAccessor.state ⟨p, l, i⟩ = .valid ∨ TriaAccessor.state ⟨p, l, i⟩ = .past_the_end ∨
        TriaAccessor.state ⟨p, l, i⟩ = .invalid) ∧
      (∀ q : Nat, TriaAccessor.state ⟨q, l, i⟩ = TriaAccessor.state ⟨p, l, i⟩) ∧
      (TriaAccessor.state ⟨p, l, i⟩ = .valid ↔ l ≥ 0 ∧ i ≥ 0) ∧
      (TriaAccessor.state ⟨p, l, i⟩ = .past_the_end ↔ l = -1 ∧ i = -1) ∧
      (TriaAccessor.state ⟨p, l, i⟩ = .invalid ↔
        ¬ (l ≥ 0 ∧ i ≥ 0) ∧ ¬ (l = -1 ∧ i = -1)) ∧
      TriaAccessor.state ⟨p, -1, 0⟩ = .invalid ∧
      TriaAccessor.state ⟨p, 0, -1⟩ = .invalid ∧
      TriaAccessor.state ⟨p, -2, -2⟩ = .invalid := by
  refine ⟨?_, fun q => rfl, ?_, ?_, ?_, by simp [TriaAccessor.state],
    by simp [TriaAccessor.state], by simp [TriaAccessor.state]⟩
  · cases h : TriaAccessor.state ⟨p, l, i⟩ <;> simp
  · unfold TriaAccessor.state
    by_cases h1 : l ≥ 0 ∧ i ≥ 0
    · simp [h1]
    · by_cases h2 : l = -1 ∧ i = -1 <;> simp [h1, h2]
  · unfold TriaAccessor.state
    by_cases h1 : l ≥ 0 ∧ i ≥ 0
    · simp only [h1, and_self, if_true]
      constructor
      · intro h; cases h
      · rintro ⟨rfl, rfl⟩; omega
    · by_cases h2 : l = -1 ∧ i = -1 <;> simp [h1, h2]
  · unfold TriaAccessor.state
    by_cases h1 : l ≥ 0 ∧ i ≥ 0
    · simp [h1]
    · by_cases h2 : l = -1 ∧ i = -1 <;> simp [h1, h2]

theorem line_child_index_set_children (t : Triangulation) (a : TriaAccessor)
    (k : Int) (hr : LineAccessor.in_range t a = true)
    (hu : LineAccessor.used t a = .ok true) :
    ∃ t2, LineAccessor.set_children t a k = .ok t2 ∧
      ∀ i : Nat, i < 2 → LineAccessor.child_index t2 a i = .ok (toInt32 (k + i)) := by
  obtain ⟨lv, hlv, h0, -, hch, -⟩ := (line_in_range_iff t a).1 hr
  have hs : LineAccessor.set_children t a k = t.setLevel a.present_level
      { lv with lines := { lv.lines with
          children := lv.lines.children.set a.present_index.toNat k } } := by
    simp only [LineAccessor.set_children, hu, Assert_true, bind_ok, hlv,
      vecSet_ok_of_lt _ _ _ h0 hch]
  rw [setLevel_ok_of_get hlv] at hs
  refine ⟨_, hs, ?_⟩
  · intro i hi
    simp only [LineAccessor.child_index, hi, decide_True, Assert_true, bind_ok,
      vecGet_withLevel hlv, vecGet_set_same (vecGet_ok_of_lt _ _ h0 hch), pure_eq_ok]

theorem quad_child_index_set_children (t : Triangulation) (a : TriaAccessor)
    (k : Int) (hr : QuadAccessor.in_range t a = true)
    (hu : QuadAccessor.used t a = .ok true) :
    ∃ t2, QuadAccessor.set_children t a k = .ok t2 ∧
      ∀ i : Nat, i < 4 → QuadAccessor.child_index t2 a i = .ok (toInt32 (k + i)) := by
  obtain ⟨lv, hlv, h0, -, hch, -⟩ := (quad_in_range_iff t a).1 hr
  have hs : QuadAccessor.set_children t a k = t.setLevel a.present_level
      { lv with quads := { lv.quads with
          children := lv.quads.children.set a.present_index.toNat k } } := by
    simp only [QuadAccessor.set_children, hu, Assert_true, bind_ok, hlv,
      vecSet_ok_of_lt _ _ _ h0 hch]
  rw [setLevel_ok_of_get hlv] at hs
  refine ⟨_, hs, ?_⟩
  · intro i hi
    simp only [QuadAccessor.child_index, hi, decide_True, Assert_true, bind_ok,
      vecGet_withLevel hlv, vecGet_set_same (vecGet_ok_of_lt _ _ h0 hch), pure_eq_ok]

/-- C2, as the claim states it, fails: with the offset `k = 2147483647` stored
by `set_children`, `child_index (1)` is the sum converted to `int`,
`-2147483648`, and not `k + 1`; the same for a quad and `i = 3`. -/
theorem C2_counterexample :
    LineAccessor.in_range oneLine firstSlot = true ∧
      LineAccessor.used oneLine firstSlot = .ok true ∧
      (LineAccessor.set_children oneLine firstSlot 2147483647 >>= fun t2 =>
        LineAccessor.child_index t2 firstSlot 1) = .ok (-2147483648) ∧
      (LineAccessor.set_children oneLine firstSlot 2147483647 >>= fun t2 =>
        LineAccessor.child_index t2 firstSlot 1) ≠ .ok (2147483647 + 1) ∧
      QuadAccessor.in_range oneQuad firstSlot = true ∧
      QuadAccessor.used oneQuad firstSlot = .ok true ∧
      (QuadAccessor.set_children oneQuad firstSlot 2147483647 >>= fun t2 =>
        QuadAccessor.child_index t2 firstSlot 3) ≠ .ok (2147483647 + 3) := by
  decide

/-- C2 (amended): on a used line, and on a used quad, addressed by an in-range
handle, `set_children (k)` succeeds and afterwards `child_index (i)` returns
`k + i` for every `i` below the arity for which `k + i` is a value of `int`. -/
theorem C2_child_index_after_set_children (t : Triangulation) (a : TriaAccessor)
    (k : Int) :
    (LineAccessor.in_range t a = true → LineAccessor.used t a = .ok true →
      ∃ t2, LineAccessor.set_children t a k = .ok t2 ∧
        ∀ i : Nat, i < 2 → -2147483648 ≤ k + i → k + i ≤ 2147483647 →
          LineAccessor.child_index t2 a i = .ok (k + i)) ∧
    (QuadAccessor.in_range t a = true → QuadAccessor.used t a = .ok true →
      ∃ t2, QuadAccessor.set_children t a k = .ok t2 ∧
        ∀ i : Nat, i < 4 → -2147483648 ≤ k + i → k + i ≤ 2147483647 →
          QuadAccessor.child_index t2 a i = .ok (k + i)) := by
  constructor
  · intro hr hu
    obtain ⟨t2, h1, h2⟩ := line_child_index_set_children t a k hr hu
    exact ⟨t2, h1, fun i hi hlo hhi => by rw [h2 i hi, toInt32_of_fits _ hlo hhi]⟩
  · intro hr hu
    obtain ⟨t2, h1, h2⟩ := quad_child_index_set_children t a k hr hu
    exact ⟨t2, h1, fun i hi hlo hhi => by rw [h2 i hi, toInt32_of_fits _ hlo hhi]⟩

/-- Witness of C2 (amended): a line with offset 7 and a quad with offset -1. -/
theorem C2_child_index_after_set_children_witness :
    (∃ t2, LineAccessor.set_children oneLine firstSlot 7 = .ok t2 ∧
      LineAccessor.child_index t2 firstSlot 1 = .ok 8) ∧
    (∃ t2, QuadAccessor.set_children oneQuad firstSlot (-1) = .ok t2 ∧
      QuadAccessor.child_index t2 firstSlot 3 = .ok 2) := by
  constructor
  · obtain ⟨t2, h1, h2⟩ :=
      (C2_child_index_after_set_children oneLine firstSlot 7).1 (by decide) (by decide)
    exact ⟨t2, h1, h2 1 (by decide) (by decide) (by decide)⟩
  · obtain ⟨t2, h1, h2⟩ :=
      (C2_child_index_after_set_children oneQuad firstSlot (-1)).2 (by decide) (by decide)
    exact ⟨t2, h1, h2 3 (by decide) (by decide) (by decide)⟩

/-! ## Traversal -/

theorem vecGet_append_length {α : Type} (pre : List α) (x : α) (rest : List α) :
    vecGet (pre ++ x :: rest) (pre.length : Int) = .ok x := by
  rw [vecGet_eq_ok_iff]
  refine ⟨by omega, ?_⟩
  rw [Int.toNat_ofNat, List.getElem?_append_right (le_refl _)]
  simp

theorem levelSlots_drop (l n i : Nat) (h : i < n) :
    (levelSlots l n).drop i = ((l : Int), (i : Int)) :: (levelSlots l n).drop (i + 1) := by
  unfold levelSlots
  rw [← List.map_drop, ← List.map_drop, List.drop_eq_getElem_cons (by simpa using h)]
  simp

theorem levelSlots_length (l n : Nat) : (levelSlots l n).length = n := by
  simp [levelSlots]

theorem state_slot_ne_past_the_end (p l i : Nat) :
    TriaAccessor.state ⟨p, (l : Int), (i : Int)⟩ ≠ .past_the_end := by
  have h : ((l : Int) ≥ 0 ∧ (i : Int) ≥ 0) := ⟨by omega, by omega⟩
  simp [TriaAccessor.state, h]

theorem traverse_past_the_end (step : TriaAccessor → Except Exc TriaAccessor)
    (fuel p : Nat) : traverse step (fuel + 1) ⟨p, -1, -1⟩ = .ok [] := by
  simp [traverse, TriaAccessor.state]

theorem bind_bind {α β γ : Type} (m : Except Exc α) (g : α → Except Exc β)
    (c : β → Except Exc γ) : (m >>= fun r => g r >>= c) = (m >>= g) >>= c := by
  cases m <;> rfl

theorem traverse_step (step : TriaAccessor → Except Exc TriaAccessor) (fuel : Nat)
    (a : TriaAccessor) (h : a.state ≠ .past_the_end) :
    traverse step (fuel + 1) a =
      (step a >>= fun a2 => traverse step fuel a2 >>= fun rest =>
        .ok ((a.present_level, a.present_index) :: rest)) := by
  simp only [traverse, h, if_false]
  rfl

theorem advance_bind {β : Type} (sz : TriangulationLevel → Nat) (t : Triangulation)
    (a : TriaAccessor) (g : TriaAccessor → Except Exc β) :
    (advance sz t a >>= g) =
      (advanceLoop sz t (t.levels.length + 2) a.present_level (a.present_index + 1) >>=
        fun r => g { a with present_level := r.1, present_index := r.2 }) := by
  unfold advance
  cases advanceLoop sz t (t.levels.length + 2) a.present_level (a.present_index + 1) <;> rfl

theorem retreat_bind {β : Type} (sz : TriangulationLevel → Nat) (t : Triangulation)
    (a : TriaAccessor) (g : TriaAccessor → Except Exc β) :
    (retreat sz t a >>= g) =
      (retreatLoop sz t (t.levels.length + 2) a.present_level (a.present_index - 1) >>=
        fun r => g { a with present_level := r.1, present_index := r.2 }) := by
  unfold retreat
  cases retreatLoop sz t (t.levels.length + 2) a.present_level (a.present_index - 1) <;> rfl

theorem advanceLoop_stay (sz : TriangulationLevel → Nat) (t : Triangulation) (f : Nat)
    (l i : Int) (lv : TriangulationLevel) (hlv : vecGet t.levels l = .ok lv)
    (h : i < (sz lv : Int)) : advanceLoop sz t (f + 1) l i = .ok (l, i) := by
  have h2 : ¬ (i ≥ (sz lv : Int)) := by omega
  simp only [advanceLoop, hlv, bind_ok, h2, if_false, pure_eq_ok]

theorem advanceLoop_next (sz : TriangulationLevel → Nat) (t : Triangulation) (f : Nat)
    (l i : Int) (lv : TriangulationLevel) (hlv : vecGet t.levels l = .ok lv)
    (h : (sz lv : Int) ≤ i) (hl : l + 1 < (t.levels.length : Int)) :
    advanceLoop sz t (f + 1) l i = advanceLoop sz t f (l + 1) 0 := by
  have h2 : i ≥ (sz lv : Int) := h
  have h3 : ¬ (l + 1 ≥ (t.levels.length : Int)) := by omega
  rw [advanceLoop]
  simp only [hlv, bind_ok, h2, if_true, h3, if_false]

theorem advanceLoop_end (sz : TriangulationLevel → Nat) (t : Triangulation) (f : Nat)
    (l i : Int) (lv : TriangulationLevel) (hlv : vecGet t.levels l = .ok lv)
    (h : (sz lv : Int) ≤ i) (hl : (t.levels.length : Int) ≤ l + 1) :
    advanceLoop sz t (f + 1) l i = .ok (-1, -1) := by
  have h2 : i ≥ (sz lv : Int) := h
  have h3 : l + 1 ≥ (t.levels.length : Int) := hl
  rw [advanceLoop]
  simp only [hlv, bind_ok, h2, if_true, h3, pure_eq_ok]

/-- Forward traversal, entered through the loop of `operator ++` at index `i` of
level `pre.length`, visits the rest of that level and all later levels. -/
theorem advanceLoop_traverse (sz : TriangulationLevel → Nat) (t : Triangulation) (p : Nat) :
    ∀ (rest pre : List TriangulationLevel) (lv : TriangulationLevel) (k i f fuel : Nat),
      t.levels = pre ++ lv :: rest → k = sz lv - i → i ≤ sz lv → rest.length + 2 ≤ f →
      k + (slotsFrom (pre.length + 1) (rest.map sz)).length + 1 ≤ fuel →
      (advanceLoop sz t f (pre.length : Int) (i : Int) >>= fun r =>
          traverse (advance sz t) fuel ⟨p, r.1, r.2⟩) =
        .ok ((levelSlots pre.length (sz lv)).drop i ++
          slotsFrom (pre.length + 1) (rest.map sz)) := by
  have hstep : ∀ (rest pre : List TriangulationLevel) (lv : TriangulationLevel)
      (i f fuel : Nat) (X : List (Int × Int)),
      t.levels = pre ++ lv :: rest → i < sz lv →
      (advanceLoop sz t (t.levels.length + 2) (pre.length : Int) ((i + 1 : Nat) : Int) >>=
        fun r => traverse (advance sz t) fuel ⟨p, r.1, r.2⟩) = .ok X →
      (advanceLoop sz t (f + 1) (pre.length : Int) (i : Int) >>= fun r =>
          traverse (advance sz t) (fuel + 1) ⟨p, r.1, r.2⟩) =
        .ok (((pre.length : Int), (i : Int)) :: X) := by
    intro rest pre lv i f fuel X ht hi hrec
    have hlv : vecGet t.levels (pre.length : Int) = .ok lv := by
      rw [ht]; exact vecGet_append_length _ _ _
    rw [advanceLoop_stay sz t f _ _ lv hlv (by omega), bind_ok,
      traverse_step _ _ _ (state_slot_ne_past_the_end p _ _), advance_bind, bind_bind]
    simp only [Nat.cast_add, Nat.cast_one] at hrec
    rw [hrec]
    rfl
  intro rest
  induction rest with
  | nil =>
    intro pre lv k
    induction k with
    | zero =>
      intro i f fuel ht hk hi hf hfuel
      obtain ⟨f, rfl⟩ : ∃ g, f = g + 1 := ⟨f - 1, by omega⟩
      obtain ⟨fuel, rfl⟩ : ∃ g, fuel = g + 1 := ⟨fuel - 1, by omega⟩
      have hlv : vecGet t.levels (pre.length : Int) = .ok lv := by
        rw [ht]; exact vecGet_append_length _ _ _
      have hd : (levelSlots pre.length (sz lv)).drop i = [] := by
        apply List.drop_eq_nil_of_le
        rw [levelSlots_length]; omega
      rw [advanceLoop_end sz t f _ _ lv hlv (by omega) (by rw [ht]; simp), bind_ok,
        traverse_past_the_end, hd]
      rfl
    | succ k ih =>
      intro i f fuel ht hk hi hf hfuel
      obtain ⟨f, rfl⟩ : ∃ g, f = g + 1 := ⟨f - 1, by omega⟩
      obtain ⟨fuel, rfl⟩ : ∃ g, fuel = g + 1 := ⟨fuel - 1, by omega⟩
      have hrec := ih (i + 1) (t.levels.length + 2) fuel ht (by omega) (by omega)
        (by rw [ht]; simp only [List.length_append, List.length_cons]; omega) (by omega)
      rw [levelSlots_drop _ _ _ (by omega : i < sz lv)]
      exact hstep [] pre lv i f fuel _ ht (by omega) hrec
  | cons lv2 rest ih =>
    intro pre lv k
    induction k with
    | zero =>
      intro i f fuel ht hk hi hf hfuel
      obtain ⟨f, rfl⟩ : ∃ g, f = g + 1 := ⟨f - 1, by omega⟩
      have hlv : vecGet t.levels (pre.length : Int) = .ok lv := by
        rw [ht]; exact vecGet_append_length _ _ _
      have hd : (levelSlots pre.length (sz lv)).drop i = [] := by
        apply List.drop_eq_nil_of_le
        rw [levelSlots_length]; omega
      have ht2 : t.levels = (pre ++ [lv]) ++ lv2 :: rest := by simp [ht]
      have hlen : ((pre ++ [lv]).length : Int) = (pre.length : Int) + 1 := by simp
      have hrec := ih (pre ++ [lv]) lv2 (sz lv2) 0 f fuel ht2 (by omega) (by omega)
        (by simp at hf ⊢; omega)
        (by simp only [List.map_cons, slotsFrom, List.length_append, levelSlots_length,
              List.length_cons, List.length_nil, Nat.zero_add] at hfuel ⊢; omega)
      rw [advanceLoop_next sz t f _ _ lv hlv (by omega)
        (by rw [ht]; simp only [List.length_append, List.length_cons]; push_cast; omega), hd]
      rw [hlen] at hrec
      simp only [Nat.cast_zero] at hrec
      rw [hrec]
      simp [slotsFrom]
    | succ k ih2 =>
      intro i f fuel ht hk hi hf hfuel
      obtain ⟨f, rfl⟩ : ∃ g, f = g + 1 := ⟨f - 1, by omega⟩
      obtain ⟨fuel, rfl⟩ : ∃ g, fuel = g + 1 := ⟨fuel - 1, by omega⟩
      have hrec := ih2 (i + 1) (t.levels.length + 2) fuel ht (by omega) (by omega)
        (by rw [ht]; simp only [List.length_append, List.length_cons]; omega) (by omega)
      rw [levelSlots_drop _ _ _ (by omega : i < sz lv)]
      exact hstep _ pre lv i f fuel _ ht (by omega) hrec

theorem retreatLoop_stay (sz : TriangulationLevel → Nat) (t : Triangulation) (f : Nat)
    (l i : Int) (h : 0 ≤ i) : retreatLoop sz t (f + 1) l i = .ok (l, i) := by
  have h2 : ¬ (i < 0) := by omega
  simp only [retreatLoop, h2, if_false, pure_eq_ok]

theorem retreatLoop_end (sz : TriangulationLevel → Nat) (t : Triangulation) (f : Nat)
    (l i : Int) (h : i < 0) (hl : l - 1 = -1) :
    retreatLoop sz t (f + 1) l i = .ok (-1, -1) := by
  simp only [retreatLoop, h, if_true, hl, pure_eq_ok]

theorem retreatLoop_prev (sz : TriangulationLevel → Nat) (t : Triangulation) (f : Nat)
    (l i : Int) (lv : TriangulationLevel) (h : i < 0) (hl : l - 1 ≠ -1)
    (hlv : vecGet t.levels (l - 1) = .ok lv) :
    retreatLoop sz t (f + 1) l i = retreatLoop sz t f (l - 1) ((sz lv : Int) - 1) := by
  rw [retreatLoop]
  simp only [h, if_true, hl, if_false, hlv, bind_ok]

theorem slotsFrom_append (l : Nat) (xs ys : List Nat) :
    slotsFrom l (xs ++ ys) = slotsFrom l xs ++ slotsFrom (l + xs.length) ys := by
  induction xs generalizing l with
  | nil => simp [slotsFrom]
  | cons x xs ih =>
    have h := ih (l + 1)
    rw [show l + 1 + xs.length = l + (xs.length + 1) by omega] at h
    show levelSlots l x ++ slotsFrom (l + 1) (xs ++ ys) =
      (levelSlots l x ++ slotsFrom (l + 1) xs) ++ slotsFrom (l + (xs.length + 1)) ys
    rw [h, List.append_assoc]

theorem levelSlots_take (l n j : Nat) (h : j < n) :
    (levelSlots l n).take (j + 1) = (levelSlots l n).take j ++ [((l : Int), (j : Int))] := by
  rw [List.take_succ]
  congr 1
  simp [levelSlots, h]

/-- Backward traversal, entered through the loop of `operator --` at index
`j - 1` of level `pre.length`, visits the slots below index `j` of that level
and all earlier levels, last slot first. -/
theorem retreatLoop_traverse (sz : TriangulationLevel → Nat) (t : Triangulation) (p : Nat) :
    ∀ (pre rest : List TriangulationLevel) (lv : TriangulationLevel) (j f fuel : Nat),
      t.levels = pre ++ lv :: rest → j ≤ sz lv → pre.length + 2 ≤ f →
      j + (slotsFrom 0 (pre.map sz)).length + 1 ≤ fuel →
      (retreatLoop sz t f (pre.length : Int) ((j : Int) - 1) >>= fun r =>
          traverse (retreat sz t) fuel ⟨p, r.1, r.2⟩) =
        .ok ((slotsFrom 0 (pre.map sz) ++ (levelSlots pre.length (sz lv)).take j).reverse) := by
  have hstep : ∀ (pre rest : List TriangulationLevel) (lv : TriangulationLevel)
      (j f fuel : Nat) (X : List (Int × Int)),
      t.levels = pre ++ lv :: rest → j < sz lv →
      (retreatLoop sz t (t.levels.length + 2) (pre.length : Int) ((j : Int) - 1) >>=
        fun r => traverse (retreat sz t) fuel ⟨p, r.1, r.2⟩) = .ok X.reverse →
      (retreatLoop sz t (f + 1) (pre.length : Int) (((j + 1 : Nat) : Int) - 1) >>= fun r =>
          traverse (retreat sz t) (fuel + 1) ⟨p, r.1, r.2⟩) =
        .ok (X ++ [((pre.length : Int), (j : Int))]).reverse := by
    intro pre rest lv j f fuel X ht hj hrec
    have hj1 : (((j + 1 : Nat) : Int) - 1) = (j : Int) := by push_cast; omega
    rw [hj1, retreatLoop_stay sz t f _ _ (by omega), bind_ok,
      traverse_step _ _ _ (state_slot_ne_past_the_end p _ _), retreat_bind, bind_bind]
    rw [hrec]
    simp
  intro pre
  induction pre using List.reverseRecOn with
  | nil =>
    intro rest lv j
    induction j with
    | zero =>
      intro f fuel ht hj hf hfuel
      obtain ⟨f, rfl⟩ : ∃ g, f = g + 1 := ⟨f - 1, by omega⟩
      obtain ⟨fuel, rfl⟩ : ∃ g, fuel = g + 1 := ⟨fuel - 1, by omega⟩
      rw [retreatLoop_end sz t f _ _ (by simp) (by simp), bind_ok, traverse_past_the_end]
      simp [slotsFrom]
    | succ j ih =>
      intro f fuel ht hj hf hfuel
      obtain ⟨f, rfl⟩ : ∃ g, f = g + 1 := ⟨f - 1, by omega⟩
      obtain ⟨fuel, rfl⟩ : ∃ g, fuel = g + 1 := ⟨fuel - 1, by omega⟩
      have hrec := ih (t.levels.length + 2) fuel ht (by omega)
        (by rw [ht]; simp only [List.length_append, List.length_cons]; omega) (by omega)
      rw [levelSlots_take _ _ _ (by omega : j < sz lv), ← List.append_assoc]
      exact hstep [] rest lv j f fuel _ ht (by omega) hrec
  | append_singleton pre lv0 ih =>
    intro rest lv j
    induction j with
    | zero =>
      intro f fuel ht hj hf hfuel
      obtain ⟨f, rfl⟩ : ∃ g, f = g + 1 := ⟨f - 1, by omega⟩
      have ht2 : t.levels = pre ++ lv0 :: (lv :: rest) := by simp [ht]
      have hlen : ((pre ++ [lv0]).length : Int) - 1 = (pre.length : Int) := by simp
      have hlv : vecGet t.levels (((pre ++ [lv0]).length : Int) - 1) = .ok lv0 := by
        rw [hlen, ht2]; exact vecGet_append_length _ _ _
      have hrec := ih (lv :: rest) lv0 (sz lv0) f fuel ht2 (by omega)
        (by simp only [List.length_append, List.length_cons, List.length_nil] at hf; omega)
        (by simp only [List.map_append, slotsFrom_append, List.map_cons, List.map_nil,
              slotsFrom, List.length_append, levelSlots_length, List.append_nil]
              at hfuel; omega)
      rw [retreatLoop_prev sz t f _ _ lv0 (by simp) (by rw [hlen]; omega) hlv, hlen, hrec]
      simp [slotsFrom_append, slotsFrom, levelSlots, List.take_of_length_le]
    | succ j ih2 =>
      intro f fuel ht hj hf hfuel
      obtain ⟨f, rfl⟩ : ∃ g, f = g + 1 := ⟨f - 1, by omega⟩
      obtain ⟨fuel, rfl⟩ : ∃ g, fuel = g + 1 := ⟨fuel - 1, by omega⟩
      have hrec := ih2 (t.levels.length + 2) fuel ht (by omega)
        (by rw [ht]; simp only [List.length_append, List.length_cons]; omega) (by omega)
      rw [levelSlots_take _ _ _ (by omega : j < sz lv), ← List.append_assoc]
      exact hstep _ rest lv j f fuel _ ht (by omega) hrec

theorem mem_levelSlots (l n : Nat) (x : Int × Int) :
    x ∈ levelSlots l n ↔ x.1 = (l : Int) ∧ 0 ≤ x.2 ∧ x.2 < (n : Int) := by
  unfold levelSlots
  simp only [List.mem_map, List.mem_range]
  constructor
  · rintro ⟨i, hi, rfl⟩
    exact ⟨rfl, by simp, by simpa using hi⟩
  · rintro ⟨h1, h2, h3⟩
    refine ⟨x.2.toNat, by omega, ?_⟩
    ext
    · exact h1.symm
    · simp only; omega

theorem mem_slotsFrom (sizes : List Nat) (l0 : Nat) (x : Int × Int) :
    x ∈ slotsFrom l0 sizes ↔
      ∃ n s : Nat, sizes[n]? = some s ∧ x.1 = ((l0 + n : Nat) : Int) ∧ 0 ≤ x.2 ∧
        x.2 < (s : Int) := by
  induction sizes generalizing l0 with
  | nil => simp [slotsFrom]
  | cons s0 sizes ih =>
    simp only [slotsFrom, List.mem_append, mem_levelSlots, ih]
    constructor
    · rintro (⟨h1, h2, h3⟩ | ⟨n, s, hs, h1, h2, h3⟩)
      · exact ⟨0, s0, by simp, by simpa using h1, h2, h3⟩
      · exact ⟨n + 1, s, by simpa using hs, by rw [h1]; push_cast; omega, h2, h3⟩
    · rintro ⟨n, s, hs, h1, h2, h3⟩
      cases n with
      | zero =>
        left
        simp only [List.getElem?_cons_zero, Option.some.injEq] at hs
        subst hs
        exact ⟨by simpa using h1, h2, h3⟩
      | succ n =>
        right
        exact ⟨n, s, by simpa using hs, by rw [h1]; push_cast; omega, h2, h3⟩

theorem levelSlots_sorted (l n : Nat) : (levelSlots l n).Pairwise slotLt := by
  unfold levelSlots
  rw [List.pairwise_map]
  refine List.Pairwise.imp ?_ (List.pairwise_lt_range n)
  intro a b hab
  right
  exact ⟨rfl, by simpa using hab⟩

theorem slotsFrom_sorted (sizes : List Nat) (l0 : Nat) :
    (slotsFrom l0 sizes).Pairwise slotLt := by
  induction sizes generalizing l0 with
  | nil => simp [slotsFrom]
  | cons s0 sizes ih =>
    simp only [slotsFrom]
    rw [List.pairwise_append]
    refine ⟨levelSlots_sorted _ _, ih _, ?_⟩
    intro a ha b hb
    rw [mem_levelSlots] at ha
    obtain ⟨n, s, -, h1, -⟩ := (mem_slotsFrom _ _ _).1 hb
    left
    rw [ha.1, h1]
    push_cast
    omega

theorem levelSize_eq (sz : TriangulationLevel → Nat) (t : Triangulation) (n : Nat) :
    levelSize sz t (n : Int) = ((t.levels.map sz)[n]?).getD 0 := by
  unfold levelSize vecGet
  simp only [Int.toNat_ofNat, List.getElem?_map]
  have h : ¬ ((n : Int) < 0) := by omega
  simp only [h, if_false]
  cases t.levels[n]? <;> rfl

theorem levelSize_of_get (sz : TriangulationLevel → Nat) (t : Triangulation) (l : Int)
    (lv : TriangulationLevel) (h : vecGet t.levels l = .ok lv) :
    levelSize sz t l = sz lv := by
  unfold levelSize
  rw [h]

theorem mem_allSlots (sz : TriangulationLevel → Nat) (t : Triangulation) (l i : Int) :
    (l, i) ∈ allSlots sz t ↔
      0 ≤ l ∧ l < (t.levels.length : Int) ∧ 0 ≤ i ∧ i < (levelSize sz t l : Int) := by
  unfold allSlots
  rw [mem_slotsFrom]
  constructor
  · rintro ⟨n, s, hs, h1, h2, h3⟩
    simp only [Nat.zero_add] at h1
    simp only at h1 h2 h3
    subst h1
    have hn : n < t.levels.length := by
      by_contra hn
      rw [List.getElem?_eq_none (by simpa using hn)] at hs
      cases hs
    refine ⟨by omega, by omega, h2, ?_⟩
    rw [levelSize_eq, hs]
    exact h3
  · rintro ⟨h1, h2, h3, h4⟩
    obtain ⟨n, rfl⟩ : ∃ n : Nat, l = n := ⟨l.toNat, by omega⟩
    have hn : n < (t.levels.map sz).length := by simp; omega
    refine ⟨n, (t.levels.map sz)[n], List.getElem?_eq_getElem hn, by simp, h3, ?_⟩
    rw [levelSize_eq, List.getElem?_eq_getElem hn] at h4
    exact h4

theorem levels_split (t : Triangulation) (l : Int) (h0 : 0 ≤ l)
    (hl : l < (t.levels.length : Int)) :
    ∃ pre lv rest, t.levels = pre ++ lv :: rest ∧ (pre.length : Int) = l ∧
      vecGet t.levels l = .ok lv := by
  have hn : l.toNat < t.levels.length := by omega
  refine ⟨t.levels.take l.toNat, t.levels[l.toNat], t.levels.drop (l.toNat + 1), ?_, ?_, ?_⟩
  · rw [← List.drop_eq_getElem_cons hn, List.take_append_drop]
  · rw [List.length_take]; omega
  · exact vecGet_ok_of_lt _ _ h0 hn

theorem slotsFrom_all_zero (sizes : List Nat) (l0 : Nat) (h : ∀ s ∈ sizes, s = 0) :
    slotsFrom l0 sizes = [] := by
  induction sizes generalizing l0 with
  | nil => rfl
  | cons s0 sizes ih =>
    have h0 : s0 = 0 := h s0 (by simp)
    subst h0
    simp only [slotsFrom, levelSlots, List.range_zero, List.map_nil, List.nil_append]
    exact ih _ (fun s hs => h s (by simp [hs]))

theorem vecGet_levels_ok (t : Triangulation) (l : Int) (h0 : 0 ≤ l)
    (hl : l < (t.levels.length : Int)) : ∃ lv, vecGet t.levels l = .ok lv :=
  ⟨_, vecGet_ok_of_lt _ _ h0 (by omega)⟩

/-- Forward traversal from `(0, 0)`, a slot, visits all slots in order. -/
theorem forward_traversal (sz : TriangulationLevel → Nat) (t : Triangulation) (p : Nat)
    (h : 0 < levelSize sz t 0) :
    traverse (advance sz t) ((allSlots sz t).length + 1) ⟨p, 0, 0⟩ = .ok (allSlots sz t) := by
  cases hlv : t.levels with
  | nil => simp [levelSize, vecGet, hlv] at h
  | cons lv rest =>
    have hg : vecGet t.levels 0 = .ok lv := by rw [hlv]; simp [vecGet]
    rw [levelSize_of_get sz t 0 lv hg] at h
    have hN := advanceLoop_traverse sz t p rest [] lv (sz lv) 0 (t.levels.length + 2)
      ((allSlots sz t).length + 1) (by simp [hlv]) (by omega) (by omega)
      (by rw [hlv]; simp only [List.length_cons]; omega)
      (by simp only [allSlots, hlv, List.map_cons, slotsFrom, List.length_append,
            levelSlots_length, List.length_nil, Nat.zero_add]; omega)
    have hs : advanceLoop sz t (t.levels.length + 2) (([] : List TriangulationLevel).length : Int)
        ((0 : Nat) : Int) = .ok (0, 0) :=
      advanceLoop_stay sz t _ _ _ lv hg (by simpa using h)
    rw [hs, bind_ok] at hN
    rw [hN]
    simp [allSlots, hlv, slotsFrom]

theorem advanceLoop_to_end (sz : TriangulationLevel → Nat) (t : Triangulation) :
    ∀ (d f : Nat) (l idx : Int), 0 ≤ l → l + d + 1 = (t.levels.length : Int) →
      (levelSize sz t l : Int) ≤ idx → (∀ m : Int, l < m → levelSize sz t m = 0) →
      d + 1 ≤ f → advanceLoop sz t f l idx = .ok (-1, -1) := by
  intro d
  induction d with
  | zero =>
    intro f l idx h0 hL hidx _ hf
    obtain ⟨f, rfl⟩ : ∃ g, f = g + 1 := ⟨f - 1, by omega⟩
    obtain ⟨lv, hlv⟩ := vecGet_levels_ok t l h0 (by omega)
    rw [levelSize_of_get sz t l lv hlv] at hidx
    exact advanceLoop_end sz t f l idx lv hlv hidx (by omega)
  | succ d ih =>
    intro f l idx h0 hL hidx hz hf
    obtain ⟨f, rfl⟩ : ∃ g, f = g + 1 := ⟨f - 1, by omega⟩
    obtain ⟨lv, hlv⟩ := vecGet_levels_ok t l h0 (by omega)
    rw [levelSize_of_get sz t l lv hlv] at hidx
    rw [advanceLoop_next sz t f l idx lv hlv hidx (by push_cast at hL; omega)]
    exact ih f (l + 1) 0 (by omega) (by push_cast at hL ⊢; omega)
      (by rw [hz (l + 1) (by omega)]; simp) (fun m hm => hz m (by omega)) (by omega)

/-- The step of `operator ++` from the last slot yields the past-the-end
handle. -/
theorem advance_last (sz : TriangulationLevel → Nat) (t : Triangulation) (p : Nat)
    (l i : Int) (h0 : 0 ≤ l) (hl : l < (t.levels.length : Int))
    (hi : i + 1 = (levelSize sz t l : Int))
    (hz : ∀ m : Int, l < m → levelSize sz t m = 0) :
    advance sz t ⟨p, l, i⟩ = .ok ⟨p, -1, -1⟩ := by
  obtain ⟨d, hd⟩ : ∃ d : Nat, l + d + 1 = (t.levels.length : Int) :=
    ⟨(t.levels.length - 1 - l.toNat), by omega⟩
  have h := advanceLoop_to_end sz t d (t.levels.length + 2) l (i + 1) h0 hd (by omega) hz
    (by omega)
  simp only [advance, h, bind_ok, pure_eq_ok]

/-- Backward traversal from the last slot visits all slots in reverse order. -/
theorem backward_traversal (sz : TriangulationLevel → Nat) (t : Triangulation) (p : Nat)
    (l i : Int) (h0 : 0 ≤ l) (hl : l < (t.levels.length : Int)) (hi0 : 0 ≤ i)
    (hi : i + 1 = (levelSize sz t l : Int))
    (hz : ∀ m : Int, l < m → levelSize sz t m = 0) :
    traverse (retreat sz t) ((allSlots sz t).length + 1) ⟨p, l, i⟩ =
      .ok (allSlots sz t).reverse := by
  obtain ⟨pre, lv, rest, ht, hlen, hlv⟩ := levels_split t l h0 hl
  rw [levelSize_of_get sz t l lv hlv] at hi
  have hrest : slotsFrom (pre.length + 1) (rest.map sz) = [] := by
    apply slotsFrom_all_zero
    intro s hs
    obtain ⟨n, hn, hsn⟩ := List.getElem_of_mem hs
    have hn2 : n < rest.length := by simpa using hn
    have hm := hz (l + 1 + n) (by omega)
    have hcast : l + 1 + (n : Int) = ((pre.length + 1 + n : Nat) : Int) := by
      push_cast; omega
    rw [hcast, levelSize_eq, ht] at hm
    have hidx : (List.map sz (pre ++ lv :: rest))[pre.length + 1 + n]? = some s := by
      rw [List.map_append, List.getElem?_append_right (by simp; omega)]
      simp only [List.length_map, List.map_cons]
      rw [show pre.length + 1 + n - pre.length = n + 1 by omega]
      simp only [List.getElem?_cons_succ]
      rw [List.getElem?_eq_getElem hn, hsn]
    rw [hidx] at hm
    exact hm
  have hall : allSlots sz t = slotsFrom 0 (pre.map sz) ++ levelSlots pre.length (sz lv) := by
    unfold allSlots
    rw [ht, List.map_append, slotsFrom_append, List.map_cons, slotsFrom, List.length_map,
      Nat.zero_add, hrest, List.append_nil]
  have hN := retreatLoop_traverse sz t p pre rest lv (sz lv) (t.levels.length + 2)
    ((allSlots sz t).length + 1) ht (le_refl _)
    (by rw [ht]; simp only [List.length_append, List.length_cons]; omega)
    (by rw [hall, List.length_append, levelSlots_length]; omega)
  have hs : retreatLoop sz t (t.levels.length + 2) (pre.length : Int) ((sz lv : Int) - 1) =
      .ok (l, i) := by
    rw [hlen, show ((sz lv : Int) - 1) = i by omega]
    exact retreatLoop_stay sz t _ _ _ hi0
  rw [hs, bind_ok] at hN
  rw [hN, hall, List.take_of_length_le (by rw [levelSlots_length])]

theorem retreatLoop_skip (sz : TriangulationLevel → Nat) (t : Triangulation) :
    ∀ (d f : Nat) (l l2 : Int), 0 ≤ l2 → l2 + d + 1 = l → l ≤ (t.levels.length : Int) →
      0 < levelSize sz t l2 → (∀ m : Int, l2 < m → m < l → levelSize sz t m = 0) →
      d + 2 ≤ f →
      retreatLoop sz t f l (-1) = .ok (l2, (levelSize sz t l2 : Int) - 1) := by
  intro d
  induction d with
  | zero =>
    intro f l l2 h0 hd hL hpos _ hf
    obtain ⟨f, rfl⟩ : ∃ g, f = g + 1 := ⟨f - 1, by omega⟩
    obtain ⟨f, rfl⟩ : ∃ g, f = g + 1 := ⟨f - 1, by omega⟩
    have hl : l - 1 = l2 := by omega
    obtain ⟨lv, hlv⟩ := vecGet_levels_ok t l2 h0 (by omega)
    rw [levelSize_of_get sz t l2 lv hlv] at hpos ⊢
    rw [retreatLoop_prev sz t _ l (-1) lv (by omega) (by omega) (by rw [hl]; exact hlv), hl]
    exact retreatLoop_stay sz t f _ _ (by omega)
  | succ d ih =>
    intro f l l2 h0 hd hL hpos hz hf
    obtain ⟨f, rfl⟩ : ∃ g, f = g + 1 := ⟨f - 1, by omega⟩
    obtain ⟨lv, hlv⟩ := vecGet_levels_ok t (l - 1) (by omega) (by omega)
    have hsz : sz lv = 0 := by
      rw [← levelSize_of_get sz t (l - 1) lv hlv]
      exact hz (l - 1) (by push_cast at hd; omega) (by omega)
    rw [retreatLoop_prev sz t f l (-1) lv (by omega) (by omega) hlv, hsz]
    exact ih f (l - 1) l2 h0 (by push_cast at hd; omega) (by omega) hpos
      (fun m h1 h2 => hz m h1 (by omega)) (by omega)

theorem retreatLoop_to_begin (sz : TriangulationLevel → Nat) (t : Triangulation) :
    ∀ (d f : Nat) (l : Int), l = d → l ≤ (t.levels.length : Int) →
      (∀ m : Int, 0 ≤ m → m < l → levelSize sz t m = 0) → d + 1 ≤ f →
      retreatLoop sz t f l (-1) = .ok (-1, -1) := by
  intro d
  induction d with
  | zero =>
    intro f l hd _ _ hf
    obtain ⟨f, rfl⟩ : ∃ g, f = g + 1 := ⟨f - 1, by omega⟩
    exact retreatLoop_end sz t f l (-1) (by omega) (by rw [hd]; simp)
  | succ d ih =>
    intro f l hd hL hz hf
    obtain ⟨f, rfl⟩ : ∃ g, f = g + 1 := ⟨f - 1, by omega⟩
    obtain ⟨lv, hlv⟩ := vecGet_levels_ok t (l - 1) (by push_cast at hd; omega) (by omega)
    have hsz : sz lv = 0 := by
      rw [← levelSize_of_get sz t (l - 1) lv hlv]
      exact hz (l - 1) (by push_cast at hd; omega) (by omega)
    rw [retreatLoop_prev sz t f l (-1) lv (by omega) (by push_cast at hd; omega) hlv, hsz]
    exact ih f (l - 1) (by push_cast at hd; omega) (by omega)
      (fun m h1 h2 => hz m h1 (by omega)) (by omega)

theorem retreatLoop_not_invalid (sz : TriangulationLevel → Nat) (t : Triangulation) :
    ∀ (d f : Nat) (l : Int), l = d → l ≤ (t.levels.length : Int) → d + 1 ≤ f →
      ∃ r, retreatLoop sz t f l (-1) = .ok r ∧ (r = (-1, -1) ∨ (0 ≤ r.1 ∧ 0 ≤ r.2)) := by
  intro d
  induction d with
  | zero =>
    intro f l hd _ hf
    obtain ⟨f, rfl⟩ : ∃ g, f = g + 1 := ⟨f - 1, by omega⟩
    exact ⟨_, retreatLoop_end sz t f l (-1) (by omega) (by rw [hd]; simp), Or.inl rfl⟩
  | succ d ih =>
    intro f l hd hL hf
    obtain ⟨f, rfl⟩ : ∃ g, f = g + 1 := ⟨f - 1, by omega⟩
    obtain ⟨lv, hlv⟩ := vecGet_levels_ok t (l - 1) (by push_cast at hd; omega) (by omega)
    rw [retreatLoop_prev sz t f l (-1) lv (by omega) (by push_cast at hd; omega) hlv]
    by_cases hsz : sz lv = 0
    · rw [hsz]
      exact ih f (l - 1) (by push_cast at hd; omega) (by omega) (by omega)
    · obtain ⟨f, rfl⟩ : ∃ g, f = g + 1 := ⟨f - 1, by omega⟩
      refine ⟨_, retreatLoop_stay sz t f _ _ (by omega), Or.inr ⟨?_, ?_⟩⟩
      · show 0 ≤ l - 1
        push_cast at hd; omega
      · show 0 ≤ (sz lv : Int) - 1
        omega

theorem state_ne_invalid (p : Nat) (r : Int × Int)
    (h : r = (-1, -1) ∨ (0 ≤ r.1 ∧ 0 ≤ r.2)) :
    TriaAccessor.state ⟨p, r.1, r.2⟩ ≠ .invalid := by
  rcases h with rfl | ⟨h1, h2⟩
  · simp [TriaAccessor.state]
  · have h : r.1 ≥ 0 ∧ r.2 ≥ 0 := ⟨h1, h2⟩
    simp [TriaAccessor.state, h]

/-- One step of `operator --` from an in-range slot. -/
theorem retreat_step (sz : TriangulationLevel → Nat) (t : Triangulation) (p : Nat)
    (l i : Int) (h0 : 0 ≤ l) (hl : l < (t.levels.length : Int)) (hi0 : 0 ≤ i) :
    (0 < i → retreat sz t ⟨p, l, i⟩ = .ok ⟨p, l, i - 1⟩) ∧
    (i = 0 → ∀ l2 : Int, 0 ≤ l2 → l2 < l → 0 < levelSize sz t l2 →
      (∀ m : Int, l2 < m → m < l → levelSize sz t m = 0) →
      retreat sz t ⟨p, l, i⟩ = .ok ⟨p, l2, (levelSize sz t l2 : Int) - 1⟩) ∧
    (i = 0 → (∀ m : Int, 0 ≤ m → m < l → levelSize sz t m = 0) →
      retreat sz t ⟨p, l, i⟩ = .ok ⟨p, -1, -1⟩) ∧
    (∃ r, retreat sz t ⟨p, l, i⟩ = .ok r ∧ r.state ≠ .invalid) := by
  refine ⟨?_, ?_, ?_, ?_⟩
  · intro hi
    simp only [retreat, retreatLoop_stay sz t _ l (i - 1) (by omega), bind_ok, pure_eq_ok]
  · intro hi l2 h20 h2l hpos hz
    subst hi
    obtain ⟨d, hd⟩ : ∃ d : Nat, l2 + d + 1 = l := ⟨(l - l2 - 1).toNat, by omega⟩
    have h := retreatLoop_skip sz t d (t.levels.length + 2) l l2 h20 hd (by omega) hpos hz
      (by omega)
    simp only [retreat, zero_sub, h, bind_ok, pure_eq_ok]
  · intro hi hz
    subst hi
    have h := retreatLoop_to_begin sz t l.toNat (t.levels.length + 2) l (by omega) (by omega)
      hz (by omega)
    simp only [retreat, zero_sub, h, bind_ok, pure_eq_ok]
  · by_cases hi : 0 < i
    · refine ⟨⟨p, l, i - 1⟩, ?_, ?_⟩
      · simp only [retreat, retreatLoop_stay sz t _ l (i - 1) (by omega), bind_ok,
          pure_eq_ok]
      · exact state_ne_invalid p (l, i - 1) (Or.inr ⟨h0, by show 0 ≤ i - 1; omega⟩)
    · have hi : i = 0 := by omega
      subst hi
      obtain ⟨r, hr, hv⟩ := retreatLoop_not_invalid sz t l.toNat (t.levels.length + 2) l
        (by omega) (by omega) (by omega)
      refine ⟨⟨p, r.1, r.2⟩, ?_, state_ne_invalid p r hv⟩
      simp only [retreat, zero_sub, hr, bind_ok, pure_eq_ok]

theorem allSlots_nodup (sz : TriangulationLevel → Nat) (t : Triangulation) :
    (allSlots sz t).Nodup := by
  refine List.Pairwise.imp ?_ (slotsFrom_sorted (t.levels.map sz) 0)
  intro a b hab heq
  subst heq
  unfold slotLt at hab
  omega

theorem forward_traversal_sizes (sz : TriangulationLevel → Nat) (t t2 : Triangulation)
    (p : Nat) (h : 0 < levelSize sz t 0) (hs : t2.levels.map sz = t.levels.map sz) :
    traverse (advance sz t2) ((allSlots sz t).length + 1) ⟨p, 0, 0⟩ = .ok (allSlots sz t) := by
  have h2 : 0 < levelSize sz t2 0 := by
    have e1 := levelSize_eq sz t 0
    have e2 := levelSize_eq sz t2 0
    simp only [Nat.cast_zero] at e1 e2
    rw [e2, hs, ← e1]
    exact h
  have ha : allSlots sz t2 = allSlots sz t := by
    unfold allSlots
    rw [hs]
  rw [← ha]
  exact forward_traversal sz t2 p h2

theorem levelSize_beyond (sz : TriangulationLevel → Nat) (t : Triangulation) (m : Int)
    (h : (t.levels.length : Int) ≤ m) : levelSize sz t m = 0 := by
  unfold levelSize vecGet
  have h1 : ¬ (m < 0) := by omega
  simp only [h1, if_false]
  rw [List.getElem?_eq_none (by omega)]

/-- C3: forward traversal is complete.  When level 0 holds a slot, the loop
that starts at `(0, 0)` and applies `operator ++` until the handle is past the
end visits the list `allSlots`: exactly the slots `(l, i)` with `0 ≤ l < L` and
`0 ≤ i < size (l)`, strictly increasing in lexicographic order, hence each
once.  The visit is the same for every triangulation with the same vector
sizes, whatever its used flags, and the step from the last slot yields the
past-the-end handle `(-1, -1)`.  This holds for the line accessor over the line
arrays and for the quad accessor over the quad arrays. -/
theorem C3_forward_traversal_complete (t : Triangulation) (p : Nat) :
    (0 < levelSize lineSize t 0 →
      ∀ t2 : Triangulation, t2.levels.map lineSize = t.levels.map lineSize →
        traverse (LineAccessor.operator_inc t2) ((allSlots lineSize t).length + 1) ⟨p, 0, 0⟩ =
          .ok (allSlots lineSize t)) ∧
    (0 < levelSize quadSize t 0 →
      ∀ t2 : Triangulation, t2.levels.map quadSize = t.levels.map quadSize →
        traverse (QuadAccessor.operator_inc t2) ((allSlots quadSize t).length + 1) ⟨p, 0, 0⟩ =
          .ok (allSlots quadSize t)) ∧
    (allSlots lineSize t).Pairwise slotLt ∧ (allSlots lineSize t).Nodup ∧
    (allSlots quadSize t).Pairwise slotLt ∧ (allSlots quadSize t).Nodup ∧
    (∀ l i : Int, (l, i) ∈ allSlots lineSize t ↔
      0 ≤ l ∧ l < (t.levels.length : Int) ∧ 0 ≤ i ∧ i < (levelSize lineSize t l : Int)) ∧
    (∀ l i : Int, (l, i) ∈ allSlots quadSize t ↔
      0 ≤ l ∧ l < (t.levels.length : Int) ∧ 0 ≤ i ∧ i < (levelSize quadSize t l : Int)) ∧
    (∀ l i : Int, 0 ≤ l → l < (t.levels.length : Int) →
      i + 1 = (levelSize lineSize t l : Int) →
      (∀ m : Int, l < m → levelSize lineSize t m = 0) →
      LineAccessor.operator_inc t ⟨p, l, i⟩ = .ok ⟨p, -1, -1⟩) ∧
    (∀ l i : Int, 0 ≤ l → l < (t.levels.length : Int) →
      i + 1 = (levelSize quadSize t l : Int) →
      (∀ m : Int, l < m → levelSize quadSize t m = 0) →
      QuadAccessor.operator_inc t ⟨p, l, i⟩ = .ok ⟨p, -1, -1⟩) :=
  ⟨fun h t2 hs => forward_traversal_sizes lineSize t t2 p h hs,
    fun h t2 hs => forward_traversal_sizes quadSize t t2 p h hs,
    slotsFrom_sorted _ 0, allSlots_nodup lineSize t,
    slotsFrom_sorted _ 0, allSlots_nodup quadSize t,
    mem_allSlots lineSize t, mem_allSlots quadSize t,
    fun l i h0 hl hi hz => advance_last lineSize t p l i h0 hl hi hz,
    fun l i h0 hl hi hz => advance_last quadSize t p l i h0 hl hi hz⟩

/-- Witness of C3: three levels of lines with 2, 0 and 1 slots, the second
slot unused, and three levels of quads of which only the first holds a slot. -/
theorem C3_forward_traversal_complete_witness :
    traverse (LineAccessor.operator_inc threeLevels) 4 firstSlot =
        .ok [(0, 0), (0, 1), (2, 0)] ∧
      traverse (QuadAccessor.operator_inc oneQuad) 2 firstSlot = .ok [(0, 0)] ∧
      LineAccessor.operator_inc threeLevels ⟨0, 2, 0⟩ = .ok ⟨0, -1, -1⟩ :=
  ⟨(C3_forward_traversal_complete threeLevels 0).1 (by decide) threeLevels rfl,
    (C3_forward_traversal_complete oneQuad 0).2.1 (by decide) oneQuad rfl,
    (C3_forward_traversal_complete threeLevels 0).2.2.2.2.2.2.2.2.1 2 0 (by decide)
      (by decide) (by decide)
      (fun m hm => levelSize_beyond _ _ m (by simpa [threeLevels] using hm))⟩

/-- C4, as the claim states it, fails: on a triangulation with the single slot
`(0, 0)`, `operator --` applied to the past-the-end handle `(-1, -1)` subscripts
the levels with `-2` and does not land on the last slot. -/
theorem C4_counterexample :
    allSlots lineSize oneLine = [(0, 0)] ∧
      LineAccessor.operator_dec oneLine ⟨0, -1, -1⟩ = .error .OutOfBounds ∧
      allSlots quadSize oneQuad = [(0, 0)] ∧
      QuadAccessor.operator_dec oneQuad ⟨0, -1, -1⟩ = .error .OutOfBounds := by
  decide

/-- C4 (amended): backward traversal from the last slot.  Starting at the last
slot of the highest non-empty level, the loop that applies `operator --` until
the handle is past the end visits the slots of the forward traversal,
`allSlots`, in exactly the reverse order: every retreat lands on the
lexicographic predecessor and the retreat from the first slot yields
past-the-end. -/
theorem C4_backward_traversal_from_last_slot (t : Triangulation) (p : Nat) (l i : Int) :
    (0 ≤ l → l < (t.levels.length : Int) → 0 ≤ i → i + 1 = (levelSize lineSize t l : Int) →
      (∀ m : Int, l < m → levelSize lineSize t m = 0) →
      traverse (LineAccessor.operator_dec t) ((allSlots lineSize t).length + 1) ⟨p, l, i⟩ =
        .ok (allSlots lineSize t).reverse) ∧
    (0 ≤ l → l < (t.levels.length : Int) → 0 ≤ i → i + 1 = (levelSize quadSize t l : Int) →
      (∀ m : Int, l < m → levelSize quadSize t m = 0) →
      traverse (QuadAccessor.operator_dec t) ((allSlots quadSize t).length + 1) ⟨p, l, i⟩ =
        .ok (allSlots quadSize t).reverse) :=
  ⟨fun h0 hl hi0 hi hz => backward_traversal lineSize t p l i h0 hl hi0 hi hz,
    fun h0 hl hi0 hi hz => backward_traversal quadSize t p l i h0 hl hi0 hi hz⟩

/-- Witness of C4 (amended): three levels of lines with 2, 0 and 1 slots, and
one level with one quad. -/
theorem C4_backward_traversal_from_last_slot_witness :
    traverse (LineAccessor.operator_dec threeLevels) 4 ⟨0, 2, 0⟩ =
        .ok [(2, 0), (0, 1), (0, 0)] ∧
      traverse (QuadAccessor.operator_dec oneQuad) 2 firstSlot = .ok [(0, 0)] :=
  ⟨(C4_backward_traversal_from_last_slot threeLevels 0 2 0).1 (by decide) (by decide)
      (by decide) (by decide)
      (fun m hm => levelSize_beyond _ _ m (by simpa [threeLevels] using hm)),
    (C4_backward_traversal_from_last_slot oneQuad 0 0 0).2 (by decide) (by decide)
      (by decide) (by decide)
      (fun m hm => levelSize_beyond _ _ m (by simpa [oneQuad] using hm))⟩

/-- C5: single retreat step.  From an in-range slot `(l, i)`, `operator --`
yields `(l, i - 1)` when `i > 0`; when `i = 0` it yields `(l2, size (l2) - 1)`
for the greatest level `l2 < l` with a slot, all levels between being empty,
and the past-the-end handle `(-1, -1)` when no level below `l` holds a slot.
The call returns, and the handle returned is never in the invalid state.  This
holds for the line accessor and for the quad accessor. -/
theorem C5_single_retreat_step (t : Triangulation) (p : Nat) (l i : Int) :
    (0 ≤ l → l < (t.levels.length : Int) → 0 ≤ i → i < (levelSize lineSize t l : Int) →
      (0 < i → LineAccessor.operator_dec t ⟨p, l, i⟩ = .ok ⟨p, l, i - 1⟩) ∧
      (i = 0 → ∀ l2 : Int, 0 ≤ l2 → l2 < l → 0 < levelSize lineSize t l2 →
        (∀ m : Int, l2 < m → m < l → levelSize lineSize t m = 0) →
        LineAccessor.operator_dec t ⟨p, l, i⟩ =
          .ok ⟨p, l2, (levelSize lineSize t l2 : Int) - 1⟩) ∧
      (i = 0 → (∀ m : Int, 0 ≤ m → m < l → levelSize lineSize t m = 0) →
        LineAccessor.operator_dec t ⟨p, l, i⟩ = .ok ⟨p, -1, -1⟩) ∧
      (∃ r, LineAccessor.operator_dec t ⟨p, l, i⟩ = .ok r ∧ r.state ≠ .invalid)) ∧
    (0 ≤ l → l < (t.levels.length : Int) → 0 ≤ i → i < (levelSize quadSize t l : Int) →
      (0 < i → QuadAccessor.operator_dec t ⟨p, l, i⟩ = .ok ⟨p, l, i - 1⟩) ∧
      (i = 0 → ∀ l2 : Int, 0 ≤ l2 → l2 < l → 0 < levelSize quadSize t l2 →
        (∀ m : Int, l2 < m → m < l → levelSize quadSize t m = 0) →
        QuadAccessor.operator_dec t ⟨p, l, i⟩ =
          .ok ⟨p, l2, (levelSize quadSize t l2 : Int) - 1⟩) ∧
      (i = 0 → (∀ m : Int, 0 ≤ m → m < l → levelSize quadSize t m = 0) →
        QuadAccessor.operator_dec t ⟨p, l, i⟩ = .ok ⟨p, -1, -1⟩) ∧
      (∃ r, QuadAccessor.operator_dec t ⟨p, l, i⟩ = .ok r ∧ r.state ≠ .invalid)) :=
  ⟨fun h0 hl hi0 _ => retreat_step lineSize t p l i h0 hl hi0,
    fun h0 hl hi0 _ => retreat_step quadSize t p l i h0 hl hi0⟩

/-- Witness of C5: from slot `(2, 0)` of three levels of lines with 2, 0 and 1
slots the retreat skips the empty level 1 and lands on `(0, 1)`; from slot
`(1, 1)` of the quads it lands on `(1, 0)`, and from there, level 0 being
empty, on the past-the-end handle. -/
theorem C5_single_retreat_step_witness :
    LineAccessor.operator_dec threeLevels ⟨0, 2, 0⟩ = .ok ⟨0, 0, 1⟩ ∧
      QuadAccessor.operator_dec threeQuadLevels ⟨0, 1, 1⟩ = .ok ⟨0, 1, 0⟩ ∧
      QuadAccessor.operator_dec threeQuadLevels ⟨0, 1, 0⟩ = .ok ⟨0, -1, -1⟩ :=
  ⟨((C5_single_retreat_step threeLevels 0 2 0).1 (by decide) (by decide) (by decide)
      (by decide)).2.1 rfl 0 (by decide) (by decide) (by decide)
      (fun m h1 h2 => by
        have h : m = 1 := by omega
        subst h
        decide),
    ((C5_single_retreat_step threeQuadLevels 0 1 1).2 (by decide) (by decide) (by decide)
      (by decide)).1 (by decide),
    ((C5_single_retreat_step threeQuadLevels 0 1 0).2 (by decide) (by decide) (by decide)
      (by decide)).2.2.1 rfl
      (fun m h1 h2 => by
        have h : m = 0 := by omega
        subst h
        decide)⟩

/-! ## Cells: reading and writing a slot -/

theorem vecGet_nonneg {α : Type} {v : List α} {i : Int} {x : α}
    (h : vecGet v i = .ok x) : 0 ≤ i :=
  ((vecGet_eq_ok_iff v i x).1 h).1

theorem vecGet_lt {α : Type} {v : List α} {i : Int} {x : α}
    (h : vecGet v i = .ok x) : i.toNat < v.length := by
  obtain ⟨-, hg⟩ := (vecGet_eq_ok_iff v i x).1 h
  by_contra hlt
  rw [List.getElem?_eq_none (by omega)] at hg
  cases hg

theorem state_valid (a : TriaAccessor) (h1 : 0 ≤ a.present_level)
    (h2 : 0 ≤ a.present_index) : a.state = .valid := by
  have h : a.present_level ≥ 0 ∧ a.present_index ≥ 0 := ⟨h1, h2⟩
  simp [TriaAccessor.state, h]

theorem cell_in_range_reads (dim : Dim) (t : Triangulation) (a : TriaAccessor)
    (h : CellAccessor.in_range dim t a = true) :
    ∃ lv u c rf cf, CellReads dim t a lv u c rf cf := by
  unfold CellAccessor.in_range at h
  rw [Bool.and_eq_true] at h
  obtain ⟨h1, h2⟩ := h
  cases hlv : vecGet t.levels a.present_level with
  | error e => rw [hlv] at h2; cases h2
  | ok lv =>
    rw [hlv] at h2
    simp only [Bool.and_eq_true, decide_eq_true_eq] at h2
    obtain ⟨⟨hrf, hcf⟩, -⟩ := h2
    cases dim with
    | one =>
      obtain ⟨lv2, hlv2, h0, -, hch, hus, -⟩ := (line_in_range_iff t a).1 h1
      rw [hlv] at hlv2
      cases hlv2
      exact ⟨lv, _, _, _, _, hlv, h0, vecGet_ok_of_lt _ _ h0 hus, vecGet_ok_of_lt _ _ h0 hch,
        vecGet_ok_of_lt _ _ h0 hrf, vecGet_ok_of_lt _ _ h0 hcf⟩
    | two =>
      obtain ⟨lv2, hlv2, h0, -, hch, hus, -⟩ := (quad_in_range_iff t a).1 h1
      rw [hlv] at hlv2
      cases hlv2
      exact ⟨lv, _, _, _, _, hlv, h0, vecGet_ok_of_lt _ _ h0 hus, vecGet_ok_of_lt _ _ h0 hch,
        vecGet_ok_of_lt _ _ h0 hrf, vecGet_ok_of_lt _ _ h0 hcf⟩

theorem cell_used_eval {dim : Dim} {t : Triangulation} {a : TriaAccessor}
    {lv : TriangulationLevel} (hlv : vecGet t.levels a.present_level = .ok lv)
    (hi : 0 ≤ a.present_index) :
    CellAccessor.used dim t a = vecGet (lv.cell_used dim) a.present_index := by
  have hs := state_valid a (vecGet_nonneg hlv) hi
  cases dim <;>
    simp [CellAccessor.used, LineAccessor.used, QuadAccessor.used, hs, hlv,
      TriangulationLevel.cell_used]

theorem cell_has_children_eval {dim : Dim} {t : Triangulation} {a : TriaAccessor}
    {lv : TriangulationLevel} (hlv : vecGet t.levels a.present_level = .ok lv)
    (hi : 0 ≤ a.present_index) :
    CellAccessor.has_children dim t a =
      (vecGet (lv.cell_children dim) a.present_index >>= fun c => .ok (c != -1)) := by
  have hs := state_valid a (vecGet_nonneg hlv) hi
  cases dim <;>
    simp [CellAccessor.has_children, LineAccessor.has_children, QuadAccessor.has_children,
      hs, hlv, TriangulationLevel.cell_children]

theorem cell_active_eval {dim : Dim} {t : Triangulation} {a : TriaAccessor}
    {lv : TriangulationLevel} {c : Int} (hlv : vecGet t.levels a.present_level = .ok lv)
    (hi : 0 ≤ a.present_index)
    (hc : vecGet (lv.cell_children dim) a.present_index = .ok c) :
    CellAccessor.active dim t a = .ok (c == -1) := by
  simp only [CellAccessor.active, cell_has_children_eval hlv hi, hc, bind_ok, pure_eq_ok]
  by_cases h : c = -1 <;> simp [h, bne]

theorem refine_flag_set_eval {dim : Dim} {t : Triangulation} {a : TriaAccessor}
    {lv : TriangulationLevel} {u : Bool} {c : Int} {rf cf : Bool}
    (h : CellReads dim t a lv u c rf cf) :
    CellAccessor.refine_flag_set dim t a =
      if u then (if c = -1 ∨ rf = false then .ok rf else .error .ExcRefineCellNotActive)
      else .error .ExcCellNotUsed := by
  simp only [CellAccessor.refine_flag_set, cell_used_eval h.hlv h.hi, h.hu, bind_ok, h.hlv,
    cell_active_eval h.hlv h.hi h.hc, orElse, h.hrf, pure_eq_ok]
  cases u <;> cases rf <;> by_cases hc : c = -1 <;> simp [hc]

theorem coarsen_flag_set_eval {dim : Dim} {t : Triangulation} {a : TriaAccessor}
    {lv : TriangulationLevel} {u : Bool} {c : Int} {rf cf : Bool}
    (h : CellReads dim t a lv u c rf cf) :
    CellAccessor.coarsen_flag_set dim t a =
      if u then (if c = -1 ∨ cf = false then .ok cf else .error .ExcRefineCellNotActive)
      else .error .ExcCellNotUsed := by
  simp only [CellAccessor.coarsen_flag_set, cell_used_eval h.hlv h.hi, h.hu, bind_ok, h.hlv,
    cell_active_eval h.hlv h.hi h.hc, orElse, h.hcf, pure_eq_ok]
  cases u <;> cases cf <;> by_cases hc : c = -1 <;> simp [hc]

theorem used_and_active_eval {dim : Dim} {t : Triangulation} {a : TriaAccessor}
    {lv : TriangulationLevel} {u : Bool} {c : Int} {rf cf : Bool}
    (h : CellReads dim t a lv u c rf cf) :
    andThen (CellAccessor.used dim t a) (CellAccessor.active dim t a) =
      .ok (u && (c == -1)) := by
  simp only [andThen, cell_used_eval h.hlv h.hi, h.hu, bind_ok,
    cell_active_eval h.hlv h.hi h.hc, pure_eq_ok]
  cases u <;> simp

theorem set_refine_flag_eval {dim : Dim} {t : Triangulation} {a : TriaAccessor}
    {lv : TriangulationLevel} {u : Bool} {c : Int} {rf cf : Bool}
    (h : CellReads dim t a lv u c rf cf) :
    CellAccessor.set_refine_flag dim t a =
      if u = true ∧ c = -1 then
        (if cf then .error .ExcCellFlaggedForCoarsening
         else .ok (t.withLevel a.present_level
            { lv with refine_flags := lv.refine_flags.set a.present_index.toNat true }))
      else .error .ExcRefineCellNotActive := by
  simp only [CellAccessor.set_refine_flag, used_and_active_eval h, bind_ok,
    coarsen_flag_set_eval h, h.hlv, vecSet_ok_of_lt _ _ _ h.hi (vecGet_lt h.hrf),
    setLevel_ok_of_get h.hlv]
  by_cases hc : c = -1
  · cases u <;> cases cf <;> simp [hc]
  · have hb : (c == -1) = false := beq_eq_false_iff_ne.mpr hc
    cases u <;> cases cf <;> simp [hc, hb]

theorem set_coarsen_flag_eval {dim : Dim} {t : Triangulation} {a : TriaAccessor}
    {lv : TriangulationLevel} {u : Bool} {c : Int} {rf cf : Bool}
    (h : CellReads dim t a lv u c rf cf) :
    CellAccessor.set_coarsen_flag dim t a =
      if u = true ∧ c = -1 then
        (if rf then .error .ExcCellFlaggedForRefinement
         else .ok (t.withLevel a.present_level
            { lv with coarsen_flags := lv.coarsen_flags.set a.present_index.toNat true }))
      else .error .ExcRefineCellNotActive := by
  simp only [CellAccessor.set_coarsen_flag, used_and_active_eval h, bind_ok,
    refine_flag_set_eval h, h.hlv, vecSet_ok_of_lt _ _ _ h.hi (vecGet_lt h.hcf),
    setLevel_ok_of_get h.hlv]
  by_cases hc : c = -1
  · cases u <;> cases rf <;> simp [hc]
  · have hb : (c == -1) = false := beq_eq_false_iff_ne.mpr hc
    cases u <;> cases rf <;> simp [hc, hb]

theorem cell_reads_set_refine {dim : Dim} {t : Triangulation} {a : TriaAccessor}
    {lv : TriangulationLevel} {u : Bool} {c : Int} {rf cf : Bool}
    (h : CellReads dim t a lv u c rf cf) (b : Bool) :
    CellReads dim (t.withLevel a.present_level
            { lv with refine_flags := lv.refine_flags.set a.present_index.toNat b }) a
      { lv with refine_flags := lv.refine_flags.set a.present_index.toNat b } u c b cf where
  hlv := vecGet_withLevel h.hlv _
  hi := h.hi
  hu := by cases dim <;> exact h.hu
  hc := by cases dim <;> exact h.hc
  hrf := vecGet_set_same h.hrf _
  hcf := h.hcf

theorem cell_reads_set_coarsen {dim : Dim} {t : Triangulation} {a : TriaAccessor}
    {lv : TriangulationLevel} {u : Bool} {c : Int} {rf cf : Bool}
    (h : CellReads dim t a lv u c rf cf) (b : Bool) :
    CellReads dim (t.withLevel a.present_level
            { lv with coarsen_flags := lv.coarsen_flags.set a.present_index.toNat b }) a
      { lv with coarsen_flags := lv.coarsen_flags.set a.present_index.toNat b } u c rf b where
  hlv := vecGet_withLevel h.hlv _
  hi := h.hi
  hu := by cases dim <;> exact h.hu
  hc := by cases dim <;> exact h.hc
  hrf := h.hrf
  hcf := vecGet_set_same h.hcf _

theorem stored_flags_eval {dim : Dim} {t : Triangulation} {a : TriaAccessor}
    {lv : TriangulationLevel} {u : Bool} {c : Int} {rf cf : Bool}
    (h : CellReads dim t a lv u c rf cf) :
    stored_refine_flag t a = .ok rf ∧ stored_coarsen_flag t a = .ok cf := by
  simp only [stored_refine_flag, stored_coarsen_flag, h.hlv, bind_ok, h.hrf, h.hcf, and_self]

theorem cell_basic_eval {dim : Dim} {t : Triangulation} {a : TriaAccessor}
    {lv : TriangulationLevel} {u : Bool} {c : Int} {rf cf : Bool}
    (h : CellReads dim t a lv u c rf cf) :
    CellAccessor.used dim t a = .ok u ∧ CellAccessor.has_children dim t a = .ok (c != -1) ∧
      CellAccessor.active dim t a = .ok (c == -1) := by
  refine ⟨?_, ?_, cell_active_eval h.hlv h.hi h.hc⟩
  · rw [cell_used_eval h.hlv h.hi, h.hu]
  · rw [cell_has_children_eval h.hlv h.hi, h.hc, bind_ok]

/-- C6: refine and coarsen flags exclude each other as preconditions.  On a
cell slot, `set_refine_flag` fails if the cell is unused, or has children, or
has its coarsen flag set (stored, or as returned by `coarsen_flag_set`), and
otherwise succeeds, after which `refine_flag_set` returns true; the same holds
for `set_coarsen_flag` with the two flags exchanged.  On a used, active,
unflagged cell, `set_refine_flag` succeeds, the following `set_coarsen_flag`
fails, and the refine flag is then true and the coarsen flag false. -/
theorem C6_refine_coarsen_preconditions (dim : Dim) (t : Triangulation) (a : TriaAccessor)
    (hr : CellAccessor.in_range dim t a = true) :
    (CellAccessor.used dim t a = .ok false →
      CellAccessor.set_refine_flag dim t a = .error .ExcRefineCellNotActive) ∧
    (CellAccessor.has_children dim t a = .ok true →
      CellAccessor.set_refine_flag dim t a = .error .ExcRefineCellNotActive) ∧
    (stored_coarsen_flag t a = .ok true →
      ∃ e, CellAccessor.set_refine_flag dim t a = .error e) ∧
    (CellAccessor.coarsen_flag_set dim t a = .ok true →
      CellAccessor.set_refine_flag dim t a = .error .ExcCellFlaggedForCoarsening) ∧
    (CellAccessor.used dim t a = .ok true → CellAccessor.has_children dim t a = .ok false →
      stored_coarsen_flag t a = .ok false →
      ∃ t2, CellAccessor.set_refine_flag dim t a = .ok t2 ∧
        CellAccessor.refine_flag_set dim t2 a = .ok true) ∧
    (CellAccessor.used dim t a = .ok false →
      CellAccessor.set_coarsen_flag dim t a = .error .ExcRefineCellNotActive) ∧
    (CellAccessor.has_children dim t a = .ok true →
      CellAccessor.set_coarsen_flag dim t a = .error .ExcRefineCellNotActive) ∧
    (stored_refine_flag t a = .ok true →
      ∃ e, CellAccessor.set_coarsen_flag dim t a = .error e) ∧
    (CellAccessor.refine_flag_set dim t a = .ok true →
      CellAccessor.set_coarsen_flag dim t a = .error .ExcCellFlaggedForRefinement) ∧
    (CellAccessor.used dim t a = .ok true → CellAccessor.has_children dim t a = .ok false →
      stored_refine_flag t a = .ok false →
      ∃ t2, CellAccessor.set_coarsen_flag dim t a = .ok t2 ∧
        CellAccessor.coarsen_flag_set dim t2 a = .ok true) ∧
    (CellAccessor.used dim t a = .ok true → CellAccessor.has_children dim t a = .ok false →
      stored_refine_flag t a = .ok false → stored_coarsen_flag t a = .ok false →
      ∃ t2, CellAccessor.set_refine_flag dim t a = .ok t2 ∧
        CellAccessor.set_coarsen_flag dim t2 a = .error .ExcCellFlaggedForRefinement ∧
        CellAccessor.refine_flag_set dim t2 a = .ok true ∧
        CellAccessor.coarsen_flag_set dim t2 a = .ok false) := by
  obtain ⟨lv, u, c, rf, cf, h⟩ := cell_in_range_reads dim t a hr
  obtain ⟨hu, hc, -⟩ := cell_basic_eval h
  obtain ⟨hrf, hcf⟩ := stored_flags_eval h
  have hR := cell_reads_set_refine h true
  have hC := cell_reads_set_coarsen h true
  rw [hu, hc, hrf, hcf, set_refine_flag_eval h, set_coarsen_flag_eval h,
    refine_flag_set_eval h, coarsen_flag_set_eval h]
  simp only [Except.ok.injEq]
  by_cases hc1 : c = -1
  · subst hc1
    cases u <;> cases rf <;> cases cf <;>
      simp [set_coarsen_flag_eval hR, refine_flag_set_eval hR, coarsen_flag_set_eval hR,
        coarsen_flag_set_eval hC]
  · have hb : (c != -1) = true := by simp [bne, hc1]
    cases u <;> cases rf <;> cases cf <;> simp [hc1, hb]

/-- Witness of C6: the single used, active, unflagged cell in 1D and in 2D. -/
theorem C6_refine_coarsen_preconditions_witness :
    (∃ t2, CellAccessor.set_refine_flag .one oneLine firstSlot = .ok t2 ∧
        CellAccessor.set_coarsen_flag .one t2 firstSlot = .error .ExcCellFlaggedForRefinement ∧
        CellAccessor.refine_flag_set .one t2 firstSlot = .ok true ∧
        CellAccessor.coarsen_flag_set .one t2 firstSlot = .ok false) ∧
    (∃ t2, CellAccessor.set_coarsen_flag .two oneQuad firstSlot = .ok t2 ∧
        CellAccessor.coarsen_flag_set .two t2 firstSlot = .ok true) :=
  ⟨(C6_refine_coarsen_preconditions .one oneLine firstSlot (by decide)).2.2.2.2.2.2.2.2.2.2
      (by decide) (by decide) (by decide) (by decide),
    (C6_refine_coarsen_preconditions .two oneQuad firstSlot (by decide)).2.2.2.2.2.2.2.2.2.1
      (by decide) (by decide) (by decide)⟩

/-! ## Successful calls -/

theorem bind_eq_ok {α β : Type} {m : Except Exc α} {f : α → Except Exc β} {y : β}
    (h : (m >>= f) = .ok y) : ∃ x, m = .ok x ∧ f x = .ok y := by
  cases m with
  | error e => cases h
  | ok x => exact ⟨x, rfl, h⟩

theorem assert_bind_inv {β : Type} {x : Except Exc Bool} {e : Exc} {rest : Except Exc β}
    {y : β} (h : (x >>= fun b => Assert b e >>= fun _ => rest) = .ok y) :
    x = .ok true ∧ rest = .ok y := by
  obtain ⟨b, hb, h2⟩ := bind_eq_ok h
  cases b with
  | false => cases h2
  | true => exact ⟨hb, h2⟩

theorem assert_not_bind_inv {β : Type} {x : Except Exc Bool} {e : Exc}
    {rest : Except Exc β} {y : β}
    (h : (x >>= fun b => Assert (!b) e >>= fun _ => rest) = .ok y) :
    x = .ok false ∧ rest = .ok y := by
  obtain ⟨b, hb, h2⟩ := bind_eq_ok h
  cases b with
  | true => cases h2
  | false => exact ⟨hb, h2⟩

theorem assert_state_bind_inv {β : Type} {c : Bool} {e : Exc} {rest : Except Exc β}
    {y : β} (h : (Assert c e >>= fun _ => rest) = .ok y) : c = true ∧ rest = .ok y := by
  cases c with
  | false => cases h
  | true => exact ⟨rfl, h⟩

theorem andThen_eq_ok_true {x y : Except Exc Bool} (h : andThen x y = .ok true) :
    x = .ok true ∧ y = .ok true := by
  obtain ⟨b, hb, h2⟩ := bind_eq_ok h
  cases b with
  | false => cases h2
  | true => exact ⟨hb, h2⟩

/-- A successful write of one entry of one array of level `l`. -/
theorem write_inv {α : Type} (t : Triangulation) (l idx : Int)
    (arr : TriangulationLevel → List α)
    (upd : TriangulationLevel → List α → TriangulationLevel) (v : α) (t2 : Triangulation)
    (h : (vecGet t.levels l >>= fun lv => vecSet (arr lv) idx v >>= fun x =>
      t.setLevel l (upd lv x)) = .ok t2) :
    ∃ lv, vecGet t.levels l = .ok lv ∧ 0 ≤ idx ∧ idx.toNat < (arr lv).length ∧
      t2 = t.withLevel l (upd lv ((arr lv).set idx.toNat v)) := by
  obtain ⟨lv, hlv, h2⟩ := bind_eq_ok h
  obtain ⟨x, hx, h3⟩ := bind_eq_ok h2
  obtain ⟨h0, hlt, rfl⟩ := (vecSet_eq_ok_iff _ _ _ _).1 hx
  rw [setLevel_ok_of_get hlv] at h3
  cases h3
  exact ⟨lv, hlv, h0, hlt, rfl⟩

theorem cell_used_inv {dim : Dim} {t : Triangulation} {a : TriaAccessor} {u : Bool}
    (h : CellAccessor.used dim t a = .ok u) :
    ∃ lv, vecGet t.levels a.present_level = .ok lv ∧ 0 ≤ a.present_index ∧
      vecGet (lv.cell_used dim) a.present_index = .ok u := by
  cases dim with
  | one =>
    obtain ⟨hs, h2⟩ := assert_state_bind_inv h
    obtain ⟨lv, hlv, h3⟩ := bind_eq_ok h2
    exact ⟨lv, hlv, vecGet_nonneg h3, h3⟩
  | two =>
    obtain ⟨hs, h2⟩ := assert_state_bind_inv h
    obtain ⟨lv, hlv, h3⟩ := bind_eq_ok h2
    exact ⟨lv, hlv, vecGet_nonneg h3, h3⟩

theorem cell_has_children_inv {dim : Dim} {t : Triangulation} {a : TriaAccessor} {b : Bool}
    (h : CellAccessor.has_children dim t a = .ok b) :
    ∃ lv c, vecGet t.levels a.present_level = .ok lv ∧ 0 ≤ a.present_index ∧
      vecGet (lv.cell_children dim) a.present_index = .ok c ∧ b = (c != -1) := by
  cases dim with
  | one =>
    obtain ⟨hs, h2⟩ := assert_state_bind_inv h
    obtain ⟨lv, hlv, h3⟩ := bind_eq_ok h2
    obtain ⟨c, hc, h4⟩ := bind_eq_ok h3
    cases h4
    exact ⟨lv, c, hlv, vecGet_nonneg hc, hc, rfl⟩
  | two =>
    obtain ⟨hs, h2⟩ := assert_state_bind_inv h
    obtain ⟨lv, hlv, h3⟩ := bind_eq_ok h2
    obtain ⟨c, hc, h4⟩ := bind_eq_ok h3
    cases h4
    exact ⟨lv, c, hlv, vecGet_nonneg hc, hc, rfl⟩

theorem used_and_active_inv {dim : Dim} {t : Triangulation} {a : TriaAccessor}
    (h : andThen (CellAccessor.used dim t a) (CellAccessor.active dim t a) = .ok true) :
    ∃ lv, vecGet t.levels a.present_level = .ok lv ∧ 0 ≤ a.present_index ∧
      vecGet (lv.cell_used dim) a.present_index = .ok true ∧
      vecGet (lv.cell_children dim) a.present_index = .ok (-1) := by
  obtain ⟨hu, hact⟩ := andThen_eq_ok_true h
  obtain ⟨lv, hlv, hi, hu2⟩ := cell_used_inv hu
  obtain ⟨b, hb, h2⟩ := bind_eq_ok hact
  obtain ⟨lv2, c, hlv2, -, hc, hbc⟩ := cell_has_children_inv hb
  rw [hlv] at hlv2
  cases hlv2
  refine ⟨lv, hlv, hi, hu2, ?_⟩
  have hc1 : c = -1 := by
    subst hbc
    by_contra hne
    have : (c != -1) = true := by simp [bne, hne]
    rw [this] at h2
    cases h2
  rw [← hc1]
  exact hc

theorem refine_flag_set_inv {dim : Dim} {t : Triangulation} {a : TriaAccessor} {b : Bool}
    (h : CellAccessor.refine_flag_set dim t a = .ok b) :
    ∃ lv, vecGet t.levels a.present_level = .ok lv ∧
      vecGet lv.refine_flags a.present_index = .ok b := by
  obtain ⟨-, h2⟩ := assert_bind_inv h
  obtain ⟨lv, hlv, h3⟩ := bind_eq_ok h2
  obtain ⟨-, h4⟩ := assert_bind_inv h3
  exact ⟨lv, hlv, h4⟩

theorem coarsen_flag_set_inv {dim : Dim} {t : Triangulation} {a : TriaAccessor} {b : Bool}
    (h : CellAccessor.coarsen_flag_set dim t a = .ok b) :
    ∃ lv, vecGet t.levels a.present_level = .ok lv ∧
      vecGet lv.coarsen_flags a.present_index = .ok b := by
  obtain ⟨-, h2⟩ := assert_bind_inv h
  obtain ⟨lv, hlv, h3⟩ := bind_eq_ok h2
  obtain ⟨-, h4⟩ := assert_bind_inv h3
  exact ⟨lv, hlv, h4⟩

/-- What a successful `set_refine_flag` has checked and written. -/
theorem set_refine_flag_effect {dim : Dim} {t t2 : Triangulation} {a : TriaAccessor}
    (h : CellAccessor.set_refine_flag dim t a = .ok t2) :
    ∃ lv, vecGet t.levels a.present_level = .ok lv ∧ 0 ≤ a.present_index ∧
      a.present_index.toNat < lv.refine_flags.length ∧
      vecGet (lv.cell_used dim) a.present_index = .ok true ∧
      vecGet (lv.cell_children dim) a.present_index = .ok (-1) ∧
      vecGet lv.coarsen_flags a.present_index = .ok false ∧
      t2 = t.withLevel a.present_level
        { lv with refine_flags := lv.refine_flags.set a.present_index.toNat true } := by
  obtain ⟨h1, h2⟩ := assert_bind_inv h
  obtain ⟨h3, h4⟩ := assert_not_bind_inv h2
  obtain ⟨lv, hlv, hi, hu, hc⟩ := used_and_active_inv h1
  obtain ⟨lv2, hlv2, hcf⟩ := coarsen_flag_set_inv h3
  obtain ⟨lv3, hlv3, -, hlt, ht2⟩ := write_inv t _ _ (fun lv => lv.refine_flags)
    (fun lv x => { lv with refine_flags := x }) _ _ h4
  rw [hlv] at hlv2 hlv3
  cases hlv2
  cases hlv3
  exact ⟨lv, hlv, hi, hlt, hu, hc, hcf, ht2⟩

/-- What a successful `set_coarsen_flag` has checked and written. -/
theorem set_coarsen_flag_effect {dim : Dim} {t t2 : Triangulation} {a : TriaAccessor}
    (h : CellAccessor.set_coarsen_flag dim t a = .ok t2) :
    ∃ lv, vecGet t.levels a.present_level = .ok lv ∧ 0 ≤ a.present_index ∧
      a.present_index.toNat < lv.coarsen_flags.length ∧
      vecGet (lv.cell_used dim) a.present_index = .ok true ∧
      vecGet (lv.cell_children dim) a.present_index = .ok (-1) ∧
      vecGet lv.refine_flags a.present_index = .ok false ∧
      t2 = t.withLevel a.present_level
        { lv with coarsen_flags := lv.coarsen_flags.set a.present_index.toNat true } := by
  obtain ⟨h1, h2⟩ := assert_bind_inv h
  obtain ⟨h3, h4⟩ := assert_not_bind_inv h2
  obtain ⟨lv, hlv, hi, hu, hc⟩ := used_and_active_inv h1
  obtain ⟨lv2, hlv2, hrf⟩ := refine_flag_set_inv h3
  obtain ⟨lv3, hlv3, -, hlt, ht2⟩ := write_inv t _ _ (fun lv => lv.coarsen_flags)
    (fun lv x => { lv with coarsen_flags := x }) _ _ h4
  rw [hlv] at hlv2 hlv3
  cases hlv2
  cases hlv3
  exact ⟨lv, hlv, hi, hlt, hu, hc, hrf, ht2⟩

/-- What a successful `clear_refine_flag` has written. -/
theorem clear_refine_flag_effect {dim : Dim} {t t2 : Triangulation} {a : TriaAccessor}
    (h : CellAccessor.clear_refine_flag dim t a = .ok t2) :
    ∃ lv, vecGet t.levels a.present_level = .ok lv ∧ 0 ≤ a.present_index ∧
      a.present_index.toNat < lv.refine_flags.length ∧
      t2 = t.withLevel a.present_level
        { lv with refine_flags := lv.refine_flags.set a.present_index.toNat false } := by
  obtain ⟨-, h4⟩ := assert_bind_inv h
  exact write_inv t _ _ (fun lv => lv.refine_flags)
    (fun lv x => { lv with refine_flags := x }) _ _ h4

/-- What a successful `clear_coarsen_flag` has written. -/
theorem clear_coarsen_flag_effect {dim : Dim} {t t2 : Triangulation} {a : TriaAccessor}
    (h : CellAccessor.clear_coarsen_flag dim t a = .ok t2) :
    ∃ lv, vecGet t.levels a.present_level = .ok lv ∧ 0 ≤ a.present_index ∧
      a.present_index.toNat < lv.coarsen_flags.length ∧
      t2 = t.withLevel a.present_level
        { lv with coarsen_flags := lv.coarsen_flags.set a.present_index.toNat false } := by
  obtain ⟨-, h4⟩ := assert_bind_inv h
  exact write_inv t _ _ (fun lv => lv.coarsen_flags)
    (fun lv x => { lv with coarsen_flags := x }) _ _ h4

/-! ## Invariants of the cell flags -/

theorem getElem?_of_vecGet {α : Type} {v : List α} {i : Int} {x : α}
    (h : vecGet v i = .ok x) : v[i.toNat]? = some x :=
  ((vecGet_eq_ok_iff v i x).1 h).2

theorem mem_of_vecGet {α : Type} {v : List α} {i : Int} {x : α}
    (h : vecGet v i = .ok x) : x ∈ v :=
  List.getElem?_mem (getElem?_of_vecGet h)

theorem mem_withLevel {t : Triangulation} {l : Int} {lv2 lv : TriangulationLevel}
    (h : lv ∈ (t.withLevel l lv2).levels) : lv ∈ t.levels ∨ lv = lv2 :=
  List.mem_or_eq_of_mem_set h

/-- A level rewritten so that no slot has both flags keeps `NoBothFlags`. -/
theorem noBothFlags_withLevel {t : Triangulation} {l : Int} {lv2 : TriangulationLevel}
    (h : NoBothFlags t)
    (h2 : ∀ i < lv2.refine_flags.length,
      ¬ (lv2.refine_flags[i]? = some true ∧ lv2.coarsen_flags[i]? = some true)) :
    NoBothFlags (t.withLevel l lv2) := by
  intro lv hlv
  rcases mem_withLevel hlv with hm | rfl
  · exact h lv hm
  · exact h2

theorem noBothFlags_flagOp (dim : Dim) (op : FlagOp) (t t2 : Triangulation)
    (a : TriaAccessor) (h : NoBothFlags t) (hop : op.apply dim t a = .ok t2) :
    NoBothFlags t2 := by
  cases op with
  | set_refine_flag =>
    obtain ⟨lv, hlv, -, -, -, -, hcf, rfl⟩ := set_refine_flag_effect hop
    refine noBothFlags_withLevel h ?_
    intro i hi
    simp only [List.length_set] at hi
    by_cases hia : a.present_index.toNat = i
    · subst hia
      simp only [getElem?_of_vecGet hcf]
      simp
    · simp only [List.getElem?_set_ne hia]
      exact h lv (mem_of_vecGet hlv) i hi
  | clear_refine_flag =>
    obtain ⟨lv, hlv, -, hlt, rfl⟩ := clear_refine_flag_effect hop
    refine noBothFlags_withLevel h ?_
    intro i hi
    simp only [List.length_set] at hi
    by_cases hia : a.present_index.toNat = i
    · subst hia
      simp [hlt]
    · simp only [List.getElem?_set_ne hia]
      exact h lv (mem_of_vecGet hlv) i hi
  | set_coarsen_flag =>
    obtain ⟨lv, hlv, -, -, -, -, hrf, rfl⟩ := set_coarsen_flag_effect hop
    refine noBothFlags_withLevel h ?_
    intro i hi
    by_cases hia : a.present_index.toNat = i
    · subst hia
      simp only [getElem?_of_vecGet hrf]
      simp
    · simp only [List.getElem?_set_ne hia]
      exact h lv (mem_of_vecGet hlv) i hi
  | clear_coarsen_flag =>
    obtain ⟨lv, hlv, -, hlt, rfl⟩ := clear_coarsen_flag_effect hop
    refine noBothFlags_withLevel h ?_
    intro i hi
    by_cases hia : a.present_index.toNat = i
    · subst hia
      simp [hlt]
    · simp only [List.getElem?_set_ne hia]
      exact h lv (mem_of_vecGet hlv) i hi

theorem active_true_has_children (dim : Dim) (s : Triangulation) (a : TriaAccessor)
    (h : CellAccessor.active dim s a = .ok true) :
    CellAccessor.has_children dim s a = .ok false := by
  obtain ⟨b, hb, h2⟩ := bind_eq_ok h
  cases b with
  | true => cases h2
  | false => exact hb

/-- C7: the two cell flags exclude each other.  From a level storage in which
no cell slot has both flags set, every finite sequence of successful calls of
`set_refine_flag`, `clear_refine_flag`, `set_coarsen_flag` and
`clear_coarsen_flag`, on arbitrary cell handles, leads to a storage in which no
cell slot has both flags set; and a cell for which `active` returns true has
`has_children` false. -/
theorem C7_flag_exclusivity (dim : Dim) (ops : List (FlagOp × TriaAccessor))
    (t t2 : Triangulation) (h : NoBothFlags t) (hrun : runFlagOps dim ops t = .ok t2) :
    NoBothFlags t2 ∧
      ∀ (s : Triangulation) (a : TriaAccessor), CellAccessor.active dim s a = .ok true →
        CellAccessor.has_children dim s a = .ok false := by
  refine ⟨?_, active_true_has_children dim⟩
  induction ops generalizing t with
  | nil =>
    cases hrun
    exact h
  | cons x ops ih =>
    obtain ⟨op, a⟩ := x
    obtain ⟨t1, h1, h2⟩ := bind_eq_ok hrun
    exact ih t1 (noBothFlags_flagOp dim op t t1 a h h1) h2

/-- Witness of C7: refine flag set, cleared, then coarsen flag set on the single
line cell; an attempt to set both ends the sequence with a failure. -/
theorem C7_flag_exclusivity_witness :
    runFlagOps .one [(.set_refine_flag, firstSlot), (.clear_refine_flag, firstSlot),
        (.set_coarsen_flag, firstSlot)] oneLine = .ok oneLineCoarsen ∧
      NoBothFlags oneLineCoarsen ∧
      runFlagOps .one [(.set_refine_flag, firstSlot)] oneLineCoarsen =
        .error .ExcCellFlaggedForCoarsening :=
  ⟨by decide,
    (C7_flag_exclusivity .one [(.set_refine_flag, firstSlot), (.clear_refine_flag, firstSlot),
      (.set_coarsen_flag, firstSlot)] oneLine oneLineCoarsen (by decide) (by decide)).1,
    by decide⟩

/-- The calls that write none of the arrays the flag invariant reads:
`set_neighbor`, `set_material_id`, `set_user_flag`, `set_user_pointer`. -/
theorem untouched_effect (dim : Dim) (op : CellOp) (t t2 : Triangulation) (a : TriaAccessor)
    (hop : op.apply dim t a = .ok t2)
    (hk : (∃ i h, op = .set_neighbor i h) ∨ (∃ m, op = .set_material_id m) ∨
      op = .set_user_flag ∨ ∃ p, op = .set_user_pointer p) :
    ∃ lv lv2, vecGet t.levels a.present_level = .ok lv ∧
      t2 = t.withLevel a.present_level lv2 ∧ SameCellArrays dim lv lv2 := by
  rcases hk with ⟨i, h, rfl⟩ | ⟨m, rfl⟩ | rfl | ⟨p, rfl⟩
  · obtain ⟨-, h2⟩ := assert_state_bind_inv hop
    obtain ⟨lv, hlv, -, -, rfl⟩ := write_inv t _ _ (fun lv => lv.neighbors)
      (fun lv x => { lv with neighbors := x }) _ _ h2
    exact ⟨lv, _, hlv, rfl, by cases dim <;> exact ⟨rfl, rfl, rfl, rfl⟩⟩
  · obtain ⟨-, h2⟩ := assert_bind_inv hop
    cases dim with
    | one =>
      obtain ⟨lv, hlv, -, -, rfl⟩ := write_inv t _ _ (fun lv => lv.lines.material_id)
        (fun lv x => { lv with lines := { lv.lines with material_id := x } }) _ _ h2
      exact ⟨lv, _, hlv, rfl, rfl, rfl, rfl, rfl⟩
    | two =>
      obtain ⟨lv, hlv, -, -, rfl⟩ := write_inv t _ _ (fun lv => lv.quads.material_id)
        (fun lv x => { lv with quads := { lv.quads with material_id := x } }) _ _ h2
      exact ⟨lv, _, hlv, rfl, rfl, rfl, rfl, rfl⟩
  · cases dim with
    | one =>
      obtain ⟨-, h2⟩ := assert_bind_inv hop
      obtain ⟨lv, hlv, -, -, rfl⟩ := write_inv t _ _ (fun lv => lv.lines.user_flags)
        (fun lv x => { lv with lines := { lv.lines with user_flags := x } }) _ _ h2
      exact ⟨lv, _, hlv, rfl, rfl, rfl, rfl, rfl⟩
    | two =>
      obtain ⟨-, h2⟩ := assert_bind_inv hop
      obtain ⟨lv, hlv, -, -, rfl⟩ := write_inv t _ _ (fun lv => lv.quads.user_flags)
        (fun lv x => { lv with quads := { lv.quads with user_flags := x } }) _ _ h2
      exact ⟨lv, _, hlv, rfl, rfl, rfl, rfl, rfl⟩
  · cases dim with
    | one =>
      obtain ⟨-, h2⟩ := assert_bind_inv hop
      obtain ⟨lv, hlv, -, -, rfl⟩ := write_inv t _ _ (fun lv => lv.lines.user_pointers)
        (fun lv x => { lv with lines := { lv.lines with user_pointers := x } }) _ _ h2
      exact ⟨lv, _, hlv, rfl, rfl, rfl, rfl, rfl⟩
    | two =>
      obtain ⟨-, h2⟩ := assert_bind_inv hop
      obtain ⟨lv, hlv, -, -, rfl⟩ := write_inv t _ _ (fun lv => lv.quads.user_pointers)
        (fun lv x => { lv with quads := { lv.quads with user_pointers := x } }) _ _ h2
      exact ⟨lv, _, hlv, rfl, rfl, rfl, rfl, rfl⟩

/-- What a successful `set_used_flag` (`b = true`) or `clear_used_flag`
(`b = false`) of a cell has written. -/
theorem write_used_flag_effect (dim : Dim) (b : Bool) (t t2 : Triangulation)
    (a : TriaAccessor)
    (hop : (match dim with
      | .one => LineAccessor.write_used_flag b t a
      | .two => QuadAccessor.write_used_flag b t a) = .ok t2) :
    ∃ lv lv2, vecGet t.levels a.present_level = .ok lv ∧ 0 ≤ a.present_index ∧
      t2 = t.withLevel a.present_level lv2 ∧ lv2.refine_flags = lv.refine_flags ∧
      lv2.coarsen_flags = lv.coarsen_flags ∧
      lv2.cell_children dim = lv.cell_children dim ∧
      lv2.cell_used dim = (lv.cell_used dim).set a.present_index.toNat b := by
  cases dim with
  | one =>
    obtain ⟨-, h2⟩ := assert_state_bind_inv hop
    obtain ⟨lv, hlv, h0, -, rfl⟩ := write_inv t _ _ (fun lv => lv.lines.used)
      (fun lv x => { lv with lines := { lv.lines with used := x } }) _ _ h2
    exact ⟨lv, _, hlv, h0, rfl, rfl, rfl, rfl, rfl⟩
  | two =>
    obtain ⟨-, h2⟩ := assert_state_bind_inv hop
    obtain ⟨lv, hlv, h0, -, rfl⟩ := write_inv t _ _ (fun lv => lv.quads.used)
      (fun lv x => { lv with quads := { lv.quads with used := x } }) _ _ h2
    exact ⟨lv, _, hlv, h0, rfl, rfl, rfl, rfl, rfl⟩

/-- What a successful `set_children` of a cell has written. -/
theorem set_children_effect (dim : Dim) (k : Int) (t t2 : Triangulation) (a : TriaAccessor)
    (hop : CellAccessor.set_children dim t a k = .ok t2) :
    ∃ lv lv2, vecGet t.levels a.present_level = .ok lv ∧ 0 ≤ a.present_index ∧
      t2 = t.withLevel a.present_level lv2 ∧ lv2.refine_flags = lv.refine_flags ∧
      lv2.coarsen_flags = lv.coarsen_flags ∧ lv2.cell_used dim = lv.cell_used dim ∧
      lv2.cell_children dim = (lv.cell_children dim).set a.present_index.toNat k := by
  cases dim with
  | one =>
    obtain ⟨-, h2⟩ := assert_bind_inv hop
    obtain ⟨lv, hlv, h0, -, rfl⟩ := write_inv t _ _ (fun lv => lv.lines.children)
      (fun lv x => { lv with lines := { lv.lines with children := x } }) _ _ h2
    exact ⟨lv, _, hlv, h0, rfl, rfl, rfl, rfl, rfl⟩
  | two =>
    obtain ⟨-, h2⟩ := assert_bind_inv hop
    obtain ⟨lv, hlv, h0, -, rfl⟩ := write_inv t _ _ (fun lv => lv.quads.children)
      (fun lv x => { lv with quads := { lv.quads with children := x } }) _ _ h2
    exact ⟨lv, _, hlv, h0, rfl, rfl, rfl, rfl, rfl⟩

theorem getElem?_set_same_val {α : Type} (l : List α) (i j : Nat) (x : α)
    (h : l[i]? = some x) : (l.set j x)[i]? = some x := by
  by_cases hij : j = i
  · subst hij
    have hlt : j < l.length := by
      by_contra hlt
      rw [List.getElem?_eq_none (by omega)] at h
      cases h
    simp [hlt]
  · rw [List.getElem?_set_ne hij]
    exact h

theorem lt_of_getElem?_eq_some {α : Type} {l : List α} {i : Nat} {x : α}
    (h : l[i]? = some x) : i < l.length := by
  by_contra hlt
  rw [List.getElem?_eq_none (by omega)] at h
  cases h

/-- A level rewritten so that every flagged slot is used and childless keeps
`FlagsImplyUsedActive`. -/
theorem flagsInv_withLevel {dim : Dim} {t : Triangulation} {l : Int}
    {lv lv2 : TriangulationLevel} (h : FlagsImplyUsedActive dim t)
    (hlv : vecGet t.levels l = .ok lv)
    (hR : ∀ i : Nat, lv2.refine_flags[i]? = some true →
      (lv.refine_flags[i]? = some true ∨ lv.coarsen_flags[i]? = some true) ∨
        ((lv2.cell_used dim)[i]? = some true ∧ (lv2.cell_children dim)[i]? = some (-1)))
    (hC : ∀ i : Nat, lv2.coarsen_flags[i]? = some true →
      (lv.refine_flags[i]? = some true ∨ lv.coarsen_flags[i]? = some true) ∨
        ((lv2.cell_used dim)[i]? = some true ∧ (lv2.cell_children dim)[i]? = some (-1)))
    (hU : ∀ i : Nat, (lv.refine_flags[i]? = some true ∨ lv.coarsen_flags[i]? = some true) →
      (lv.cell_used dim)[i]? = some true → (lv2.cell_used dim)[i]? = some true)
    (hCh : ∀ i : Nat, (lv.refine_flags[i]? = some true ∨ lv.coarsen_flags[i]? = some true) →
      (lv.cell_children dim)[i]? = some (-1) → (lv2.cell_children dim)[i]? = some (-1)) :
    FlagsImplyUsedActive dim (t.withLevel l lv2) := by
  have hold : ∀ i : Nat, (lv.refine_flags[i]? = some true ∨ lv.coarsen_flags[i]? = some true) →
      (lv.cell_used dim)[i]? = some true ∧ (lv.cell_children dim)[i]? = some (-1) := by
    intro i hf
    rcases hf with hf | hf
    · exact (h lv (mem_of_vecGet hlv)).1 i (lt_of_getElem?_eq_some hf) hf
    · exact (h lv (mem_of_vecGet hlv)).2 i (lt_of_getElem?_eq_some hf) hf
  have hnew : ∀ i : Nat, (lv.refine_flags[i]? = some true ∨ lv.coarsen_flags[i]? = some true) ∨
      ((lv2.cell_used dim)[i]? = some true ∧ (lv2.cell_children dim)[i]? = some (-1)) →
      (lv2.cell_used dim)[i]? = some true ∧ (lv2.cell_children dim)[i]? = some (-1) := by
    intro i hf
    rcases hf with hf | hf
    · exact ⟨hU i hf (hold i hf).1, hCh i hf (hold i hf).2⟩
    · exact hf
  intro lv3 hmem
  rcases mem_withLevel hmem with hm | rfl
  · exact h lv3 hm
  · exact ⟨fun i _ hf => hnew i (hR i hf), fun i _ hf => hnew i (hC i hf)⟩

theorem not_flagged_of_stored {t : Triangulation} {a : TriaAccessor}
    {lv : TriangulationLevel} (hlv : vecGet t.levels a.present_level = .ok lv)
    (h0 : 0 ≤ a.present_index)
    (hs : stored_refine_flag t a ≠ .ok true ∧ stored_coarsen_flag t a ≠ .ok true) (i : Nat)
    (hf : lv.refine_flags[i]? = some true ∨ lv.coarsen_flags[i]? = some true) :
    a.present_index.toNat ≠ i := by
  intro hi
  subst hi
  rcases hf with hf | hf
  · apply hs.1
    simp only [stored_refine_flag, hlv, bind_ok]
    exact (vecGet_eq_ok_iff _ _ _).2 ⟨h0, hf⟩
  · apply hs.2
    simp only [stored_coarsen_flag, hlv, bind_ok]
    exact (vecGet_eq_ok_iff _ _ _).2 ⟨h0, hf⟩

/-- C8, as the claim states it, fails: on a used, active quad cell with its
refine flag set, `clear_used_flag` succeeds and leaves a flagged unused slot,
and `set_children (0)` succeeds and leaves a flagged slot with children. -/
theorem C8_counterexample :
    FlagsImplyUsedActive .two oneQuadRefine ∧
      CellOp.apply .two .clear_used_flag oneQuadRefine firstSlot = .ok oneQuadRefineUnused ∧
      ¬ FlagsImplyUsedActive .two oneQuadRefineUnused ∧
      CellOp.apply .two (.set_children 0) oneQuadRefine firstSlot =
        .ok oneQuadRefineChildren ∧
      ¬ FlagsImplyUsedActive .two oneQuadRefineChildren :=
  ⟨by decide, by decide, by decide, by decide, by decide⟩

/-- C8 (amended): the invariant that a set refine or coarsen flag implies a used
slot without children is preserved by every successful call of `set_used_flag`,
`clear_children`, `set_children (-1)`, `set_neighbor`, `set_refine_flag`,
`clear_refine_flag`, `set_coarsen_flag`, `clear_coarsen_flag`,
`set_material_id`, `set_user_flag` and `set_user_pointer` on a cell, and by a
successful `clear_used_flag` or `set_children (k)`, `k ≠ -1`, on a cell that
has neither flag set. -/
theorem C8_flag_invariant_preserved (dim : Dim) (op : CellOp) (t t2 : Triangulation)
    (a : TriaAccessor) (hinv : FlagsImplyUsedActive dim t)
    (hop : op.apply dim t a = .ok t2)
    (hsafe : (op = .clear_used_flag ∨ ∃ k, k ≠ -1 ∧ op = .set_children k) →
      stored_refine_flag t a ≠ .ok true ∧ stored_coarsen_flag t a ≠ .ok true) :
    FlagsImplyUsedActive dim t2 := by
  have same : ∀ lv lv2, vecGet t.levels a.present_level = .ok lv →
      t2 = t.withLevel a.present_level lv2 → SameCellArrays dim lv lv2 →
      FlagsImplyUsedActive dim t2 := by
    intro lv lv2 hlv ht2 hs
    subst ht2
    refine flagsInv_withLevel hinv hlv ?_ ?_ ?_ ?_
    · intro i hf; rw [hs.hrf] at hf; exact Or.inl (Or.inl hf)
    · intro i hf; rw [hs.hcf] at hf; exact Or.inl (Or.inr hf)
    · intro i _ hu; rw [hs.hu]; exact hu
    · intro i _ hc; rw [hs.hc]; exact hc
  cases op with
  | set_neighbor i h =>
    obtain ⟨lv, lv2, hlv, ht2, hs⟩ :=
      untouched_effect dim _ t t2 a hop (Or.inl ⟨i, h, rfl⟩)
    exact same lv lv2 hlv ht2 hs
  | set_material_id m =>
    obtain ⟨lv, lv2, hlv, ht2, hs⟩ :=
      untouched_effect dim _ t t2 a hop (Or.inr (Or.inl ⟨m, rfl⟩))
    exact same lv lv2 hlv ht2 hs
  | set_user_flag =>
    obtain ⟨lv, lv2, hlv, ht2, hs⟩ :=
      untouched_effect dim _ t t2 a hop (Or.inr (Or.inr (Or.inl rfl)))
    exact same lv lv2 hlv ht2 hs
  | set_user_pointer p =>
    obtain ⟨lv, lv2, hlv, ht2, hs⟩ :=
      untouched_effect dim _ t t2 a hop (Or.inr (Or.inr (Or.inr ⟨p, rfl⟩)))
    exact same lv lv2 hlv ht2 hs
  | set_used_flag =>
    obtain ⟨lv, lv2, hlv, h0, rfl, hrf, hcf, hc, hu⟩ :=
      write_used_flag_effect dim true t t2 a (by cases dim <;> exact hop)
    refine flagsInv_withLevel hinv hlv ?_ ?_ ?_ ?_
    · intro i hf; rw [hrf] at hf; exact Or.inl (Or.inl hf)
    · intro i hf; rw [hcf] at hf; exact Or.inl (Or.inr hf)
    · intro i _ h; rw [hu]; exact getElem?_set_same_val _ _ _ _ h
    · intro i _ h; rw [hc]; exact h
  | clear_used_flag =>
    obtain ⟨lv, lv2, hlv, h0, rfl, hrf, hcf, hc, hu⟩ :=
      write_used_flag_effect dim false t t2 a (by cases dim <;> exact hop)
    refine flagsInv_withLevel hinv hlv ?_ ?_ ?_ ?_
    · intro i hf; rw [hrf] at hf; exact Or.inl (Or.inl hf)
    · intro i hf; rw [hcf] at hf; exact Or.inl (Or.inr hf)
    · intro i hf h
      rw [hu, List.getElem?_set_ne (not_flagged_of_stored hlv h0 (hsafe (Or.inl rfl)) i hf)]
      exact h
    · intro i _ h; rw [hc]; exact h
  | set_children k =>
    obtain ⟨lv, lv2, hlv, h0, rfl, hrf, hcf, hu, hc⟩ := set_children_effect dim k t t2 a hop
    refine flagsInv_withLevel hinv hlv ?_ ?_ ?_ ?_
    · intro i hf; rw [hrf] at hf; exact Or.inl (Or.inl hf)
    · intro i hf; rw [hcf] at hf; exact Or.inl (Or.inr hf)
    · intro i _ h; rw [hu]; exact h
    · intro i hf h
      rw [hc]
      by_cases hk : k = -1
      · subst hk
        exact getElem?_set_same_val _ _ _ _ h
      · rw [List.getElem?_set_ne
          (not_flagged_of_stored hlv h0 (hsafe (Or.inr ⟨k, hk, rfl⟩)) i hf)]
        exact h
  | clear_children =>
    obtain ⟨lv, lv2, hlv, h0, rfl, hrf, hcf, hu, hc⟩ :=
      set_children_effect dim (-1) t t2 a (by cases dim <;> exact hop)
    refine flagsInv_withLevel hinv hlv ?_ ?_ ?_ ?_
    · intro i hf; rw [hrf] at hf; exact Or.inl (Or.inl hf)
    · intro i hf; rw [hcf] at hf; exact Or.inl (Or.inr hf)
    · intro i _ h; rw [hu]; exact h
    · intro i _ h; rw [hc]; exact getElem?_set_same_val _ _ _ _ h
  | set_refine_flag =>
    obtain ⟨lv, hlv, h0, hlt, hu, hc, -, rfl⟩ := set_refine_flag_effect hop
    refine flagsInv_withLevel hinv hlv ?_ ?_ ?_ ?_
    · intro i hf
      by_cases hi : a.present_index.toNat = i
      · subst hi
        right
        cases dim <;> exact ⟨getElem?_of_vecGet hu, getElem?_of_vecGet hc⟩
      · left; left
        simpa [List.getElem?_set_ne hi] using hf
    · intro i hf; exact Or.inl (Or.inr hf)
    · intro i _ h; cases dim <;> exact h
    · intro i _ h; cases dim <;> exact h
  | set_coarsen_flag =>
    obtain ⟨lv, hlv, h0, hlt, hu, hc, -, rfl⟩ := set_coarsen_flag_effect hop
    refine flagsInv_withLevel hinv hlv ?_ ?_ ?_ ?_
    · intro i hf; exact Or.inl (Or.inl hf)
    · intro i hf
      by_cases hi : a.present_index.toNat = i
      · subst hi
        right
        cases dim <;> exact ⟨getElem?_of_vecGet hu, getElem?_of_vecGet hc⟩
      · left; right
        simpa [List.getElem?_set_ne hi] using hf
    · intro i _ h; cases dim <;> exact h
    · intro i _ h; cases dim <;> exact h
  | clear_refine_flag =>
    obtain ⟨lv, hlv, h0, hlt, rfl⟩ := clear_refine_flag_effect hop
    refine flagsInv_withLevel hinv hlv ?_ ?_ ?_ ?_
    · intro i hf
      by_cases hi : a.present_index.toNat = i
      · subst hi
        simp [hlt] at hf
      · left; left
        simpa [List.getElem?_set_ne hi] using hf
    · intro i hf; exact Or.inl (Or.inr hf)
    · intro i _ h; cases dim <;> exact h
    · intro i _ h; cases dim <;> exact h
  | clear_coarsen_flag =>
    obtain ⟨lv, hlv, h0, hlt, rfl⟩ := clear_coarsen_flag_effect hop
    refine flagsInv_withLevel hinv hlv ?_ ?_ ?_ ?_
    · intro i hf; exact Or.inl (Or.inl hf)
    · intro i hf
      by_cases hi : a.present_index.toNat = i
      · subst hi
        simp [hlt] at hf
      · left; right
        simpa [List.getElem?_set_ne hi] using hf
    · intro i _ h; cases dim <;> exact h
    · intro i _ h; cases dim <;> exact h

/-- Witness of C8 (amended): `set_refine_flag` on the single used, active,
unflagged quad cell, and `clear_used_flag` on the same unflagged cell. -/
theorem C8_flag_invariant_preserved_witness :
    FlagsImplyUsedActive .two oneQuadRefine ∧
      FlagsImplyUsedActive .two oneQuadUnused :=
  ⟨C8_flag_invariant_preserved .two .set_refine_flag oneQuad oneQuadRefine firstSlot
      (by decide) (by decide) (fun h => by
        rcases h with h | ⟨k, -, h⟩ <;> cases h),
    C8_flag_invariant_preserved .two .clear_used_flag oneQuad oneQuadUnused firstSlot
      (by decide) (by decide) (fun _ => by decide)⟩

/-! ## Boundary faces of a cell -/

theorem cell_in_range_neighbors (dim : Dim) (t : Triangulation) (a : TriaAccessor)
    (h : CellAccessor.in_range dim t a = true) (i : Nat) (hi : i < faces_per_cell dim) :
    ∃ lv n, vecGet t.levels a.present_level = .ok lv ∧
      vecGet lv.neighbors (a.present_index * faces_per_cell dim + i) = .ok n := by
  obtain ⟨lv, u, c, rf, cf, hr⟩ := cell_in_range_reads dim t a h
  unfold CellAccessor.in_range at h
  rw [Bool.and_eq_true, hr.hlv] at h
  obtain ⟨-, h2⟩ := h
  simp only [Bool.and_eq_true, decide_eq_true_eq] at h2
  obtain ⟨-, hn⟩ := h2
  have h0 := hr.hi
  refine ⟨lv, _, hr.hlv, vecGet_ok_of_lt _ _ ?_ ?_⟩
  · cases dim <;> simp only [faces_per_cell] at hi ⊢ <;> omega
  · cases dim <;> simp only [faces_per_cell] at hi hn ⊢ <;> omega

theorem neighbor_index_eval {dim : Dim} {t : Triangulation} {a : TriaAccessor}
    {lv : TriangulationLevel} {n : Int × Int} {i : Nat} (hi : i < faces_per_cell dim)
    (hlv : vecGet t.levels a.present_level = .ok lv)
    (hn : vecGet lv.neighbors (a.present_index * faces_per_cell dim + i) = .ok n) :
    CellAccessor.neighbor_index dim t a i = .ok n.2 ∧
      CellAccessor.neighbor_level dim t a i = .ok n.1 := by
  simp only [CellAccessor.neighbor_index, CellAccessor.neighbor_level, hi, decide_True,
    Assert_true, bind_ok, hlv, hn, pure_eq_ok, and_self]

theorem at_boundary_eval {dim : Dim} {t : Triangulation} {a : TriaAccessor} {i : Nat}
    (hu : CellAccessor.used dim t a = .ok true) (hi : i < faces_per_cell dim) :
    CellAccessor.at_boundary dim t a i =
      (CellAccessor.neighbor_index dim t a i >>= fun n => .ok (n == -1)) := by
  simp only [CellAccessor.at_boundary, hu, bind_ok, Assert_true, hi, decide_True]
  rfl

/-- C9: for a used cell and a face number `i < faces_per_cell` (2 in 1D, 4 in
2D), `at_boundary (i)` returns true if and only if `neighbor_index (i)` is
`-1`; it fails when the cell is unused and when `i ≥ faces_per_cell`.  For a
used cell whose neighbor table holds `(-1, -1)` for all four faces and whose
children offset is `-1`, `at_boundary (i)` is true for `i = 0..3`, `active` is
true and `has_children` is false. -/
theorem C9_at_boundary_face (dim : Dim) (t : Triangulation) (a : TriaAccessor) (i : Nat) :
    (CellAccessor.in_range dim t a = true → CellAccessor.used dim t a = .ok true →
      i < faces_per_cell dim →
      ∃ n, CellAccessor.neighbor_index dim t a i = .ok n ∧
        CellAccessor.at_boundary dim t a i = .ok (n == -1)) ∧
    (CellAccessor.used dim t a = .ok true → i < faces_per_cell dim →
      (CellAccessor.at_boundary dim t a i = .ok true ↔
        CellAccessor.neighbor_index dim t a i = .ok (-1))) ∧
    (CellAccessor.used dim t a = .ok false →
      CellAccessor.at_boundary dim t a i = .error .ExcCellNotUsed) ∧
    (faces_per_cell dim ≤ i → ∃ e, CellAccessor.at_boundary dim t a i = .error e) ∧
    (CellAccessor.used dim t a = .ok true → faces_per_cell dim ≤ i →
      CellAccessor.at_boundary dim t a i =
        .error (.ExcInvalidIndex i 0 (faces_per_cell dim - 1))) ∧
    (∀ lv, CellAccessor.used .two t a = .ok true →
      vecGet t.levels a.present_level = .ok lv →
      vecGet (lv.cell_children .two) a.present_index = .ok (-1) →
      (∀ j : Nat, j < 4 → vecGet lv.neighbors (a.present_index * 4 + j) = .ok (-1, -1)) →
      (∀ j : Nat, j < 4 → CellAccessor.at_boundary .two t a j = .ok true) ∧
        CellAccessor.active .two t a = .ok true ∧
        CellAccessor.has_children .two t a = .ok false) := by
  have hbad : ∀ u, CellAccessor.used dim t a = .ok u → faces_per_cell dim ≤ i →
      CellAccessor.at_boundary dim t a i =
        if u then .error (.ExcInvalidIndex i 0 (faces_per_cell dim - 1))
        else .error .ExcCellNotUsed := by
    intro u hu hi
    have hi2 : ¬ (i < faces_per_cell dim) := by omega
    cases u <;> simp [CellAccessor.at_boundary, hu, hi2]
  refine ⟨?_, ?_, ?_, ?_, ?_, ?_⟩
  · intro hr hu hi
    obtain ⟨lv, n, hlv, hn⟩ := cell_in_range_neighbors dim t a hr i hi
    have h1 := (neighbor_index_eval hi hlv hn).1
    exact ⟨n.2, h1, by rw [at_boundary_eval hu hi, h1, bind_ok]⟩
  · intro hu hi
    rw [at_boundary_eval hu hi]
    cases h : CellAccessor.neighbor_index dim t a i with
    | error e => simp
    | ok n =>
      simp only [bind_ok, Except.ok.injEq, beq_iff_eq]
  · intro hu
    simp [CellAccessor.at_boundary, hu]
  · intro hi
    cases hU : CellAccessor.used dim t a with
    | error e => exact ⟨e, by simp [CellAccessor.at_boundary, hU]⟩
    | ok u =>
      cases u with
      | true => exact ⟨_, by simpa using hbad true hU hi⟩
      | false => exact ⟨_, by simpa using hbad false hU hi⟩
  · intro hu hi
    simpa using hbad true hu hi
  · intro lv hu hlv hc hn
    have h0 : 0 ≤ a.present_index := vecGet_nonneg hc
    refine ⟨?_, ?_, ?_⟩
    · intro j hj
      have hj2 : j < faces_per_cell .two := hj
      rw [at_boundary_eval hu hj2, (neighbor_index_eval hj2 hlv (hn j hj)).1]
      rfl
    · rw [cell_active_eval hlv h0 hc]
      rfl
    · rw [cell_has_children_eval hlv h0, hc]
      rfl

/-- Witness of C9: the single used quad cell whose four faces lie on the
boundary, and the single line cell asked for a face that does not exist. -/
theorem C9_at_boundary_face_witness :
    ((∀ j : Nat, j < 4 → CellAccessor.at_boundary .two oneQuad firstSlot j = .ok true) ∧
        CellAccessor.active .two oneQuad firstSlot = .ok true ∧
        CellAccessor.has_children .two oneQuad firstSlot = .ok false) ∧
      CellAccessor.at_boundary .one oneLine firstSlot 2 = .error (.ExcInvalidIndex 2 0 1) ∧
      (∃ n, CellAccessor.neighbor_index .one oneLine firstSlot 1 = .ok n ∧
        CellAccessor.at_boundary .one oneLine firstSlot 1 = .ok (n == -1)) :=
  ⟨(C9_at_boundary_face .two oneQuad firstSlot 0).2.2.2.2.2
      (sampleQuadLevel [true] [-1] [false] [false]) (by decide) (by decide) (by decide)
      (fun j hj => by
        have h : j = 0 ∨ j = 1 ∨ j = 2 ∨ j = 3 := by omega
        rcases h with rfl | rfl | rfl | rfl <;> decide),
    (C9_at_boundary_face .one oneLine firstSlot 2).2.2.2.2.1 (by decide) (by decide),
    (C9_at_boundary_face .one oneLine firstSlot 1).1 (by decide) (by decide) (by decide)⟩

theorem at_boundary_face_reads (dim : Dim) (t : Triangulation) (a : TriaAccessor)
    (hr : CellAccessor.in_range dim t a = true)
    (hu : CellAccessor.used dim t a = .ok true) (i : Nat) (hi : i < faces_per_cell dim) :
    ∃ n, CellAccessor.neighbor_index dim t a i = .ok n ∧
      CellAccessor.at_boundary dim t a i = .ok (n == -1) := by
  obtain ⟨lv, n, hlv, hn⟩ := cell_in_range_neighbors dim t a hr i hi
  have h1 := (neighbor_index_eval hi hlv hn).1
  exact ⟨n.2, h1, by rw [at_boundary_eval hu hi, h1, bind_ok]⟩

theorem orElse_ok (x y : Bool) :
    orElse (.ok x) (.ok y) = .ok (x || y) := by
  cases x <;> rfl

/-- C10: for a used cell, `at_boundary ()` without argument returns a value,
and it is true if and only if `at_boundary (i)` is true for some face
`i < faces_per_cell` (faces 0, 1 in 1D and 0..3 in 2D); it is false exactly
when every face has a neighbor index different from `-1`. -/
theorem C10_at_boundary_any_face (dim : Dim) (t : Triangulation) (a : TriaAccessor)
    (hr : CellAccessor.in_range dim t a = true)
    (hu : CellAccessor.used dim t a = .ok true) :
    ∃ b, CellAccessor.at_boundary_cell dim t a = .ok b ∧
      (b = true ↔
        ∃ i, i < faces_per_cell dim ∧ CellAccessor.at_boundary dim t a i = .ok true) ∧
      (b = false ↔
        ∀ i, i < faces_per_cell dim →
          ∃ n, CellAccessor.neighbor_index dim t a i = .ok n ∧ n ≠ -1) := by
  have hf := at_boundary_face_reads dim t a hr hu
  cases dim with
  | one =>
    obtain ⟨n0, h0, e0⟩ := hf 0 (by decide)
    obtain ⟨n1, h1, e1⟩ := hf 1 (by decide)
    have hcases : ∀ i, i < faces_per_cell .one → i = 0 ∨ i = 1 := by
      intro i hi
      simp only [faces_per_cell] at hi
      omega
    refine ⟨(n0 == -1) || (n1 == -1), ?_, ?_, ?_⟩
    · simp only [CellAccessor.at_boundary_cell, e0, e1, orElse_ok]
    · constructor
      · intro hb
        rw [Bool.or_eq_true] at hb
        rcases hb with hb | hb
        · exact ⟨0, by decide, by rw [e0, hb]⟩
        · exact ⟨1, by decide, by rw [e1, hb]⟩
      · rintro ⟨i, hi, hfi⟩
        rcases hcases i hi with rfl | rfl
        · rw [e0] at hfi; simp [Except.ok.inj hfi]
        · rw [e1] at hfi; simp [Except.ok.inj hfi]
    · constructor
      · intro hb i hi
        rw [Bool.or_eq_false_iff] at hb
        rcases hcases i hi with rfl | rfl
        · exact ⟨n0, h0, by simpa using hb.1⟩
        · exact ⟨n1, h1, by simpa using hb.2⟩
      · intro hall
        obtain ⟨m0, hm0, hne0⟩ := hall 0 (by decide)
        obtain ⟨m1, hm1, hne1⟩ := hall 1 (by decide)
        rw [h0] at hm0; rw [h1] at hm1
        cases hm0; cases hm1
        simp [hne0, hne1]
  | two =>
    obtain ⟨n0, h0, e0⟩ := hf 0 (by decide)
    obtain ⟨n1, h1, e1⟩ := hf 1 (by decide)
    obtain ⟨n2, h2, e2⟩ := hf 2 (by decide)
    obtain ⟨n3, h3, e3⟩ := hf 3 (by decide)
    have hcases : ∀ i, i < faces_per_cell .two → i = 0 ∨ i = 1 ∨ i = 2 ∨ i = 3 := by
      intro i hi
      simp only [faces_per_cell] at hi
      omega
    refine ⟨(((n0 == -1) || (n1 == -1)) || (n2 == -1)) || (n3 == -1), ?_, ?_, ?_⟩
    · simp only [CellAccessor.at_boundary_cell, e0, e1, e2, e3, orElse_ok]
    · constructor
      · intro hb
        simp only [Bool.or_eq_true] at hb
        rcases hb with ((hb | hb) | hb) | hb
        · exact ⟨0, by decide, by rw [e0, hb]⟩
        · exact ⟨1, by decide, by rw [e1, hb]⟩
        · exact ⟨2, by decide, by rw [e2, hb]⟩
        · exact ⟨3, by decide, by rw [e3, hb]⟩
      · rintro ⟨i, hi, hfi⟩
        rcases hcases i hi with rfl | rfl | rfl | rfl
        · rw [e0] at hfi; simp [Except.ok.inj hfi]
        · rw [e1] at hfi; simp [Except.ok.inj hfi]
        · rw [e2] at hfi; simp [Except.ok.inj hfi]
        · rw [e3] at hfi; simp [Except.ok.inj hfi]
    · constructor
      · intro hb i hi
        simp only [Bool.or_eq_false_iff] at hb
        rcases hcases i hi with rfl | rfl | rfl | rfl
        · exact ⟨n0, h0, by simpa using hb.1.1.1⟩
        · exact ⟨n1, h1, by simpa using hb.1.1.2⟩
        · exact ⟨n2, h2, by simpa using hb.1.2⟩
        · exact ⟨n3, h3, by simpa using hb.2⟩
      · intro hall
        obtain ⟨m0, hm0, hne0⟩ := hall 0 (by decide)
        obtain ⟨m1, hm1, hne1⟩ := hall 1 (by decide)
        obtain ⟨m2, hm2, hne2⟩ := hall 2 (by decide)
        obtain ⟨m3, hm3, hne3⟩ := hall 3 (by decide)
        rw [h0] at hm0; rw [h1] at hm1; rw [h2] at hm2; rw [h3] at hm3
        cases hm0; cases hm1; cases hm2; cases hm3
        simp [hne0, hne1, hne2, hne3]

/-- Witness of C10: the single quad cell with all faces on the boundary, and a
line cell between two neighbors. -/
theorem C10_at_boundary_any_face_witness :
    (∃ b, CellAccessor.at_boundary_cell .two oneQuad firstSlot = .ok b ∧
      (b = true ↔ ∃ i, i < faces_per_cell .two ∧
        CellAccessor.at_boundary .two oneQuad firstSlot i = .ok true) ∧
      (b = false ↔ ∀ i, i < faces_per_cell .two →
        ∃ n, CellAccessor.neighbor_index .two oneQuad firstSlot i = .ok n ∧ n ≠ -1)) ∧
      CellAccessor.at_boundary_cell .two oneQuad firstSlot = .ok true ∧
      CellAccessor.at_boundary_cell .one innerLine ⟨0, 0, 1⟩ = .ok false :=
  ⟨C10_at_boundary_any_face .two oneQuad firstSlot (by decide) (by decide), by decide,
    by decide⟩

/-! ## Boundary indicator -/

theorem line_used_of_in_range (t : Triangulation) (a : TriaAccessor)
    (h : LineAccessor.in_range t a = true) :
    ∃ lv u, vecGet t.levels a.present_level = .ok lv ∧ 0 ≤ a.present_index ∧
      vecGet lv.lines.used a.present_index = .ok u ∧ LineAccessor.used t a = .ok u := by
  obtain ⟨lv, hlv, h0, -, -, hus, -⟩ := (line_in_range_iff t a).1 h
  have hs := state_valid a (vecGet_nonneg hlv) h0
  have hu := vecGet_ok_of_lt lv.lines.used _ h0 hus
  exact ⟨lv, _, hlv, h0, hu, by simp [LineAccessor.used, hs, hlv, hu]⟩

theorem quad_used_of_in_range (t : Triangulation) (a : TriaAccessor)
    (h : QuadAccessor.in_range t a = true) :
    ∃ lv u, vecGet t.levels a.present_level = .ok lv ∧ 0 ≤ a.present_index ∧
      vecGet lv.quads.used a.present_index = .ok u ∧ QuadAccessor.used t a = .ok u := by
  obtain ⟨lv, hlv, h0, -, -, hus, -⟩ := (quad_in_range_iff t a).1 h
  have hs := state_valid a (vecGet_nonneg hlv) h0
  have hu := vecGet_ok_of_lt lv.quads.used _ h0 hus
  exact ⟨lv, _, hlv, h0, hu, by simp [QuadAccessor.used, hs, hlv, hu]⟩

theorem line_boundary_indicator_of_in_range (dim : Nat) (t : Triangulation)
    (a : TriaAccessor) (hd : 2 ≤ dim) (h : LineAccessor.in_range t a = true)
    (hu : LineAccessor.used t a = .ok true) :
    ∃ lv b, vecGet t.levels a.present_level = .ok lv ∧
      vecGet lv.lines.material_id a.present_index = .ok b ∧
      LineAccessor.boundary_indicator dim t a = .ok b := by
  obtain ⟨lv, hlv, h0, -, -, -, -, hm, -⟩ := (line_in_range_iff t a).1 h
  have hb := vecGet_ok_of_lt lv.lines.material_id _ h0 hm
  have hd2 : dim ≥ 2 := hd
  exact ⟨lv, _, hlv, hb, by simp [LineAccessor.boundary_indicator, hd2, hu, hlv, hb]⟩

theorem quad_boundary_indicator_of_in_range (dim : Nat) (t : Triangulation)
    (a : TriaAccessor) (hd : 3 ≤ dim) (h : QuadAccessor.in_range t a = true)
    (hu : QuadAccessor.used t a = .ok true) :
    ∃ lv b, vecGet t.levels a.present_level = .ok lv ∧
      vecGet lv.quads.material_id a.present_index = .ok b ∧
      QuadAccessor.boundary_indicator dim t a = .ok b := by
  obtain ⟨lv, hlv, h0, -, -, -, -, hm, -⟩ := (quad_in_range_iff t a).1 h
  have hb := vecGet_ok_of_lt lv.quads.material_id _ h0 hm
  have hd2 : dim ≥ 3 := hd
  exact ⟨lv, _, hlv, hb, by simp [QuadAccessor.boundary_indicator, hd2, hu, hlv, hb]⟩

/-- C11: `at_boundary ()` of a line and of a quad is the truth value of
`boundary_indicator () != 255`, and it fails exactly when, and as,
`boundary_indicator ()` fails: below the dimension threshold (a line with
`dim < 2`, a quad with `dim < 3`) and on an unused entity.  On a used entity
addressed by an in-range handle, from the threshold on, both return. -/
theorem C11_at_boundary_is_indicator_ne_255 (dim : Nat) (t : Triangulation)
    (a : TriaAccessor) :
    ((∀ b, LineAccessor.boundary_indicator dim t a = .ok b →
        LineAccessor.at_boundary dim t a = .ok (b != 255)) ∧
      (∀ e, LineAccessor.at_boundary dim t a = .error e ↔
        LineAccessor.boundary_indicator dim t a = .error e) ∧
      (dim < 2 →
        LineAccessor.boundary_indicator dim t a = .error .ExcNotUsefulForThisDimension) ∧
      (2 ≤ dim → LineAccessor.used t a = .ok false →
        LineAccessor.boundary_indicator dim t a = .error .ExcCellNotUsed) ∧
      (2 ≤ dim → LineAccessor.in_range t a = true → LineAccessor.used t a = .ok true →
        ∃ b, LineAccessor.boundary_indicator dim t a = .ok b ∧
          LineAccessor.at_boundary dim t a = .ok (b != 255))) ∧
    ((∀ b, QuadAccessor.boundary_indicator dim t a = .ok b →
        QuadAccessor.at_boundary dim t a = .ok (b != 255)) ∧
      (∀ e, QuadAccessor.at_boundary dim t a = .error e ↔
        QuadAccessor.boundary_indicator dim t a = .error e) ∧
      (dim < 3 →
        QuadAccessor.boundary_indicator dim t a = .error .ExcNotUsefulForThisDimension) ∧
      (3 ≤ dim → QuadAccessor.used t a = .ok false →
        QuadAccessor.boundary_indicator dim t a = .error .ExcCellNotUsed) ∧
      (3 ≤ dim → QuadAccessor.in_range t a = true → QuadAccessor.used t a = .ok true →
        ∃ b, QuadAccessor.boundary_indicator dim t a = .ok b ∧
          QuadAccessor.at_boundary dim t a = .ok (b != 255))) := by
  refine ⟨⟨?_, ?_, ?_, ?_, ?_⟩, ⟨?_, ?_, ?_, ?_, ?_⟩⟩
  · intro b hb
    simp only [LineAccessor.at_boundary, hb, bind_ok, pure_eq_ok]
  · intro e
    unfold LineAccessor.at_boundary
    cases LineAccessor.boundary_indicator dim t a <;> simp
  · intro hd
    have hd2 : ¬ (dim ≥ 2) := by omega
    simp [LineAccessor.boundary_indicator, hd2]
  · intro hd hu
    have hd2 : dim ≥ 2 := hd
    simp [LineAccessor.boundary_indicator, hd2, hu]
  · intro hd hr hu
    obtain ⟨lv, b, -, -, hb⟩ := line_boundary_indicator_of_in_range dim t a hd hr hu
    exact ⟨b, hb, by simp only [LineAccessor.at_boundary, hb, bind_ok, pure_eq_ok]⟩
  · intro b hb
    simp only [QuadAccessor.at_boundary, hb, bind_ok, pure_eq_ok]
  · intro e
    unfold QuadAccessor.at_boundary
    cases QuadAccessor.boundary_indicator dim t a <;> simp
  · intro hd
    have hd2 : ¬ (dim ≥ 3) := by omega
    simp [QuadAccessor.boundary_indicator, hd2]
  · intro hd hu
    have hd2 : dim ≥ 3 := hd
    simp [QuadAccessor.boundary_indicator, hd2, hu]
  · intro hd hr hu
    obtain ⟨lv, b, -, -, hb⟩ := quad_boundary_indicator_of_in_range dim t a hd hr hu
    exact ⟨b, hb, by simp only [QuadAccessor.at_boundary, hb, bind_ok, pure_eq_ok]⟩

/-- Witness of C11: a line of a 2D triangulation with boundary indicator 0, a
quad in 3D with boundary indicator 255, and a line in 1D. -/
theorem C11_at_boundary_is_indicator_ne_255_witness :
    LineAccessor.at_boundary 2 oneLine firstSlot = .ok true ∧
      QuadAccessor.at_boundary 3 interiorQuad firstSlot = .ok false ∧
      LineAccessor.boundary_indicator 1 oneLine firstSlot =
        .error .ExcNotUsefulForThisDimension :=
  ⟨(C11_at_boundary_is_indicator_ne_255 2 oneLine firstSlot).1.1 0 (by decide),
    (C11_at_boundary_is_indicator_ne_255 3 interiorQuad firstSlot).2.1 255 (by decide),
    (C11_at_boundary_is_indicator_ne_255 1 oneLine firstSlot).1.2.2.1 (by decide)⟩

/-- C12, as the claim states it, fails: a used line in 2D with boundary
indicator 255 has `at_boundary ()` false, and one with boundary indicator 0 has
`at_boundary ()` true; the same for a used quad in 3D. -/
theorem C12_counterexample :
    LineAccessor.boundary_indicator 2 interiorLine firstSlot = .ok 255 ∧
      LineAccessor.at_boundary 2 interiorLine firstSlot = .ok false ∧
      LineAccessor.boundary_indicator 2 oneLine firstSlot = .ok 0 ∧
      LineAccessor.at_boundary 2 oneLine firstSlot = .ok true ∧
      QuadAccessor.boundary_indicator 3 interiorQuad firstSlot = .ok 255 ∧
      QuadAccessor.at_boundary 3 interiorQuad firstSlot = .ok false ∧
      QuadAccessor.boundary_indicator 3 oneQuad firstSlot = .ok 0 ∧
      QuadAccessor.at_boundary 3 oneQuad firstSlot = .ok true :=
  ⟨by decide, by decide, by decide, by decide, by decide, by decide, by decide, by decide⟩

/-- C12 (amended): for a used line in `dim ≥ 2` and a used quad in `dim ≥ 3`,
addressed by an in-range handle, `boundary_indicator ()` and `at_boundary ()`
return, and the boundary indicator is 255 if and only if `at_boundary ()` is
false. -/
theorem C12_indicator_255_iff_not_at_boundary (dim : Nat) (t : Triangulation)
    (a : TriaAccessor) :
    (2 ≤ dim → LineAccessor.in_range t a = true → LineAccessor.used t a = .ok true →
      ∃ b r, LineAccessor.boundary_indicator dim t a = .ok b ∧
        LineAccessor.at_boundary dim t a = .ok r ∧ (b = 255 ↔ r = false)) ∧
    (3 ≤ dim → QuadAccessor.in_range t a = true → QuadAccessor.used t a = .ok true →
      ∃ b r, QuadAccessor.boundary_indicator dim t a = .ok b ∧
        QuadAccessor.at_boundary dim t a = .ok r ∧ (b = 255 ↔ r = false)) := by
  constructor
  · intro hd hr hu
    obtain ⟨lv, b, -, -, hb⟩ := line_boundary_indicator_of_in_range dim t a hd hr hu
    refine ⟨b, b != 255, hb, ?_, ?_⟩
    · simp only [LineAccessor.at_boundary, hb, bind_ok, pure_eq_ok]
    · simp [bne]
  · intro hd hr hu
    obtain ⟨lv, b, -, -, hb⟩ := quad_boundary_indicator_of_in_range dim t a hd hr hu
    refine ⟨b, b != 255, hb, ?_, ?_⟩
    · simp only [QuadAccessor.at_boundary, hb, bind_ok, pure_eq_ok]
    · simp [bne]

/-- Witness of C12 (amended): an interior line in 2D and a boundary quad in
3D. -/
theorem C12_indicator_255_iff_not_at_boundary_witness :
    (∃ b r, LineAccessor.boundary_indicator 2 interiorLine firstSlot = .ok b ∧
        LineAccessor.at_boundary 2 interiorLine firstSlot = .ok r ∧ (b = 255 ↔ r = false)) ∧
      (∃ b r, QuadAccessor.boundary_indicator 3 oneQuad firstSlot = .ok b ∧
        QuadAccessor.at_boundary 3 oneQuad firstSlot = .ok r ∧ (b = 255 ↔ r = false)) :=
  ⟨(C12_indicator_255_iff_not_at_boundary 2 interiorLine firstSlot).1 (by decide)
      (by decide) (by decide),
    (C12_indicator_255_iff_not_at_boundary 3 oneQuad firstSlot).2 (by decide)
      (by decide) (by decide)⟩

/-! ## Neighbor table -/

theorem neighbor_calls_invalid_face (dim : Dim) (t : Triangulation) (a : TriaAccessor)
    (i : Nat) (h : TriaAccessor) (hi : faces_per_cell dim ≤ i) :
    CellAccessor.set_neighbor dim t a i h = .error (.ExcInvalidNeighbor i) ∧
      CellAccessor.neighbor_level dim t a i = .error (.ExcInvalidNeighbor i) ∧
      CellAccessor.neighbor_index dim t a i = .error (.ExcInvalidNeighbor i) := by
  have hi2 : ¬ (i < faces_per_cell dim) := by omega
  simp [CellAccessor.set_neighbor, CellAccessor.neighbor_level, CellAccessor.neighbor_index,
    hi2]

theorem set_neighbor_eval {dim : Dim} {t : Triangulation} {a : TriaAccessor}
    {lv : TriangulationLevel} {n : Int × Int} {i : Nat} (hi : i < faces_per_cell dim)
    (hlv : vecGet t.levels a.present_level = .ok lv)
    (hn : vecGet lv.neighbors (a.present_index * faces_per_cell dim + i) = .ok n)
    (h : TriaAccessor) :
    CellAccessor.set_neighbor dim t a i h =
      .ok (t.withLevel a.present_level
        (lv.withNeighbor (a.present_index * faces_per_cell dim + i)
          (h.present_level, h.present_index))) := by
  simp only [CellAccessor.set_neighbor, hi, decide_True, Assert_true, bind_ok, hlv,
    vecSet_ok_of_lt _ _ _ (vecGet_nonneg hn) (vecGet_lt hn), setLevel_ok_of_get hlv,
    TriangulationLevel.withNeighbor]

/-- C13: on an in-range cell handle and for a face number
`i < faces_per_cell`, `set_neighbor (i, h)` succeeds for every handle `h`, the
past-the-end handle included, and afterwards `neighbor_level (i)` and
`neighbor_index (i)` of the same cell return `h.level ()` and `h.index ()`;
the three functions fail when `i ≥ faces_per_cell`. -/
theorem C13_set_neighbor_round_trip (dim : Dim) (t : Triangulation) (a : TriaAccessor)
    (i : Nat) (h : TriaAccessor) :
    (CellAccessor.in_range dim t a = true → i < faces_per_cell dim →
      ∃ t2, CellAccessor.set_neighbor dim t a i h = .ok t2 ∧
        CellAccessor.neighbor_level dim t2 a i = .ok h.level ∧
        CellAccessor.neighbor_index dim t2 a i = .ok h.index) ∧
    (faces_per_cell dim ≤ i →
      CellAccessor.set_neighbor dim t a i h = .error (.ExcInvalidNeighbor i) ∧
      CellAccessor.neighbor_level dim t a i = .error (.ExcInvalidNeighbor i) ∧
      CellAccessor.neighbor_index dim t a i = .error (.ExcInvalidNeighbor i)) := by
  refine ⟨?_, neighbor_calls_invalid_face dim t a i h⟩
  intro hr hi
  obtain ⟨lv, n, hlv, hn⟩ := cell_in_range_neighbors dim t a hr i hi
  refine ⟨_, set_neighbor_eval hi hlv hn h, ?_⟩
  have hget := @neighbor_index_eval dim _ a _ (h.present_level, h.present_index) i hi
    (vecGet_withLevel hlv
      (lv.withNeighbor (a.present_index * faces_per_cell dim + i)
        (h.present_level, h.present_index)))
    (vecGet_set_same hn _)
  exact ⟨hget.2, hget.1⟩

/-- Witness of C13: face 3 of the single quad cell set to the neighbor
`(2, 5)`, face 1 of the single line cell set to past-the-end, and face 2 of a
line cell, which has no such face. -/
theorem C13_set_neighbor_round_trip_witness :
    (∃ t2, CellAccessor.set_neighbor .two oneQuad firstSlot 3 ⟨0, 2, 5⟩ = .ok t2 ∧
        CellAccessor.neighbor_level .two t2 firstSlot 3 = .ok 2 ∧
        CellAccessor.neighbor_index .two t2 firstSlot 3 = .ok 5) ∧
      (∃ t2, CellAccessor.set_neighbor .one oneLine firstSlot 1 ⟨0, -1, -1⟩ = .ok t2 ∧
        CellAccessor.neighbor_level .one t2 firstSlot 1 = .ok (-1) ∧
        CellAccessor.neighbor_index .one t2 firstSlot 1 = .ok (-1)) ∧
      CellAccessor.set_neighbor .one oneLine firstSlot 2 firstSlot =
        .error (.ExcInvalidNeighbor 2) :=
  ⟨(C13_set_neighbor_round_trip .two oneQuad firstSlot 3 ⟨0, 2, 5⟩).1 (by decide)
      (by decide),
    (C13_set_neighbor_round_trip .one oneLine firstSlot 1 ⟨0, -1, -1⟩).1 (by decide)
      (by decide),
    ((C13_set_neighbor_round_trip .one oneLine firstSlot 2 firstSlot).2 (by decide)).1⟩

/-! ## Vertices of a quad -/

theorem quad_line_eval {t : Triangulation} {a : TriaAccessor} {lv : TriangulationLevel}
    {q : Quad} {c : Nat} (hlv : vecGet t.levels a.present_level = .ok lv)
    (hq : vecGet lv.quads.quads a.present_index = .ok q) (hc : c < 4) :
    QuadAccessor.line_index t a c = .ok (q.line c) ∧
      QuadAccessor.line t a c = .ok ⟨a.tria, a.present_level, q.line c⟩ := by
  simp only [QuadAccessor.line, QuadAccessor.line_index, hc, decide_True, Assert_true,
    bind_ok, hlv, hq, pure_eq_ok, and_self]

theorem corner_convention_eval (c : Nat) (hc : c < 4) :
    vecGet corner_convention (c : Int) = .ok (if c < 2 then 0 else 1) := by
  have h : c = 0 ∨ c = 1 ∨ c = 2 ∨ c = 3 := by omega
  rcases h with rfl | rfl | rfl | rfl <;> decide

theorem quad_vertex_index_eval {t : Triangulation} {a : TriaAccessor}
    {lv : TriangulationLevel} {q : Quad} {ln : Line} {c : Nat}
    (hlv : vecGet t.levels a.present_level = .ok lv)
    (hq : vecGet lv.quads.quads a.present_index = .ok q) (hc : c < 4)
    (hln : vecGet lv.lines.lines (q.line c) = .ok ln) :
    QuadAccessor.vertex_index t a c = .ok (ln.vertex (if c < 2 then 0 else 1)) := by
  have hconv : (if c < 2 then 0 else 1) < 2 := by split <;> decide
  simp only [QuadAccessor.vertex_index, hc, decide_True, Assert_true, bind_ok,
    corner_convention_eval c hc, (quad_line_eval hlv hq hc).2, LineAccessor.vertex_index,
    hconv, hlv, hln, pure_eq_ok]

/-- C14, as the claim states it, fails: on the unit square, corner 1 is vertex
1, end point 0 of bounding line 1, while end point 0 of bounding line 0 is
vertex 0; and corner 3 is vertex 3, end point 1 of bounding line 3, while end
point 1 of bounding line 1 is vertex 2. -/
theorem C14_counterexample :
    QuadAccessor.vertex_index unitSquare firstSlot 1 = .ok 1 ∧
      (QuadAccessor.line unitSquare firstSlot 0 >>= fun l =>
        LineAccessor.vertex_index unitSquare l 0) = .ok 0 ∧
      QuadAccessor.vertex_index unitSquare firstSlot 3 = .ok 3 ∧
      (QuadAccessor.line unitSquare firstSlot 1 >>= fun l =>
        LineAccessor.vertex_index unitSquare l 1) = .ok 2 :=
  ⟨by decide, by decide, by decide, by decide⟩

/-- C14 (amended): the corner convention of a quad.  For a quad addressed by
an in-range handle whose bounding line `c` is a line of its level,
`vertex_index (c)` is end point `corner_convention[c]` of bounding line `c`:
end point 0 of line 0 for corner 0, end point 0 of line 1 for corner 1, end
point 1 of line 2 for corner 2 and end point 1 of line 3 for corner 3;
`vertex_index (c)` fails for `c ≥ 4`. -/
theorem C14_quad_corner_convention (t : Triangulation) (a : TriaAccessor) (c : Nat) :
    (∀ lv q ln, vecGet t.levels a.present_level = .ok lv →
      vecGet lv.quads.quads a.present_index = .ok q → c < 4 →
      vecGet lv.lines.lines (q.line c) = .ok ln →
      QuadAccessor.vertex_index t a c = .ok (ln.vertex (if c < 2 then 0 else 1)) ∧
      QuadAccessor.vertex_index t a c =
        (QuadAccessor.line t a c >>= fun l =>
          LineAccessor.vertex_index t l (if c < 2 then 0 else 1))) ∧
    (4 ≤ c → QuadAccessor.vertex_index t a c = .error (.ExcInvalidIndex c 0 3)) := by
  constructor
  · intro lv q ln hlv hq hc hln
    have hconv : (if c < 2 then 0 else 1) < 2 := by split <;> decide
    refine ⟨quad_vertex_index_eval hlv hq hc hln, ?_⟩
    rw [quad_vertex_index_eval hlv hq hc hln, (quad_line_eval hlv hq hc).2, bind_ok]
    simp only [LineAccessor.vertex_index, hconv, decide_True, Assert_true, bind_ok, hlv, hln,
      pure_eq_ok]
  · intro hc
    have hc2 : ¬ (c < 4) := by omega
    simp [QuadAccessor.vertex_index, hc2]

/-- Witness of C14 (amended): the four corners of the unit square, and a fifth
that does not exist. -/
theorem C14_quad_corner_convention_witness :
    QuadAccessor.vertex_index unitSquare firstSlot 2 = .ok (Line.vertex ⟨3, 2⟩ 1) ∧
      QuadAccessor.vertex_index unitSquare firstSlot 4 = .error (.ExcInvalidIndex 4 0 3) :=
  ⟨((C14_quad_corner_convention unitSquare firstSlot 2).1 unitSquareLevel ⟨0, 1, 2, 3⟩ ⟨3, 2⟩
      (by decide) (by decide) (by decide) (by decide)).1,
    (C14_quad_corner_convention unitSquare firstSlot 4).2 (by decide)⟩

/-! ## Diameter -/

theorem point_square_nonneg (p : Point) : 0 ≤ p.square := by
  unfold Point.square
  apply List.sum_nonneg
  intro x hx
  obtain ⟨y, -, rfl⟩ := List.mem_map.1 hx
  exact mul_self_nonneg y

theorem sqrt_sq_of_rat (r : Rat) (h : 0 ≤ r) : Real.sqrt (r : ℝ) ^ 2 = (r : ℝ) :=
  Real.sq_sqrt (by exact_mod_cast h)

theorem max_ne_average (x y : Rat) (h : x ≠ y) : max x y ≠ (x + y) / 2 := by
  intro heq
  rcases le_total x y with hxy | hxy
  · rw [max_eq_right hxy] at heq
    apply h
    linarith
  · rw [max_eq_left hxy] at heq
    apply h
    linarith

theorem unitSquare_vertices :
    QuadAccessor.vertex unitSquare firstSlot 0 = .ok [0, 0] ∧
      QuadAccessor.vertex unitSquare firstSlot 1 = .ok [1, 0] ∧
      QuadAccessor.vertex unitSquare firstSlot 2 = .ok [1, 1] ∧
      QuadAccessor.vertex unitSquare firstSlot 3 = .ok [0, 1] := by
  have h0 : QuadAccessor.vertex_index unitSquare firstSlot 0 = .ok 0 := by decide
  have h1 : QuadAccessor.vertex_index unitSquare firstSlot 1 = .ok 1 := by decide
  have h2 : QuadAccessor.vertex_index unitSquare firstSlot 2 = .ok 2 := by decide
  have h3 : QuadAccessor.vertex_index unitSquare firstSlot 3 = .ok 3 := by decide
  simp only [QuadAccessor.vertex, h0, h1, h2, h3, bind_ok]
  simp [vecGet, unitSquare]

/-- C15: the diameter in exact arithmetic.  `diameter ()` is the square root
of a sum of squares, so that its square is the argument of `sqrt`.  For a quad
with the corners `v0 .. v3` returned by `vertex (0) .. vertex (3)` that
argument is `max (|v2 - v0|², |v3 - v1|²)`, the larger of the squared
diagonals, which differs from their average unless the diagonals are equal; for
a line with the end points `v0`, `v1` it is `|v1 - v0|²`.  For the unit square
it is 2. -/
theorem C15_diameter_square (t : Triangulation) (a : TriaAccessor) :
    (∀ v0 v1 v2 v3 : Point, QuadAccessor.vertex t a 0 = .ok v0 →
      QuadAccessor.vertex t a 1 = .ok v1 → QuadAccessor.vertex t a 2 = .ok v2 →
      QuadAccessor.vertex t a 3 = .ok v3 →
      QuadAccessor.diameter_square t a =
          .ok (max (v2.sub v0).square (v3.sub v1).square) ∧
        Real.sqrt ((max (v2.sub v0).square (v3.sub v1).square : Rat) : ℝ) ^ 2 =
          ((max (v2.sub v0).square (v3.sub v1).square : Rat) : ℝ) ∧
        (v2.sub v0).square ≤ max (v2.sub v0).square (v3.sub v1).square ∧
        (v3.sub v1).square ≤ max (v2.sub v0).square (v3.sub v1).square ∧
        ((v2.sub v0).square ≠ (v3.sub v1).square →
          max (v2.sub v0).square (v3.sub v1).square ≠
            ((v2.sub v0).square + (v3.sub v1).square) / 2)) ∧
    (∀ v0 v1 : Point, LineAccessor.vertex t a 0 = .ok v0 →
      LineAccessor.vertex t a 1 = .ok v1 →
      LineAccessor.diameter_square t a = .ok (v1.sub v0).square ∧
        Real.sqrt (((v1.sub v0).square : Rat) : ℝ) ^ 2 = (((v1.sub v0).square : Rat) : ℝ)) ∧
    QuadAccessor.diameter_square unitSquare firstSlot = .ok 2 ∧
    Real.sqrt (2 : ℝ) ^ 2 = 2 := by
  refine ⟨?_, ?_, ?_, ?_⟩
  · intro v0 v1 v2 v3 h0 h1 h2 h3
    refine ⟨?_, ?_, le_max_left _ _, le_max_right _ _, max_ne_average _ _⟩
    · simp only [QuadAccessor.diameter_square, h0, h1, h2, h3, bind_ok, pure_eq_ok]
    · exact sqrt_sq_of_rat _ (le_trans (point_square_nonneg _) (le_max_left _ _))
  · intro v0 v1 h0 h1
    refine ⟨?_, sqrt_sq_of_rat _ (point_square_nonneg _)⟩
    simp only [LineAccessor.diameter_square, h0, h1, bind_ok, pure_eq_ok]
  · obtain ⟨h0, h1, h2, h3⟩ := unitSquare_vertices
    simp only [QuadAccessor.diameter_square, h0, h1, h2, h3, bind_ok, pure_eq_ok]
    norm_num [Point.sub, Point.square]
  · exact Real.sq_sqrt (by norm_num)

/-- Witness of C15: the unit square, whose diagonals both have the squared
length 2, and its bounding line 2 of squared length 1. -/
theorem C15_diameter_square_witness :
    QuadAccessor.diameter_square unitSquare firstSlot =
        .ok (max (Point.square (Point.sub [1, 1] [0, 0]))
          (Point.square (Point.sub [0, 1] [1, 0]))) ∧
      LineAccessor.diameter_square unitSquare ⟨0, 0, 2⟩ =
        .ok (Point.square (Point.sub [1, 1] [0, 1])) :=
  ⟨((C15_diameter_square unitSquare firstSlot).1 [0, 0] [1, 0] [1, 1] [0, 1]
      unitSquare_vertices.1 unitSquare_vertices.2.1 unitSquare_vertices.2.2.1
      unitSquare_vertices.2.2.2).1,
    ((C15_diameter_square unitSquare ⟨0, 0, 2⟩).2.1 [0, 1] [1, 1]
      (by simp [LineAccessor.vertex, LineAccessor.vertex_index, vecGet, unitSquare,
        unitSquareLevel, Assert, Line.vertex])
      (by simp [LineAccessor.vertex, LineAccessor.vertex_index, vecGet, unitSquare,
        unitSquareLevel, Assert, Line.vertex])).1⟩

/-! ## Handle identity -/

/-- C16: handle identity.  For two handles of the same triangulation,
`a == b` returns true if and only if the levels and the indices are equal, and
`a != b` returns the negation of `a == b`; for handles of different
triangulations both fail with `ExcCantCompareIterators`; after
`a.copy_from (b)`, `a == b` holds and `a` has the level and index of `b`. -/
theorem C16_handle_identity (a b : TriaAccessor) :
    (a.tria = b.tria →
      ∃ r, TriaAccessor.operator_eq a b = .ok r ∧ TriaAccessor.operator_ne a b = .ok (!r) ∧
        (r = true ↔ a.level = b.level ∧ a.index = b.index)) ∧
    (a.tria ≠ b.tria →
      TriaAccessor.operator_eq a b = .error .ExcCantCompareIterators ∧
      TriaAccessor.operator_ne a b = .error .ExcCantCompareIterators) ∧
    TriaAccessor.operator_eq (a.copy_from b) b = .ok true ∧
    TriaAccessor.operator_ne (a.copy_from b) b = .ok false ∧
    (a.copy_from b).level = b.level ∧ (a.copy_from b).index = b.index := by
  refine ⟨?_, ?_, ?_, ?_, rfl, rfl⟩
  · intro ht
    refine ⟨(a.present_index == b.present_index) && (a.present_level == b.present_level),
      ?_, ?_, ?_⟩
    · simp [TriaAccessor.operator_eq, ht]
    · simp only [TriaAccessor.operator_ne, ht, beq_self_eq_true, Assert_true, bind_ok,
        pure_eq_ok, Bool.not_and, bne]
    · simp only [Bool.and_eq_true, beq_iff_eq, TriaAccessor.level, TriaAccessor.index]
      exact And.comm
  · intro ht
    have h : (a.tria == b.tria) = false := beq_eq_false_iff_ne.mpr ht
    simp [TriaAccessor.operator_eq, TriaAccessor.operator_ne, h]
  · simp [TriaAccessor.operator_eq, TriaAccessor.copy_from]
  · simp [TriaAccessor.operator_ne, TriaAccessor.copy_from]

/-- Witness of C16: two handles of triangulation 7 on different slots, and two
handles of different triangulations. -/
theorem C16_handle_identity_witness :
    (∃ r, TriaAccessor.operator_eq ⟨7, 0, 1⟩ ⟨7, 0, 2⟩ = .ok r ∧
        TriaAccessor.operator_ne ⟨7, 0, 1⟩ ⟨7, 0, 2⟩ = .ok (!r) ∧
        (r = true ↔ TriaAccessor.level ⟨7, 0, 1⟩ = TriaAccessor.level ⟨7, 0, 2⟩ ∧
          TriaAccessor.index ⟨7, 0, 1⟩ = TriaAccessor.index ⟨7, 0, 2⟩)) ∧
      TriaAccessor.operator_eq ⟨7, 0, 1⟩ ⟨8, 0, 1⟩ = .error .ExcCantCompareIterators ∧
      TriaAccessor.operator_ne ⟨7, 0, 1⟩ ⟨7, 0, 2⟩ = .ok true :=
  ⟨(C16_handle_identity ⟨7, 0, 1⟩ ⟨7, 0, 2⟩).1 rfl,
    ((C16_handle_identity ⟨7, 0, 1⟩ ⟨8, 0, 1⟩).2.1 (by decide)).1, by decide⟩

/-! ## Used flag -/

theorem vecGet_error {α : Type} {v : List α} {i : Int} {e : Exc}
    (h : vecGet v i = .error e) : e = .OutOfBounds := by
  unfold vecGet at h
  split at h
  · cases h; rfl
  · split at h
    · cases h
    · cases h; rfl

theorem line_used_error_iff (t : Triangulation) (a : TriaAccessor) :
    LineAccessor.used t a = .error .ExcDereferenceInvalidObject ↔ a.state ≠ .valid := by
  by_cases hs : a.state = .valid
  · simp only [LineAccessor.used, hs, beq_self_eq_true, Assert_true, bind_ok, ne_eq,
      not_true_eq_false, iff_false]
    intro h
    cases hlv : vecGet t.levels a.present_level with
    | error e =>
      rw [hlv] at h
      have := vecGet_error hlv
      cases h
      cases this
    | ok lv =>
      rw [hlv, bind_ok] at h
      cases vecGet_error h
  · have hb : (a.state == IteratorState.valid) = false := beq_eq_false_iff_ne.mpr hs
    simp [LineAccessor.used, hs, hb]

theorem quad_used_error_iff (t : Triangulation) (a : TriaAccessor) :
    QuadAccessor.used t a = .error .ExcDereferenceInvalidObject ↔ a.state ≠ .valid := by
  by_cases hs : a.state = .valid
  · simp only [QuadAccessor.used, hs, beq_self_eq_true, Assert_true, bind_ok, ne_eq,
      not_true_eq_false, iff_false]
    intro h
    cases hlv : vecGet t.levels a.present_level with
    | error e =>
      rw [hlv] at h
      have := vecGet_error hlv
      cases h
      cases this
    | ok lv =>
      rw [hlv, bind_ok] at h
      cases vecGet_error h
  · have hb : (a.state == IteratorState.valid) = false := beq_eq_false_iff_ne.mpr hs
    simp [QuadAccessor.used, hs, hb]

theorem line_write_used_flag_eval {t : Triangulation} {a : TriaAccessor}
    {lv : TriangulationLevel} {u : Bool} (hs : a.state = .valid)
    (hlv : vecGet t.levels a.present_level = .ok lv)
    (hu : vecGet lv.lines.used a.present_index = .ok u) (b : Bool) :
    LineAccessor.used t a = .ok u ∧
      ∃ t2, LineAccessor.write_used_flag b t a = .ok t2 ∧ LineAccessor.used t2 a = .ok b := by
  have hw : LineAccessor.write_used_flag b t a = t.setLevel a.present_level
      { lv with lines := { lv.lines with
          used := lv.lines.used.set a.present_index.toNat b } } := by
    simp only [LineAccessor.write_used_flag, hs, beq_self_eq_true, Assert_true, bind_ok, hlv,
      vecSet_ok_of_lt _ _ _ (vecGet_nonneg hu) (vecGet_lt hu)]
  rw [setLevel_ok_of_get hlv] at hw
  refine ⟨by simp [LineAccessor.used, hs, hlv, hu], _, hw, ?_⟩
  simp only [LineAccessor.used, hs, beq_self_eq_true, Assert_true, bind_ok,
    vecGet_withLevel hlv, vecGet_set_same hu]

theorem quad_write_used_flag_eval {t : Triangulation} {a : TriaAccessor}
    {lv : TriangulationLevel} {u : Bool} (hs : a.state = .valid)
    (hlv : vecGet t.levels a.present_level = .ok lv)
    (hu : vecGet lv.quads.used a.present_index = .ok u) (b : Bool) :
    QuadAccessor.used t a = .ok u ∧
      ∃ t2, QuadAccessor.write_used_flag b t a = .ok t2 ∧ QuadAccessor.used t2 a = .ok b := by
  have hw : QuadAccessor.write_used_flag b t a = t.setLevel a.present_level
      { lv with quads := { lv.quads with
          used := lv.quads.used.set a.present_index.toNat b } } := by
    simp only [QuadAccessor.write_used_flag, hs, beq_self_eq_true, Assert_true, bind_ok, hlv,
      vecSet_ok_of_lt _ _ _ (vecGet_nonneg hu) (vecGet_lt hu)]
  rw [setLevel_ok_of_get hlv] at hw
  refine ⟨by simp [QuadAccessor.used, hs, hlv, hu], _, hw, ?_⟩
  simp only [QuadAccessor.used, hs, beq_self_eq_true, Assert_true, bind_ok,
    vecGet_withLevel hlv, vecGet_set_same hu]

/-- C17: `used ()` of a line and of a quad handle fails with
`ExcDereferenceInvalidObject` if and only if `state ()` is not valid, and so do
`set_used_flag ()` and `clear_used_flag ()`.  For a handle in the valid state
that addresses a slot, `used ()` returns the used flag stored for the slot,
`set_used_flag ()` succeeds and `used ()` then returns true,
`clear_used_flag ()` succeeds and `used ()` then returns false. -/
theorem C17_used_flag (t : Triangulation) (a : TriaAccessor) :
    ((LineAccessor.used t a = .error .ExcDereferenceInvalidObject ↔ a.state ≠ .valid) ∧
      (a.state ≠ .valid →
        LineAccessor.set_used_flag t a = .error .ExcDereferenceInvalidObject ∧
        LineAccessor.clear_used_flag t a = .error .ExcDereferenceInvalidObject) ∧
      (a.state = .valid → ∀ lv u, vecGet t.levels a.present_level = .ok lv →
        vecGet lv.lines.used a.present_index = .ok u →
        LineAccessor.used t a = .ok u ∧
        (∃ t2, LineAccessor.set_used_flag t a = .ok t2 ∧ LineAccessor.used t2 a = .ok true) ∧
        (∃ t2, LineAccessor.clear_used_flag t a = .ok t2 ∧
          LineAccessor.used t2 a = .ok false))) ∧
    ((QuadAccessor.used t a = .error .ExcDereferenceInvalidObject ↔ a.state ≠ .valid) ∧
      (a.state ≠ .valid →
        QuadAccessor.set_used_flag t a = .error .ExcDereferenceInvalidObject ∧
        QuadAccessor.clear_used_flag t a = .error .ExcDereferenceInvalidObject) ∧
      (a.state = .valid → ∀ lv u, vecGet t.levels a.present_level = .ok lv →
        vecGet lv.quads.used a.present_index = .ok u →
        QuadAccessor.used t a = .ok u ∧
        (∃ t2, QuadAccessor.set_used_flag t a = .ok t2 ∧ QuadAccessor.used t2 a = .ok true) ∧
        (∃ t2, QuadAccessor.clear_used_flag t a = .ok t2 ∧
          QuadAccessor.used t2 a = .ok false))) := by
  refine ⟨⟨line_used_error_iff t a, ?_, ?_⟩, ⟨quad_used_error_iff t a, ?_, ?_⟩⟩
  · intro hs
    have hb : (a.state == IteratorState.valid) = false := beq_eq_false_iff_ne.mpr hs
    simp [LineAccessor.set_used_flag, LineAccessor.clear_used_flag,
      LineAccessor.write_used_flag, hb]
  · intro hs lv u hlv hu
    exact ⟨(line_write_used_flag_eval hs hlv hu true).1,
      (line_write_used_flag_eval hs hlv hu true).2,
      (line_write_used_flag_eval hs hlv hu false).2⟩
  · intro hs
    have hb : (a.state == IteratorState.valid) = false := beq_eq_false_iff_ne.mpr hs
    simp [QuadAccessor.set_used_flag, QuadAccessor.clear_used_flag,
      QuadAccessor.write_used_flag, hb]
  · intro hs lv u hlv hu
    exact ⟨(quad_write_used_flag_eval hs hlv hu true).1,
      (quad_write_used_flag_eval hs hlv hu true).2,
      (quad_write_used_flag_eval hs hlv hu false).2⟩

/-- Witness of C17: the unused second line of `threeLevels`, the used quad of
`oneQuad`, and the past-the-end handle. -/
theorem C17_used_flag_witness :
    (LineAccessor.used threeLevels ⟨0, 0, 1⟩ = .ok false ∧
        (∃ t2, LineAccessor.set_used_flag threeLevels ⟨0, 0, 1⟩ = .ok t2 ∧
          LineAccessor.used t2 ⟨0, 0, 1⟩ = .ok true) ∧
        (∃ t2, LineAccessor.clear_used_flag threeLevels ⟨0, 0, 1⟩ = .ok t2 ∧
          LineAccessor.used t2 ⟨0, 0, 1⟩ = .ok false)) ∧
      (QuadAccessor.set_used_flag oneQuad ⟨0, -1, -1⟩ = .error .ExcDereferenceInvalidObject ∧
        QuadAccessor.clear_used_flag oneQuad ⟨0, -1, -1⟩ =
          .error .ExcDereferenceInvalidObject) :=
  ⟨(C17_used_flag threeLevels ⟨0, 0, 1⟩).1.2.2 (by decide)
      (sampleLineLevel [true, false] [-1, -1] [false, false] [false, false]) false
      (by decide) (by decide),
    (C17_used_flag oneQuad ⟨0, -1, -1⟩).2.2.1 (by decide)⟩

/-! ## User flag and user pointer -/

theorem line_user_data_unused (t : Triangulation) (a : TriaAccessor) (p : Nat)
    (hu : LineAccessor.used t a = .ok false) :
    LineAccessor.user_flag_set t a = .error .ExcCellNotUsed ∧
      LineAccessor.set_user_flag t a = .error .ExcCellNotUsed ∧
      LineAccessor.clear_user_flag t a = .error .ExcCellNotUsed ∧
      LineAccessor.user_pointer t a = .error .ExcCellNotUsed ∧
      LineAccessor.set_user_pointer t a p = .error .ExcCellNotUsed ∧
      LineAccessor.clear_user_pointer t a = .error .ExcCellNotUsed := by
  simp [LineAccessor.user_flag_set, LineAccessor.set_user_flag, LineAccessor.clear_user_flag,
    LineAccessor.user_pointer, LineAccessor.set_user_pointer, LineAccessor.clear_user_pointer,
    hu]

theorem quad_user_data_unused (t : Triangulation) (a : TriaAccessor) (p : Nat)
    (hu : QuadAccessor.used t a = .ok false) :
    QuadAccessor.user_flag_set t a = .error .ExcCellNotUsed ∧
      QuadAccessor.set_user_flag t a = .error .ExcCellNotUsed ∧
      QuadAccessor.clear_user_flag t a = .error .ExcCellNotUsed ∧
      QuadAccessor.user_pointer t a = .error .ExcCellNotUsed ∧
      QuadAccessor.set_user_pointer t a p = .error .ExcCellNotUsed ∧
      QuadAccessor.clear_user_pointer t a = .error .ExcCellNotUsed := by
  simp [QuadAccessor.user_flag_set, QuadAccessor.set_user_flag, QuadAccessor.clear_user_flag,
    QuadAccessor.user_pointer, QuadAccessor.set_user_pointer, QuadAccessor.clear_user_pointer,
    hu]

theorem line_used_withLevel {t : Triangulation} {a : TriaAccessor}
    {lv lv2 : TriangulationLevel} (hlv : vecGet t.levels a.present_level = .ok lv)
    (h0 : 0 ≤ a.present_index) (hu : vecGet lv.lines.used a.present_index = .ok true)
    (h2 : lv2.lines.used = lv.lines.used) :
    LineAccessor.used (t.withLevel a.present_level lv2) a = .ok true := by
  have hs := state_valid a (vecGet_nonneg hlv) h0
  simp only [LineAccessor.used, hs, beq_self_eq_true, Assert_true, bind_ok,
    vecGet_withLevel hlv, h2, hu]

theorem quad_used_withLevel {t : Triangulation} {a : TriaAccessor}
    {lv lv2 : TriangulationLevel} (hlv : vecGet t.levels a.present_level = .ok lv)
    (h0 : 0 ≤ a.present_index) (hu : vecGet lv.quads.used a.present_index = .ok true)
    (h2 : lv2.quads.used = lv.quads.used) :
    QuadAccessor.used (t.withLevel a.present_level lv2) a = .ok true := by
  have hs := state_valid a (vecGet_nonneg hlv) h0
  simp only [QuadAccessor.used, hs, beq_self_eq_true, Assert_true, bind_ok,
    vecGet_withLevel hlv, h2, hu]

theorem line_user_data_used (t : Triangulation) (a : TriaAccessor) (p : Nat)
    (hr : LineAccessor.in_range t a = true) (hu : LineAccessor.used t a = .ok true) :
    (∃ t2, LineAccessor.set_user_flag t a = .ok t2 ∧
        LineAccessor.user_flag_set t2 a = .ok true) ∧
      (∃ t2, LineAccessor.clear_user_flag t a = .ok t2 ∧
        LineAccessor.user_flag_set t2 a = .ok false) ∧
      (∃ t2, LineAccessor.set_user_pointer t a p = .ok t2 ∧
        LineAccessor.user_pointer t2 a = .ok p) ∧
      (∃ t2, LineAccessor.clear_user_pointer t a = .ok t2 ∧
        LineAccessor.user_pointer t2 a = .ok 0) := by
  obtain ⟨lv, hlv, h0, -, -, -, huf, -, hup⟩ := (line_in_range_iff t a).1 hr
  obtain ⟨lv2, u, hlv2, -, hur, hu2⟩ := line_used_of_in_range t a hr
  rw [hlv] at hlv2
  cases hlv2
  rw [hu] at hu2
  cases hu2
  have gf := vecGet_ok_of_lt lv.lines.user_flags _ h0 huf
  have gp := vecGet_ok_of_lt lv.lines.user_pointers _ h0 hup
  have e1 : (LineAccessor.set_user_flag t a >>= fun t2 =>
      LineAccessor.user_flag_set t2 a) = .ok true := by
    simp only [LineAccessor.set_user_flag, hu, Assert_true, bind_ok, hlv,
      vecSet_ok_of_lt _ _ _ h0 huf, setLevel_ok_of_get hlv, LineAccessor.user_flag_set,
      line_used_withLevel hlv h0 hur, vecGet_withLevel hlv, vecGet_set_same gf]
  have e2 : (LineAccessor.clear_user_flag t a >>= fun t2 =>
      LineAccessor.user_flag_set t2 a) = .ok false := by
    simp only [LineAccessor.clear_user_flag, hu, Assert_true, bind_ok, hlv,
      vecSet_ok_of_lt _ _ _ h0 huf, setLevel_ok_of_get hlv, LineAccessor.user_flag_set,
      line_used_withLevel hlv h0 hur, vecGet_withLevel hlv, vecGet_set_same gf]
  have e3 : (LineAccessor.set_user_pointer t a p >>= fun t2 =>
      LineAccessor.user_pointer t2 a) = .ok p := by
    simp only [LineAccessor.set_user_pointer, hu, Assert_true, bind_ok, hlv,
      vecSet_ok_of_lt _ _ _ h0 hup, setLevel_ok_of_get hlv, LineAccessor.user_pointer,
      line_used_withLevel hlv h0 hur, vecGet_withLevel hlv, vecGet_set_same gp]
  have e4 : (LineAccessor.clear_user_pointer t a >>= fun t2 =>
      LineAccessor.user_pointer t2 a) = .ok 0 := by
    simp only [LineAccessor.clear_user_pointer, hu, Assert_true, bind_ok, hlv,
      vecSet_ok_of_lt _ _ _ h0 hup, setLevel_ok_of_get hlv, LineAccessor.user_pointer,
      line_used_withLevel hlv h0 hur, vecGet_withLevel hlv, vecGet_set_same gp]
  exact ⟨bind_eq_ok e1, bind_eq_ok e2, bind_eq_ok e3, bind_eq_ok e4⟩

theorem quad_user_data_used (t : Triangulation) (a : TriaAccessor) (p : Nat)
    (hr : QuadAccessor.in_range t a = true) (hu : QuadAccessor.used t a = .ok true) :
    (∃ t2, QuadAccessor.set_user_flag t a = .ok t2 ∧
        QuadAccessor.user_flag_set t2 a = .ok true) ∧
      (∃ t2, QuadAccessor.clear_user_flag t a = .ok t2 ∧
        QuadAccessor.user_flag_set t2 a = .ok false) ∧
      (∃ t2, QuadAccessor.set_user_pointer t a p = .ok t2 ∧
        QuadAccessor.user_pointer t2 a = .ok p) ∧
      (∃ t2, QuadAccessor.clear_user_pointer t a = .ok t2 ∧
        QuadAccessor.user_pointer t2 a = .ok 0) := by
  obtain ⟨lv, hlv, h0, -, -, -, huf, -, hup⟩ := (quad_in_range_iff t a).1 hr
  obtain ⟨lv2, u, hlv2, -, hur, hu2⟩ := quad_used_of_in_range t a hr
  rw [hlv] at hlv2
  cases hlv2
  rw [hu] at hu2
  cases hu2
  have gf := vecGet_ok_of_lt lv.quads.user_flags _ h0 huf
  have gp := vecGet_ok_of_lt lv.quads.user_pointers _ h0 hup
  have e1 : (QuadAccessor.set_user_flag t a >>= fun t2 =>
      QuadAccessor.user_flag_set t2 a) = .ok true := by
    simp only [QuadAccessor.set_user_flag, hu, Assert_true, bind_ok, hlv,
      vecSet_ok_of_lt _ _ _ h0 huf, setLevel_ok_of_get hlv, QuadAccessor.user_flag_set,
      quad_used_withLevel hlv h0 hur, vecGet_withLevel hlv, vecGet_set_same gf]
  have e2 : (QuadAccessor.clear_user_flag t a >>= fun t2 =>
      QuadAccessor.user_flag_set t2 a) = .ok false := by
    simp only [QuadAccessor.clear_user_flag, hu, Assert_true, bind_ok, hlv,
      vecSet_ok_of_lt _ _ _ h0 huf, setLevel_ok_of_get hlv, QuadAccessor.user_flag_set,
      quad_used_withLevel hlv h0 hur, vecGet_withLevel hlv, vecGet_set_same gf]
  have e3 : (QuadAccessor.set_user_pointer t a p >>= fun t2 =>
      QuadAccessor.user_pointer t2 a) = .ok p := by
    simp only [QuadAccessor.set_user_pointer, hu, Assert_true, bind_ok, hlv,
      vecSet_ok_of_lt _ _ _ h0 hup, setLevel_ok_of_get hlv, QuadAccessor.user_pointer,
      quad_used_withLevel hlv h0 hur, vecGet_withLevel hlv, vecGet_set_same gp]
  have e4 : (QuadAccessor.clear_user_pointer t a >>= fun t2 =>
      QuadAccessor.user_pointer t2 a) = .ok 0 := by
    simp only [QuadAccessor.clear_user_pointer, hu, Assert_true, bind_ok, hlv,
      vecSet_ok_of_lt _ _ _ h0 hup, setLevel_ok_of_get hlv, QuadAccessor.user_pointer,
      quad_used_withLevel hlv h0 hur, vecGet_withLevel hlv, vecGet_set_same gp]
  exact ⟨bind_eq_ok e1, bind_eq_ok e2, bind_eq_ok e3, bind_eq_ok e4⟩

/-- C18: user scratch data of a line and of a quad slot.  Each of
`user_flag_set`, `set_user_flag`, `clear_user_flag`, `user_pointer`,
`set_user_pointer`, `clear_user_pointer` fails with `ExcCellNotUsed` on an
unused entity.  On a used entity the four writing calls succeed;
`user_flag_set ()` is true after `set_user_flag ()` and false after
`clear_user_flag ()`, `user_pointer ()` returns `p` after
`set_user_pointer (p)` and the null pointer after `clear_user_pointer ()`. -/
theorem C18_user_flag_and_pointer (t : Triangulation) (a : TriaAccessor) (p : Nat) :
    (LineAccessor.used t a = .ok false →
      LineAccessor.user_flag_set t a = .error .ExcCellNotUsed ∧
      LineAccessor.set_user_flag t a = .error .ExcCellNotUsed ∧
      LineAccessor.clear_user_flag t a = .error .ExcCellNotUsed ∧
      LineAccessor.user_pointer t a = .error .ExcCellNotUsed ∧
      LineAccessor.set_user_pointer t a p = .error .ExcCellNotUsed ∧
      LineAccessor.clear_user_pointer t a = .error .ExcCellNotUsed) ∧
    (LineAccessor.in_range t a = true → LineAccessor.used t a = .ok true →
      (∃ t2, LineAccessor.set_user_flag t a = .ok t2 ∧
        LineAccessor.user_flag_set t2 a = .ok true) ∧
      (∃ t2, LineAccessor.clear_user_flag t a = .ok t2 ∧
        LineAccessor.user_flag_set t2 a = .ok false) ∧
      (∃ t2, LineAccessor.set_user_pointer t a p = .ok t2 ∧
        LineAccessor.user_pointer t2 a = .ok p) ∧
      (∃ t2, LineAccessor.clear_user_pointer t a = .ok t2 ∧
        LineAccessor.user_pointer t2 a = .ok 0)) ∧
    (QuadAccessor.used t a = .ok false →
      QuadAccessor.user_flag_set t a = .error .ExcCellNotUsed ∧
      QuadAccessor.set_user_flag t a = .error .ExcCellNotUsed ∧
      QuadAccessor.clear_user_flag t a = .error .ExcCellNotUsed ∧
      QuadAccessor.user_pointer t a = .error .ExcCellNotUsed ∧
      QuadAccessor.set_user_pointer t a p = .error .ExcCellNotUsed ∧
      QuadAccessor.clear_user_pointer t a = .error .ExcCellNotUsed) ∧
    (QuadAccessor.in_range t a = true → QuadAccessor.used t a = .ok true →
      (∃ t2, QuadAccessor.set_user_flag t a = .ok t2 ∧
        QuadAccessor.user_flag_set t2 a = .ok true) ∧
      (∃ t2, QuadAccessor.clear_user_flag t a = .ok t2 ∧
        QuadAccessor.user_flag_set t2 a = .ok false) ∧
      (∃ t2, QuadAccessor.set_user_pointer t a p = .ok t2 ∧
        QuadAccessor.user_pointer t2 a = .ok p) ∧
      (∃ t2, QuadAccessor.clear_user_pointer t a = .ok t2 ∧
        QuadAccessor.user_pointer t2 a = .ok 0)) :=
  ⟨line_user_data_unused t a p, line_user_data_used t a p,
    quad_user_data_unused t a p, quad_user_data_used t a p⟩

/-- Witness of C18: the unused second line of `threeLevels`, and the used quad
of `oneQuad` with the pointer 42. -/
theorem C18_user_flag_and_pointer_witness :
    LineAccessor.set_user_flag threeLevels ⟨0, 0, 1⟩ = .error .ExcCellNotUsed ∧
      (∃ t2, QuadAccessor.set_user_pointer oneQuad firstSlot 42 = .ok t2 ∧
        QuadAccessor.user_pointer t2 firstSlot = .ok 42) ∧
      (∃ t2, QuadAccessor.set_user_flag oneQuad firstSlot = .ok t2 ∧
        QuadAccessor.user_flag_set t2 firstSlot = .ok true) :=
  ⟨((C18_user_flag_and_pointer threeLevels ⟨0, 0, 1⟩ 0).1 (by decide)).2.1,
    ((C18_user_flag_and_pointer oneQuad firstSlot 42).2.2.2 (by decide) (by decide)).2.2.1,
    ((C18_user_flag_and_pointer oneQuad firstSlot 42).2.2.2 (by decide) (by decide)).1⟩

/-! ## Children -/

theorem checkUsed_of_used {usedq : Except Exc Bool} (q : TriaAccessor) (e : Exc)
    (h : usedq = .ok true) : checkUsed usedq q e = .ok q := by
  unfold checkUsed
  split
  · rfl
  · rw [h]; rfl

theorem checkUsed_of_unused {usedq : Except Exc Bool} (q : TriaAccessor) (e : Exc)
    (hs : q.state ≠ .past_the_end) (h : usedq = .ok false) :
    checkUsed usedq q e = .error e := by
  unfold checkUsed
  rw [if_neg hs, h]
  rfl

theorem checkUsed_of_past_the_end {usedq : Except Exc Bool} (q : TriaAccessor) (e : Exc)
    (hs : q.state = .past_the_end) : checkUsed usedq q e = .ok q := by
  unfold checkUsed
  rw [if_pos hs]
  rfl

theorem checkUsed_inv {usedq : Except Exc Bool} {q r : TriaAccessor} {e : Exc}
    (h : checkUsed usedq q e = .ok r) :
    r = q ∧ (q.state = .past_the_end ∨ usedq = .ok true) := by
  unfold checkUsed at h
  split at h
  · cases h
    exact ⟨rfl, Or.inl (by assumption)⟩
  · obtain ⟨hu, h2⟩ := assert_bind_inv h
    cases h2
    exact ⟨rfl, Or.inr hu⟩

theorem state_past_the_end_level {q : TriaAccessor} (h : q.state = .past_the_end) :
    q.present_level = -1 := by
  unfold TriaAccessor.state at h
  split at h
  · cases h
  · split at h
    · rename_i h2; exact h2.1
    · cases h

theorem state_valid_nonneg {q : TriaAccessor} (h : q.state = .valid) :
    0 ≤ q.present_level ∧ 0 ≤ q.present_index := by
  unfold TriaAccessor.state at h
  split at h
  · rename_i h2; exact h2
  · split at h <;> cases h

theorem line_used_ok_state {t : Triangulation} {q : TriaAccessor} {u : Bool}
    (h : LineAccessor.used t q = .ok u) : q.state = .valid := by
  obtain ⟨hs, -⟩ := assert_state_bind_inv h
  exact beq_iff_eq.mp hs

theorem quad_used_ok_state {t : Triangulation} {q : TriaAccessor} {u : Bool}
    (h : QuadAccessor.used t q = .ok u) : q.state = .valid := by
  obtain ⟨hs, -⟩ := assert_state_bind_inv h
  exact beq_iff_eq.mp hs

theorem cell_used_ok_state {dim : Dim} {t : Triangulation} {q : TriaAccessor} {u : Bool}
    (h : CellAccessor.used dim t q = .ok u) : q.state = .valid := by
  cases dim
  · exact line_used_ok_state h
  · exact quad_used_ok_state h

theorem toInt32_of_nonneg (k : Int) (i : Nat) (h1 : -2147483648 ≤ k) (h2 : k ≤ 2147483647)
    (hi : i ≤ 4) (h : 0 ≤ toInt32 (k + i)) : toInt32 (k + i) = k + i := by
  unfold toInt32 at h ⊢
  omega

/-- The contract of `child (i)`, from the shape of the function: the handle
`(level + 1, child_index (i))` passed through the check of the debug build. -/
theorem childContract_of
    (child : Triangulation → TriaAccessor → Nat → Except Exc TriaAccessor)
    (used : Triangulation → TriaAccessor → Except Exc Bool) (arity : Nat)
    (t : Triangulation) (a : TriaAccessor) (k : Int) (i : Nat)
    (hchild : child t a i =
      checkUsed (used t ⟨a.tria, a.present_level + 1, toInt32 (k + i)⟩)
        ⟨a.tria, a.present_level + 1, toInt32 (k + i)⟩ .ExcUnusedCellAsChild)
    (hstate : ∀ q u, used t q = .ok u → q.state = .valid)
    (hl : 0 ≤ a.present_level) (h1 : -2147483648 ≤ k) (h2 : k ≤ 2147483647)
    (hi : i < arity) (harity : arity ≤ 4) :
    ChildContract child used arity t a k i := by
  refine ⟨?_, ?_, ?_⟩
  · intro r hr
    rw [hchild] at hr
    obtain ⟨rfl, hq⟩ := checkUsed_inv hr
    rcases hq with hq | hq
    · have := state_past_the_end_level hq
      simp only at this
      omega
    · have h0 := (state_valid_nonneg (hstate _ _ hq)).2
      simp only at h0
      rw [toInt32_of_nonneg k i h1 h2 (by omega) h0]
  · intro hall hfit
    have hk0 := (state_valid_nonneg (hstate _ _ (hall 0 (by omega)))).2
    simp only [Nat.cast_zero, add_zero] at hk0
    have hfits : toInt32 (k + i) = k + i :=
      toInt32_of_fits _ (by omega) (by omega)
    rw [hchild, hfits]
    exact ⟨checkUsed_of_used _ _ (hall i hi), hstate _ _ (hall i hi), hall i hi⟩
  · intro hs hu
    rw [hchild]
    exact checkUsed_of_unused _ _ hs hu

theorem line_child_contract (t : Triangulation) (a : TriaAccessor) (i : Nat)
    (lv : TriangulationLevel) (k : Int)
    (hlv : vecGet t.levels a.present_level = .ok lv)
    (hk : vecGet lv.lines.children a.present_index = .ok k)
    (h1 : -2147483648 ≤ k) (h2 : k ≤ 2147483647) (hi : i < 2) :
    ChildContract LineAccessor.child LineAccessor.used 2 t a k i := by
  refine childContract_of _ _ 2 t a k i ?_ (fun q u h => line_used_ok_state h)
    (vecGet_nonneg hlv) h1 h2 hi (by decide)
  simp only [LineAccessor.child, LineAccessor.child_index, hi, decide_True, Assert_true,
    bind_ok, hlv, hk, pure_eq_ok]

theorem quad_child_contract (t : Triangulation) (a : TriaAccessor) (i : Nat)
    (lv : TriangulationLevel) (k : Int)
    (hlv : vecGet t.levels a.present_level = .ok lv)
    (hk : vecGet lv.quads.children a.present_index = .ok k)
    (h1 : -2147483648 ≤ k) (h2 : k ≤ 2147483647) (hi : i < 4) :
    ChildContract QuadAccessor.child QuadAccessor.used 4 t a k i := by
  refine childContract_of _ _ 4 t a k i ?_ (fun q u h => quad_used_ok_state h)
    (vecGet_nonneg hlv) h1 h2 hi (by decide)
  simp only [QuadAccessor.child, QuadAccessor.child_index, hi, decide_True, Assert_true,
    bind_ok, hlv, hk, pure_eq_ok]

theorem cell_child_contract (dim : Dim) (t : Triangulation) (a : TriaAccessor) (i : Nat)
    (lv : TriangulationLevel) (k : Int)
    (hlv : vecGet t.levels a.present_level = .ok lv)
    (hk : vecGet (lv.cell_children dim) a.present_index = .ok k)
    (h1 : -2147483648 ≤ k) (h2 : k ≤ 2147483647) (hi : i < children_per_cell dim) :
    ChildContract (CellAccessor.child dim) (CellAccessor.used dim) (children_per_cell dim)
      t a k i := by
  refine childContract_of _ _ _ t a k i ?_ (fun q u h => cell_used_ok_state h)
    (vecGet_nonneg hlv) h1 h2 hi (by cases dim <;> decide)
  cases dim with
  | one =>
    have hi2 : i < 2 := hi
    have hk2 : vecGet lv.lines.children a.present_index = .ok k := hk
    simp only [CellAccessor.child, CellAccessor.child_index, LineAccessor.child_index, hi2,
      decide_True, Assert_true, bind_ok, hlv, hk2, pure_eq_ok]
  | two =>
    have hi2 : i < 4 := hi
    have hk2 : vecGet lv.quads.children a.present_index = .ok k := hk
    simp only [CellAccessor.child, CellAccessor.child_index, QuadAccessor.child_index, hi2,
      decide_True, Assert_true, bind_ok, hlv, hk2, pure_eq_ok]

/-- C19: child navigation.  For a line (2 children), a quad (4 children) and a
cell whose stored children offset is the `int` value `k`, and for `i` below
the number of children, `child (i)` satisfies `ChildContract`: the handle it
returns is `(level + 1, k + i)`; when the child block at `level + 1` is in
range and all used it returns this handle, which is valid and used; and in
the debug build it fails with `ExcUnusedCellAsChild` when the handle built is
not past the end and its slot is unused. -/
theorem C19_child_navigation (t : Triangulation) (a : TriaAccessor) (i : Nat)
    (lv : TriangulationLevel) (k : Int)
    (hlv : vecGet t.levels a.present_level = .ok lv)
    (h1 : -2147483648 ≤ k) (h2 : k ≤ 2147483647) :
    (vecGet lv.lines.children a.present_index = .ok k → i < 2 →
      ChildContract LineAccessor.child LineAccessor.used 2 t a k i) ∧
    (vecGet lv.quads.children a.present_index = .ok k → i < 4 →
      ChildContract QuadAccessor.child QuadAccessor.used 4 t a k i) ∧
    (∀ dim, vecGet (lv.cell_children dim) a.present_index = .ok k →
      i < children_per_cell dim →
      ChildContract (CellAccessor.child dim) (CellAccessor.used dim) (children_per_cell dim)
        t a k i) :=
  ⟨fun hk hi => line_child_contract t a i lv k hlv hk h1 h2 hi,
    fun hk hi => quad_child_contract t a i lv k hlv hk h1 h2 hi,
    fun dim hk hi => cell_child_contract dim t a i lv k hlv hk h1 h2 hi⟩

/-- Witness of C19: the refined line with two used children, and the refined
quad whose fourth child slot is unused. -/
theorem C19_child_navigation_witness :
    (LineAccessor.child refinedLine firstSlot 1 = .ok ⟨0, 1, 1⟩ ∧
        TriaAccessor.state ⟨0, 1, 1⟩ = .valid ∧
        LineAccessor.used refinedLine ⟨0, 1, 1⟩ = .ok true) ∧
      QuadAccessor.child brokenQuad firstSlot 3 = .error .ExcUnusedCellAsChild ∧
      (∀ r, CellAccessor.child .two brokenQuad firstSlot 2 = .ok r → r = ⟨0, 1, 2⟩) :=
  ⟨((C19_child_navigation refinedLine firstSlot 1
        (sampleLineLevel [true] [0] [false] [false]) 0 (by decide) (by decide)
        (by decide)).1 (by decide) (by decide)).2.1
      (fun j hj => by
        have h : j = 0 ∨ j = 1 := by omega
        rcases h with rfl | rfl <;> decide)
      (by decide),
    ((C19_child_navigation brokenQuad firstSlot 3
        (sampleQuadLevel [true] [0] [false] [false]) 0 (by decide) (by decide)
        (by decide)).2.1 (by decide) (by decide)).2.2 (by decide) (by decide),
    ((C19_child_navigation brokenQuad firstSlot 2
        (sampleQuadLevel [true] [0] [false] [false]) 0 (by decide) (by decide)
        (by decide)).2.2 .two (by decide) (by decide)).1⟩

/-! ## Neighbors -/

theorem neighbor_eval {dim : Dim} {t : Triangulation} {a : TriaAccessor} {i : Nat}
    {nl ni : Int} (hnl : CellAccessor.neighbor_level dim t a i = .ok nl)
    (hni : CellAccessor.neighbor_index dim t a i = .ok ni) :
    CellAccessor.neighbor dim t a i =
      checkUsed (CellAccessor.used dim t ⟨a.tria, nl, ni⟩) ⟨a.tria, nl, ni⟩
        .ExcUnusedCellAsNeighbor := by
  simp only [CellAccessor.neighbor, hnl, hni, bind_ok]

/-- C20, as the claim states it, fails in the debug build: the unused quad
cell of `oneQuadUnused` is in range and its table entry for face 0 is
`(-1, -1)`, so `neighbor (0)` is past the end, but `at_boundary (0)` fails
with `ExcCellNotUsed` instead of returning true. -/
theorem C20_counterexample :
    CellAccessor.in_range .two oneQuadUnused firstSlot = true ∧
      CellAccessor.neighbor_level .two oneQuadUnused firstSlot 0 = .ok (-1) ∧
      CellAccessor.neighbor_index .two oneQuadUnused firstSlot 0 = .ok (-1) ∧
      CellAccessor.neighbor .two oneQuadUnused firstSlot 0 = .ok ⟨0, -1, -1⟩ ∧
      TriaAccessor.state ⟨0, -1, -1⟩ = .past_the_end ∧
      CellAccessor.at_boundary .two oneQuadUnused firstSlot 0 = .error .ExcCellNotUsed :=
  ⟨by decide, by decide, by decide, by decide, by decide, by decide⟩

/-- C20 (amended): neighbor lookup.  For an in-range cell and a face
`i < faces_per_cell`, `neighbor_level (i)` and `neighbor_index (i)` return the
two components `nl`, `ni` of the table entry, and: whenever `neighbor (i)`
returns, the handle has `level () = nl` and `index () = ni`; when the entry is
`(-1, -1)`, `neighbor (i)` returns a handle that is past the end, and if the
cell is used `at_boundary (i)` is true; in the debug build, when the handle
`(nl, ni)` is not past the end and its slot is unused, `neighbor (i)` fails
with `ExcUnusedCellAsNeighbor`; when the entry addresses a used cell,
`neighbor (i)` returns a valid handle `r` of a used cell, and
`r.level () < level ()` if and only if `nl < level ()`. -/
theorem C20_neighbor_lookup (dim : Dim) (t : Triangulation) (a : TriaAccessor) (i : Nat)
    (hin : CellAccessor.in_range dim t a = true) (hi : i < faces_per_cell dim) :
    (∃ nl ni, CellAccessor.neighbor_level dim t a i = .ok nl ∧
      CellAccessor.neighbor_index dim t a i = .ok ni) ∧
    ∀ nl ni, CellAccessor.neighbor_level dim t a i = .ok nl →
      CellAccessor.neighbor_index dim t a i = .ok ni →
      (∀ r, CellAccessor.neighbor dim t a i = .ok r → r.level = nl ∧ r.index = ni) ∧
      (nl = -1 → ni = -1 →
        ∃ r, CellAccessor.neighbor dim t a i = .ok r ∧ r.state = .past_the_end ∧
          (CellAccessor.used dim t a = .ok true →
            CellAccessor.at_boundary dim t a i = .ok true)) ∧
      (TriaAccessor.state ⟨a.tria, nl, ni⟩ ≠ .past_the_end →
        CellAccessor.used dim t ⟨a.tria, nl, ni⟩ = .ok false →
        CellAccessor.neighbor dim t a i = .error .ExcUnusedCellAsNeighbor) ∧
      (CellAccessor.used dim t ⟨a.tria, nl, ni⟩ = .ok true →
        ∃ r, CellAccessor.neighbor dim t a i = .ok r ∧ r.state = .valid ∧
          CellAccessor.used dim t r = .ok true ∧
          (r.level < a.level ↔ nl < a.level)) := by
  obtain ⟨lv, n, hlv, hn⟩ := cell_in_range_neighbors dim t a hin i hi
  obtain ⟨hni0, hnl0⟩ := neighbor_index_eval hi hlv hn
  refine ⟨⟨_, _, hnl0, hni0⟩, ?_⟩
  intro nl ni hnl hni
  have hnb := neighbor_eval hnl hni
  refine ⟨?_, ?_, ?_, ?_⟩
  · intro r hr
    rw [hnb] at hr
    obtain ⟨rfl, -⟩ := checkUsed_inv hr
    exact ⟨rfl, rfl⟩
  · rintro rfl rfl
    have hs : TriaAccessor.state ⟨a.tria, -1, -1⟩ = .past_the_end := by
      simp [TriaAccessor.state]
    refine ⟨_, ?_, hs, ?_⟩
    · rw [hnb]
      exact checkUsed_of_past_the_end _ _ hs
    · intro hu
      rw [at_boundary_eval hu hi, hni]
      rfl
  · intro hs hu
    rw [hnb]
    exact checkUsed_of_unused _ _ hs hu
  · intro hu
    refine ⟨_, ?_, cell_used_ok_state hu, hu, Iff.rfl⟩
    rw [hnb]
    exact checkUsed_of_used _ _ hu

/-- Witness of C20: the middle line cell of `innerLine` and its right
neighbor on the same level, and the left boundary face of the first cell. -/
theorem C20_neighbor_lookup_witness :
    (∃ r, CellAccessor.neighbor .one innerLine ⟨0, 0, 1⟩ 1 = .ok r ∧ r.state = .valid ∧
        CellAccessor.used .one innerLine r = .ok true ∧
        (r.level < TriaAccessor.level ⟨0, 0, 1⟩ ↔ (0 : Int) < TriaAccessor.level ⟨0, 0, 1⟩)) ∧
      (∃ r, CellAccessor.neighbor .one innerLine firstSlot 0 = .ok r ∧
        r.state = .past_the_end ∧
        (CellAccessor.used .one innerLine firstSlot = .ok true →
          CellAccessor.at_boundary .one innerLine firstSlot 0 = .ok true)) :=
  ⟨((C20_neighbor_lookup .one innerLine ⟨0, 0, 1⟩ 1 (by decide) (by decide)).2 0 2
      (by decide) (by decide)).2.2.2 (by decide),
    ((C20_neighbor_lookup .one innerLine firstSlot 0 (by decide) (by decide)).2 (-1) (-1)
      (by decide) (by decide)).2.1 rfl rfl⟩

/-! ## Children offset -/

theorem line_set_children_has_children (t : Triangulation) (a : TriaAccessor) (k : Int)
    (hr : LineAccessor.in_range t a = true) (hu : LineAccessor.used t a = .ok true) :
    ∃ t2, LineAccessor.set_children t a k = .ok t2 ∧
      LineAccessor.has_children t2 a = .ok (k != -1) := by
  obtain ⟨lv, hlv, h0, -, hch, -⟩ := (line_in_range_iff t a).1 hr
  have hs : LineAccessor.set_children t a k = t.setLevel a.present_level
      { lv with lines := { lv.lines with
          children := lv.lines.children.set a.present_index.toNat k } } := by
    simp only [LineAccessor.set_children, hu, Assert_true, bind_ok, hlv,
      vecSet_ok_of_lt _ _ _ h0 hch]
  rw [setLevel_ok_of_get hlv] at hs
  refine ⟨_, hs, ?_⟩
  have hst : (a.state == IteratorState.valid) = true :=
    beq_iff_eq.mpr (state_valid a (vecGet_nonneg hlv) h0)
  simp only [LineAccessor.has_children, hst, Assert_true, bind_ok,
    vecGet_withLevel hlv, vecGet_set_same (vecGet_ok_of_lt _ _ h0 hch), pure_eq_ok]

theorem quad_set_children_has_children (t : Triangulation) (a : TriaAccessor) (k : Int)
    (hr : QuadAccessor.in_range t a = true) (hu : QuadAccessor.used t a = .ok true) :
    ∃ t2, QuadAccessor.set_children t a k = .ok t2 ∧
      QuadAccessor.has_children t2 a = .ok (k != -1) := by
  obtain ⟨lv, hlv, h0, -, hch, -⟩ := (quad_in_range_iff t a).1 hr
  have hs : QuadAccessor.set_children t a k = t.setLevel a.present_level
      { lv with quads := { lv.quads with
          children := lv.quads.children.set a.present_index.toNat k } } := by
    simp only [QuadAccessor.set_children, hu, Assert_true, bind_ok, hlv,
      vecSet_ok_of_lt _ _ _ h0 hch]
  rw [setLevel_ok_of_get hlv] at hs
  refine ⟨_, hs, ?_⟩
  have hst : (a.state == IteratorState.valid) = true :=
    beq_iff_eq.mpr (state_valid a (vecGet_nonneg hlv) h0)
  simp only [QuadAccessor.has_children, hst, Assert_true, bind_ok,
    vecGet_withLevel hlv, vecGet_set_same (vecGet_ok_of_lt _ _ h0 hch), pure_eq_ok]

theorem state_beq_valid_false {a : TriaAccessor} (h : a.state ≠ .valid) :
    (a.state == IteratorState.valid) = false := by
  cases hb : a.state == IteratorState.valid
  · rfl
  · exact absurd (beq_iff_eq.mp hb) h

theorem line_children_contract (t : Triangulation) (a : TriaAccessor) :
    ChildrenContract (LineAccessor.in_range t a) LineAccessor.used LineAccessor.set_children
      LineAccessor.clear_children LineAccessor.has_children t a := by
  refine ⟨fun hr hu k => line_set_children_has_children t a k hr hu, rfl, ?_, ?_⟩
  · intro hs
    simp only [LineAccessor.has_children, state_beq_valid_false hs]
    rfl
  · intro hu k
    simp only [LineAccessor.set_children, hu, bind_ok]
    rfl

theorem quad_children_contract (t : Triangulation) (a : TriaAccessor) :
    ChildrenContract (QuadAccessor.in_range t a) QuadAccessor.used QuadAccessor.set_children
      QuadAccessor.clear_children QuadAccessor.has_children t a := by
  refine ⟨fun hr hu k => quad_set_children_has_children t a k hr hu, rfl, ?_, ?_⟩
  · intro hs
    simp only [QuadAccessor.has_children, state_beq_valid_false hs]
    rfl
  · intro hu k
    simp only [QuadAccessor.set_children, hu, bind_ok]
    rfl

theorem cell_in_range_line (t : Triangulation) (a : TriaAccessor)
    (h : CellAccessor.in_range .one t a = true) : LineAccessor.in_range t a = true := by
  unfold CellAccessor.in_range at h
  rw [Bool.and_eq_true] at h
  exact h.1

theorem cell_in_range_quad (t : Triangulation) (a : TriaAccessor)
    (h : CellAccessor.in_range .two t a = true) : QuadAccessor.in_range t a = true := by
  unfold CellAccessor.in_range at h
  rw [Bool.and_eq_true] at h
  exact h.1

theorem cell_children_contract (dim : Dim) (t : Triangulation) (a : TriaAccessor) :
    ChildrenContract (CellAccessor.in_range dim t a) (CellAccessor.used dim)
      (CellAccessor.set_children dim) (CellAccessor.clear_children dim)
      (CellAccessor.has_children dim) t a := by
  cases dim with
  | one =>
    obtain ⟨h1, h2, h3, h4⟩ := line_children_contract t a
    exact ⟨fun hr => h1 (cell_in_range_line t a hr), h2, h3, h4⟩
  | two =>
    obtain ⟨h1, h2, h3, h4⟩ := quad_children_contract t a
    exact ⟨fun hr => h1 (cell_in_range_quad t a hr), h2, h3, h4⟩

theorem active_of_has_children (dim : Dim) (t : Triangulation) (a : TriaAccessor) :
    (∀ c, CellAccessor.has_children dim t a = .ok c →
      CellAccessor.active dim t a = .ok (!c)) ∧
    (∀ e, CellAccessor.has_children dim t a = .error e →
      CellAccessor.active dim t a = .error e) := by
  constructor
  · intro c h
    simp only [CellAccessor.active, h, bind_ok, pure_eq_ok]
  · intro e h
    simp only [CellAccessor.active, h]
    rfl

/-- C21: children offset management.  The line, the quad and the cell accessor
satisfy `ChildrenContract`: for a used entity addressed by an in-range handle
and every `k`, `set_children (k)` succeeds and afterwards `has_children ()`
returns `k != -1`; `clear_children ()` is `set_children (-1)`;
`has_children ()` fails when `state ()` is not valid; `set_children` fails
when the entity is unused.  For a used cell in range, after
`clear_children ()` `has_children ()` is false and `active ()` is true.
`active ()` returns the negation of what `has_children ()` returns, and fails
as `has_children ()` fails. -/
theorem C21_children_offset (dim : Dim) (t : Triangulation) (a : TriaAccessor) :
    ChildrenContract (LineAccessor.in_range t a) LineAccessor.used LineAccessor.set_children
      LineAccessor.clear_children LineAccessor.has_children t a ∧
    ChildrenContract (QuadAccessor.in_range t a) QuadAccessor.used QuadAccessor.set_children
      QuadAccessor.clear_children QuadAccessor.has_children t a ∧
    ChildrenContract (CellAccessor.in_range dim t a) (CellAccessor.used dim)
      (CellAccessor.set_children dim) (CellAccessor.clear_children dim)
      (CellAccessor.has_children dim) t a ∧
    (CellAccessor.in_range dim t a = true → CellAccessor.used dim t a = .ok true →
      ∃ t2, CellAccessor.clear_children dim t a = .ok t2 ∧
        CellAccessor.has_children dim t2 a = .ok false ∧
        CellAccessor.active dim t2 a = .ok true) ∧
    (∀ c, CellAccessor.has_children dim t a = .ok c →
      CellAccessor.active dim t a = .ok (!c)) ∧
    (∀ e, CellAccessor.has_children dim t a = .error e →
      CellAccessor.active dim t a = .error e) := by
  refine ⟨line_children_contract t a, quad_children_contract t a,
    cell_children_contract dim t a, ?_, active_of_has_children dim t a⟩
  intro hr hu
  obtain ⟨hset, hclear, -, -⟩ := cell_children_contract dim t a
  obtain ⟨t2, h2, hh⟩ := hset hr hu (-1)
  refine ⟨t2, hclear.trans h2, hh, ?_⟩
  exact (active_of_has_children dim t2 a).1 _ hh

/-- Witness of C21: `set_children (0)` and `clear_children ()` on the single
used quad cell, `has_children ()` on the past-the-end handle, and
`set_children (0)` on the unused quad. -/
theorem C21_children_offset_witness :
    (∃ t2, CellAccessor.set_children .two oneQuad firstSlot 0 = .ok t2 ∧
        CellAccessor.has_children .two t2 firstSlot = .ok true) ∧
      (∃ t2, CellAccessor.clear_children .two oneQuadRefineChildren firstSlot = .ok t2 ∧
        CellAccessor.has_children .two t2 firstSlot = .ok false ∧
        CellAccessor.active .two t2 firstSlot = .ok true) ∧
      LineAccessor.has_children oneLine ⟨0, -1, -1⟩ = .error .ExcDereferenceInvalidObject ∧
      QuadAccessor.set_children oneQuadUnused firstSlot 0 = .error .ExcCellNotUsed :=
  ⟨(C21_children_offset .two oneQuad firstSlot).2.2.1.1 (by decide) (by decide) 0,
    (C21_children_offset .two oneQuadRefineChildren firstSlot).2.2.2.1 (by decide)
      (by decide),
    (C21_children_offset .one oneLine ⟨0, -1, -1⟩).1.2.2.1 (by decide),
    (C21_children_offset .two oneQuadUnused firstSlot).2.1.2.2.2 (by decide) 0⟩

/-! ## Bounds on a traversal step -/

theorem advanceLoopLog_bounded (sz : TriangulationLevel → Nat) (t : Triangulation) :
    ∀ (n fuel : Nat) (l i : Int), 0 ≤ l → l + (n + 1 : Nat) = (t.levels.length : Int) →
      n + 1 ≤ fuel →
      ∃ g, advanceLoopLog sz t fuel l i = some g ∧ g.iterations ≤ n + 1 ∧
        (∀ x ∈ g.reads, 0 ≤ x ∧ x < (t.levels.length : Int)) ∧
        advanceLoop sz t fuel l i = .ok g.result := by
  intro n
  induction n with
  | zero =>
    intro fuel l i h0 hl hf
    obtain ⟨f, rfl⟩ : ∃ f, fuel = f + 1 := ⟨fuel - 1, by omega⟩
    obtain ⟨lv, hlv⟩ := vecGet_levels_ok t l h0 (by omega)
    have hsz := levelSize_of_get sz t l lv hlv
    by_cases hi : i ≥ (sz lv : Int)
    · have hend : l + 1 ≥ (t.levels.length : Int) := by omega
      refine ⟨⟨(-1, -1), 1, [l]⟩, ?_, by simp, ?_, ?_⟩
      · simp only [advanceLoopLog, hsz, hi, if_true, hend]
      · intro x hx
        simp only [List.mem_singleton] at hx
        omega
      · exact advanceLoop_end sz t f l i lv hlv hi hend
    · refine ⟨⟨(l, i), 0, [l]⟩, ?_, by simp, ?_, ?_⟩
      · simp only [advanceLoopLog, hsz, hi, if_false]
      · intro x hx
        simp only [List.mem_singleton] at hx
        omega
      · exact advanceLoop_stay sz t f l i lv hlv (by omega)
  | succ n ih =>
    intro fuel l i h0 hl hf
    obtain ⟨f, rfl⟩ : ∃ f, fuel = f + 1 := ⟨fuel - 1, by omega⟩
    obtain ⟨lv, hlv⟩ := vecGet_levels_ok t l h0 (by omega)
    have hsz := levelSize_of_get sz t l lv hlv
    by_cases hi : i ≥ (sz lv : Int)
    · have hnext : ¬ (l + 1 ≥ (t.levels.length : Int)) := by push_cast at hl; omega
      obtain ⟨g, hg, hit, hreads, hres⟩ :=
        ih f (l + 1) 0 (by omega) (by push_cast at hl ⊢; omega) (by omega)
      refine ⟨g.after l, ?_, ?_, ?_, ?_⟩
      · simp only [advanceLoopLog, hsz, hi, if_true, hnext, if_false, hg, Option.map_some']
      · simp only [LoopLog.after]
        omega
      · intro x hx
        simp only [LoopLog.after, List.mem_cons] at hx
        rcases hx with rfl | hx
        · omega
        · exact hreads x hx
      · rw [advanceLoop_next sz t f l i lv hlv hi (by omega), hres]
        rfl
    · refine ⟨⟨(l, i), 0, [l]⟩, ?_, by simp, ?_, ?_⟩
      · simp only [advanceLoopLog, hsz, hi, if_false]
      · intro x hx
        simp only [List.mem_singleton] at hx
        omega
      · exact advanceLoop_stay sz t f l i lv hlv (by omega)

theorem retreatLoopLog_bounded (sz : TriangulationLevel → Nat) (t : Triangulation) :
    ∀ (n fuel : Nat) (l i : Int), l = (n : Int) → l < (t.levels.length : Int) →
      n + 1 ≤ fuel →
      ∃ g, retreatLoopLog sz t fuel l i = some g ∧ g.iterations ≤ n + 1 ∧
        (∀ x ∈ g.reads, 0 ≤ x ∧ x < (t.levels.length : Int)) ∧
        retreatLoop sz t fuel l i = .ok g.result := by
  intro n
  induction n with
  | zero =>
    intro fuel l i hl hL hf
    obtain ⟨f, rfl⟩ : ∃ f, fuel = f + 1 := ⟨fuel - 1, by omega⟩
    by_cases hi : i < 0
    · have hend : l - 1 = -1 := by simp only [Nat.cast_zero] at hl; omega
      refine ⟨⟨(-1, -1), 1, []⟩, ?_, by simp, by simp, ?_⟩
      · simp only [retreatLoopLog, hi, if_true, hend]
      · exact retreatLoop_end sz t f l i hi hend
    · refine ⟨⟨(l, i), 0, []⟩, ?_, by simp, by simp, ?_⟩
      · simp only [retreatLoopLog, hi, if_false]
      · exact retreatLoop_stay sz t f l i (by omega)
  | succ n ih =>
    intro fuel l i hl hL hf
    obtain ⟨f, rfl⟩ : ∃ f, fuel = f + 1 := ⟨fuel - 1, by omega⟩
    by_cases hi : i < 0
    · have hprev : l - 1 ≠ -1 := by push_cast at hl; omega
      obtain ⟨lv, hlv⟩ := vecGet_levels_ok t (l - 1) (by push_cast at hl; omega) (by omega)
      have hsz := levelSize_of_get sz t (l - 1) lv hlv
      obtain ⟨g, hg, hit, hreads, hres⟩ :=
        ih f (l - 1) ((sz lv : Int) - 1) (by push_cast at hl; omega) (by omega) (by omega)
      refine ⟨g.after (l - 1), ?_, ?_, ?_, ?_⟩
      · simp only [retreatLoopLog, hi, if_true, hprev, if_false, hsz, hg, Option.map_some']
      · simp only [LoopLog.after]
        omega
      · intro x hx
        simp only [LoopLog.after, List.mem_cons] at hx
        rcases hx with rfl | hx
        · push_cast at hl; omega
        · exact hreads x hx
      · rw [retreatLoop_prev sz t f l i lv hi hprev hlv, hres]
        rfl
    · refine ⟨⟨(l, i), 0, []⟩, ?_, by simp, by simp, ?_⟩
      · simp only [retreatLoopLog, hi, if_false]
      · exact retreatLoop_stay sz t f l i (by omega)

theorem traversal_bounded (sz : TriangulationLevel → Nat) (t : Triangulation)
    (a : TriaAccessor) (h0 : 0 ≤ a.present_level)
    (hL : a.present_level < (t.levels.length : Int)) :
    TraversalBounded sz (advance sz) (retreat sz) t a := by
  constructor
  · obtain ⟨n, hn⟩ : ∃ n : Nat, a.present_level + (n + 1 : Nat) = (t.levels.length : Int) :=
      ⟨(t.levels.length - a.present_level.toNat) - 1, by omega⟩
    obtain ⟨g, hg, hit, hreads, hres⟩ :=
      advanceLoopLog_bounded sz t n (t.levels.length + 2) a.present_level
        (a.present_index + 1) h0 hn (by omega)
    refine ⟨g, hg, by omega, hreads, ?_⟩
    simp only [advance, hres, bind_ok, pure_eq_ok]
  · obtain ⟨g, hg, hit, hreads, hres⟩ :=
      retreatLoopLog_bounded sz t a.present_level.toNat (t.levels.length + 2)
        a.present_level (a.present_index - 1) (by omega) hL (by omega)
    refine ⟨g, hg, by omega, hreads, ?_⟩
    simp only [retreat, hres, bind_ok, pure_eq_ok]

/-- C22: a traversal step is bounded by the number of levels.  For a
triangulation with `L` levels and a handle with `0 ≤ level < L` and any index,
`operator ++` of the line and of the quad accessor leaves its loop after at
most `L - level` passes through the body, `operator --` after at most
`level + 1`, both return a handle, and every level whose size they read lies
in `[0, L)`. -/
theorem C22_traversal_bounded (t : Triangulation) (a : TriaAccessor)
    (h0 : 0 ≤ a.present_level) (hL : a.present_level < (t.levels.length : Int)) :
    TraversalBounded lineSize LineAccessor.operator_inc LineAccessor.operator_dec t a ∧
      TraversalBounded quadSize QuadAccessor.operator_inc QuadAccessor.operator_dec t a :=
  ⟨traversal_bounded lineSize t a h0 hL, traversal_bounded quadSize t a h0 hL⟩

/-- Witness of C22: the last slot of level 0 of three levels of lines, of
which the middle one is empty, and the same handle on three levels of quads
of which the first and the last are empty.  On the lines `operator ++` passes
twice through the body of its loop and reads the sizes of the levels 0, 1
and 2. -/
theorem C22_traversal_bounded_witness :
    TraversalBounded lineSize LineAccessor.operator_inc LineAccessor.operator_dec
        threeLevels ⟨0, 0, 1⟩ ∧
      TraversalBounded quadSize QuadAccessor.operator_inc QuadAccessor.operator_dec
        threeQuadLevels ⟨0, 0, 1⟩ ∧
      advanceLoopLog lineSize threeLevels 5 0 2 = some ⟨(2, 0), 2, [0, 1, 2]⟩ ∧
      retreatLoopLog quadSize threeQuadLevels 5 2 (-1) = some ⟨(1, 1), 1, [1]⟩ :=
  ⟨(C22_traversal_bounded threeLevels ⟨0, 0, 1⟩ (by decide) (by decide)).1,
    (C22_traversal_bounded threeQuadLevels ⟨0, 0, 1⟩ (by decide) (by decide)).2,
    by decide, by decide⟩

/-! ## Frame of `set_neighbor` -/

theorem set_neighbor_inv {dim : Dim} {t t2 : Triangulation} {a : TriaAccessor} {i : Nat}
    {h : TriaAccessor} (hop : CellAccessor.set_neighbor dim t a i h = .ok t2) :
    i < faces_per_cell dim ∧
    ∃ lv, vecGet t.levels a.present_level = .ok lv ∧
      0 ≤ a.present_index * faces_per_cell dim + i ∧
      (a.present_index * faces_per_cell dim + i).toNat < lv.neighbors.length ∧
      t2 = t.withLevel a.present_level
        (lv.withNeighbor (a.present_index * faces_per_cell dim + i)
          (h.present_level, h.present_index)) := by
  obtain ⟨hi, hw⟩ := assert_state_bind_inv hop
  exact ⟨of_decide_eq_true hi,
    write_inv t a.present_level _ (fun lv => lv.neighbors)
      (fun lv x => { lv with neighbors := x }) _ t2 hw⟩

theorem vecGet_set_other {α : Type} (v : List α) (i j : Int) (x : α) (h0 : 0 ≤ i)
    (hij : j ≠ i) : vecGet (v.set i.toNat x) j = vecGet v j := by
  unfold vecGet
  split
  · rfl
  · rw [List.getElem?_set_ne (by omega)]

theorem neighbor_position_injective (dim : Dim) (c a : Int) (j i : Nat)
    (hj : j < faces_per_cell dim) (hi : i < faces_per_cell dim)
    (h : c * faces_per_cell dim + j = a * faces_per_cell dim + i) : c = a ∧ j = i := by
  cases dim <;> simp only [faces_per_cell] at hj hi h <;> omega

theorem set_neighbor_frame {dim : Dim} {t t2 : Triangulation} {a : TriaAccessor} {i : Nat}
    {h : TriaAccessor} (hop : CellAccessor.set_neighbor dim t a i h = .ok t2) :
    NeighborFrame dim t t2 a i := by
  obtain ⟨hi, lv, hlv, hp0, hplt, rfl⟩ := set_neighbor_inv hop
  have hl0 := vecGet_nonneg hlv
  have hget := vecGet_withLevel hlv
    (lv.withNeighbor (a.present_index * faces_per_cell dim + i)
      (h.present_level, h.present_index))
  have hother : ∀ l : Int, l ≠ a.present_level →
      vecGet (t.withLevel a.present_level
        (lv.withNeighbor (a.present_index * faces_per_cell dim + i)
          (h.present_level, h.present_index))).levels l = vecGet t.levels l :=
    fun l hl => vecGet_set_other _ _ _ _ hl0 hl
  refine ⟨rfl, ?_, hother, ⟨lv, _, hlv, hget, rfl, rfl, rfl, rfl, ?_⟩, ?_⟩
  · simp only [Triangulation.withLevel, List.length_set]
  · simp only [TriangulationLevel.withNeighbor, List.length_set]
  · intro c j hj hne
    by_cases hl : c.present_level = a.present_level
    · have hpos : c.present_index * faces_per_cell dim + j ≠
          a.present_index * faces_per_cell dim + i := by
        intro heq
        obtain ⟨h1, h2⟩ := neighbor_position_injective dim _ _ _ _ hj hi heq
        exact hne ⟨hl, h1, h2⟩
      have hrd : vecGet (lv.withNeighbor (a.present_index * faces_per_cell dim + i)
            (h.present_level, h.present_index)).neighbors
            (c.present_index * faces_per_cell dim + j) =
          vecGet lv.neighbors (c.present_index * faces_per_cell dim + j) :=
        vecGet_set_other _ _ _ _ hp0 hpos
      simp only [CellAccessor.neighbor_level, CellAccessor.neighbor_index, hl, hget, hlv,
        bind_ok, hrd, and_self]
    · simp only [CellAccessor.neighbor_level, CellAccessor.neighbor_index,
        hother _ hl, and_self]

/-- C23: the frame of `set_neighbor`.  A call `set_neighbor (i, h)` on the cell
`a` that returns changes only the entry of face `i` of `a` in the neighbor
table (`NeighborFrame`): `neighbor_level (j)` and `neighbor_index (j)` of
every other pair of a cell and a face `j < faces_per_cell` are as before (the
position `index * faces_per_cell + face` is injective on such pairs), all
other levels are unchanged, and so are the used, children, refine flag,
coarsen flag, material id and user arrays.  The call returns for every
in-range cell and face `i < faces_per_cell`. -/
theorem C23_set_neighbor_frame (dim : Dim) (t : Triangulation) (a : TriaAccessor) (i : Nat)
    (h : TriaAccessor) :
    (∀ t2, CellAccessor.set_neighbor dim t a i h = .ok t2 → NeighborFrame dim t t2 a i) ∧
    (CellAccessor.in_range dim t a = true → i < faces_per_cell dim →
      ∃ t2, CellAccessor.set_neighbor dim t a i h = .ok t2 ∧ NeighborFrame dim t t2 a i) ∧
    (∀ (c b : Int) (j k : Nat), j < faces_per_cell dim → k < faces_per_cell dim →
      c * faces_per_cell dim + j = b * faces_per_cell dim + k → c = b ∧ j = k) := by
  refine ⟨fun t2 hop => set_neighbor_frame hop, ?_,
    fun c b j k hj hk he => neighbor_position_injective dim c b j k hj hk he⟩
  intro hr hi
  obtain ⟨lv, n, hlv, hn⟩ := cell_in_range_neighbors dim t a hr i hi
  have hop := set_neighbor_eval hi hlv hn h
  exact ⟨_, hop, set_neighbor_frame hop⟩

/-- Witness of C23: the left neighbor of the middle line cell of `innerLine`
set to the handle `(3, 7)`; its right neighbor stays `(0, 2)`. -/
theorem C23_set_neighbor_frame_witness :
    (∃ t2, CellAccessor.set_neighbor .one innerLine ⟨0, 0, 1⟩ 0 ⟨0, 3, 7⟩ = .ok t2 ∧
        NeighborFrame .one innerLine t2 ⟨0, 0, 1⟩ 0) ∧
      CellAccessor.neighbor_index .one innerLine ⟨0, 0, 1⟩ 1 = .ok 2 :=
  ⟨(C23_set_neighbor_frame .one innerLine ⟨0, 0, 1⟩ 0 ⟨0, 3, 7⟩).2.1 (by decide) (by decide),
    by decide⟩

/-! ## Failed calls leave the storage as it was -/

theorem atomic_assign (w : Triangulation → Except Exc Triangulation) :
    Call.Atomic (Call.assign w) := by
  intro t e h
  simp only [Call.assign] at h ⊢
  cases hw : w t with
  | ok t2 => rw [hw] at h; cases h
  | error e2 => rfl

theorem atomic_seq_assert (cond : Triangulation → Except Exc Bool) (exc : Exc) (y : Call)
    (hy : Call.Atomic y) : Call.Atomic (Call.seq (Call.Assert cond exc) y) := by
  intro t e h
  unfold Call.seq Call.Assert at h ⊢
  generalize (cond t >>= fun c => DealII.Assert c exc) = r at h ⊢
  cases r with
  | ok u => exact hy t e h
  | error e2 => rfl

theorem toExcept_assign (w : Triangulation → Except Exc Triangulation) (t : Triangulation) :
    Call.toExcept (Call.assign w) t = w t := by
  simp only [Call.toExcept, Call.assign]
  cases w t <;> rfl

theorem toExcept_seq_assert (cond : Triangulation → Except Exc Bool) (exc : Exc) (y : Call)
    (t : Triangulation) :
    Call.toExcept (Call.seq (Call.Assert cond exc) y) t =
      (cond t >>= fun c => DealII.Assert c exc >>= fun _ => Call.toExcept y t) := by
  simp only [Call.toExcept, Call.seq, Call.Assert]
  cases cond t with
  | error e => rfl
  | ok c => cases c <;> rfl

theorem bind_pure_not (m : Except Exc Bool) (exc : Exc) (k : Except Exc Triangulation) :
    ((m >>= fun b => pure (!b)) >>= fun c => DealII.Assert c exc >>= fun _ => k) =
      (m >>= fun b => DealII.Assert (!b) exc >>= fun _ => k) := by
  cases m <;> rfl

theorem line_call_atomic (op : SubOp) (a : TriaAccessor) :
    Call.Atomic (LineAccessor.call op a) := by
  cases op <;>
    first
    | exact atomic_seq_assert _ _ _ (atomic_assign _)
    | exact atomic_seq_assert _ _ _ (atomic_seq_assert _ _ _ (atomic_assign _))

theorem quad_call_atomic (op : SubOp) (a : TriaAccessor) :
    Call.Atomic (QuadAccessor.call op a) := by
  cases op <;>
    first
    | exact atomic_seq_assert _ _ _ (atomic_assign _)
    | exact atomic_seq_assert _ _ _ (atomic_seq_assert _ _ _ (atomic_assign _))

theorem cell_call_atomic (dim : Dim) (op : CellOp) (a : TriaAccessor) :
    Call.Atomic (CellOp.call dim op a) := by
  cases op <;> cases dim <;>
    first
    | exact line_call_atomic _ a
    | exact quad_call_atomic _ a
    | exact atomic_seq_assert _ _ _ (atomic_assign _)
    | exact atomic_seq_assert _ _ _ (atomic_seq_assert _ _ _ (atomic_assign _))

theorem line_call_agrees (op : SubOp) (a : TriaAccessor) (t : Triangulation) :
    Call.toExcept (LineAccessor.call op a) t = LineAccessor.apply op t a := by
  cases op <;>
    simp only [LineAccessor.call, LineAccessor.usedThenAssign, toExcept_seq_assert,
      toExcept_assign] <;> rfl

theorem quad_call_agrees (op : SubOp) (a : TriaAccessor) (t : Triangulation) :
    Call.toExcept (QuadAccessor.call op a) t = QuadAccessor.apply op t a := by
  cases op <;>
    simp only [QuadAccessor.call, QuadAccessor.usedThenAssign, toExcept_seq_assert,
      toExcept_assign] <;> rfl

theorem sub_call_agrees (dim : Dim) (op : SubOp) (a : TriaAccessor) (t : Triangulation) :
    Call.toExcept (CellAccessor.subCall dim op a) t =
      match dim with
      | .one => LineAccessor.apply op t a
      | .two => QuadAccessor.apply op t a := by
  cases dim
  · exact line_call_agrees op a t
  · exact quad_call_agrees op a t

theorem cell_call_agrees (dim : Dim) (op : CellOp) (a : TriaAccessor) (t : Triangulation) :
    Call.toExcept (CellOp.call dim op a) t = op.apply dim t a := by
  cases op with
  | set_used_flag =>
    rw [CellOp.call, sub_call_agrees]
    cases dim <;> rfl
  | clear_used_flag =>
    rw [CellOp.call, sub_call_agrees]
    cases dim <;> rfl
  | set_children k =>
    rw [CellOp.call, sub_call_agrees]
    cases dim <;> rfl
  | clear_children =>
    rw [CellOp.call, sub_call_agrees]
    cases dim <;> rfl
  | set_user_flag =>
    rw [CellOp.call, sub_call_agrees]
    cases dim <;> rfl
  | set_user_pointer p =>
    rw [CellOp.call, sub_call_agrees]
    cases dim <;> rfl
  | set_neighbor i h =>
    cases dim <;>
      simp only [CellOp.call, CellAccessor.assertUsedActive, toExcept_seq_assert,
        toExcept_assign, bind_pure_not] <;> rfl
  | set_refine_flag =>
    cases dim <;>
      simp only [CellOp.call, CellAccessor.assertUsedActive, toExcept_seq_assert,
        toExcept_assign, bind_pure_not] <;> rfl
  | clear_refine_flag =>
    cases dim <;>
      simp only [CellOp.call, CellAccessor.assertUsedActive, toExcept_seq_assert,
        toExcept_assign, bind_pure_not] <;> rfl
  | set_coarsen_flag =>
    cases dim <;>
      simp only [CellOp.call, CellAccessor.assertUsedActive, toExcept_seq_assert,
        toExcept_assign, bind_pure_not] <;> rfl
  | clear_coarsen_flag =>
    cases dim <;>
      simp only [CellOp.call, CellAccessor.assertUsedActive, toExcept_seq_assert,
        toExcept_assign, bind_pure_not] <;> rfl
  | set_material_id m =>
    cases dim <;>
      simp only [CellOp.call, CellAccessor.assertUsedActive, toExcept_seq_assert,
        toExcept_assign, bind_pure_not] <;> rfl

/-- C24: atomicity of failed mutations.  For every mutating member function
of the line and of the quad accessor (`set_used_flag`, `clear_used_flag`,
`set_user_flag`, `clear_user_flag`, `set_user_pointer`, `clear_user_pointer`,
`set_children`, `clear_children`, `set_boundary_indicator`) and of the cell
accessor (those it inherits, `set_material_id`, `set_neighbor` and the four
functions writing the refine and coarsen flags), every storage and every
handle: if the call fails, as it does when an assertion on its precondition
fails, the storage after the call is the storage before it.  The calls are
those of the other sections: they return the same storage, or fail with the
same exception. -/
theorem C24_failed_mutation_atomic :
    (∀ (op : SubOp) (a : TriaAccessor) (t : Triangulation) (e : Exc),
      (LineAccessor.call op a t).1 = .error e → (LineAccessor.call op a t).2 = t) ∧
    (∀ (op : SubOp) (a : TriaAccessor) (t : Triangulation) (e : Exc),
      (QuadAccessor.call op a t).1 = .error e → (QuadAccessor.call op a t).2 = t) ∧
    (∀ (dim : Dim) (op : CellOp) (a : TriaAccessor) (t : Triangulation) (e : Exc),
      (CellOp.call dim op a t).1 = .error e → (CellOp.call dim op a t).2 = t) ∧
    (∀ (op : SubOp) (a : TriaAccessor) (t : Triangulation),
      Call.toExcept (LineAccessor.call op a) t = LineAccessor.apply op t a) ∧
    (∀ (op : SubOp) (a : TriaAccessor) (t : Triangulation),
      Call.toExcept (QuadAccessor.call op a) t = QuadAccessor.apply op t a) ∧
    (∀ (dim : Dim) (op : CellOp) (a : TriaAccessor) (t : Triangulation),
      Call.toExcept (CellOp.call dim op a) t = op.apply dim t a) :=
  ⟨fun op a => line_call_atomic op a, fun op a => quad_call_atomic op a,
    fun dim op a => cell_call_atomic dim op a, line_call_agrees, quad_call_agrees,
    cell_call_agrees⟩

/-- Witness of C24: `set_boundary_indicator` on a line in one dimension,
`set_user_flag` on the unused quad and `set_coarsen_flag` on the quad cell
flagged for refinement fail and leave the storage as it was. -/
theorem C24_failed_mutation_atomic_witness :
    ((LineAccessor.call (.set_boundary_indicator 1 7) firstSlot oneLine).1 =
        .error .ExcNotUsefulForThisDimension ∧
      (LineAccessor.call (.set_boundary_indicator 1 7) firstSlot oneLine).2 = oneLine) ∧
    ((QuadAccessor.call .set_user_flag firstSlot oneQuadUnused).1 =
        .error .ExcCellNotUsed ∧
      (QuadAccessor.call .set_user_flag firstSlot oneQuadUnused).2 = oneQuadUnused) ∧
    ((CellOp.call .two .set_coarsen_flag firstSlot oneQuadRefine).1 =
        .error .ExcCellFlaggedForRefinement ∧
      (CellOp.call .two .set_coarsen_flag firstSlot oneQuadRefine).2 = oneQuadRefine) :=
  ⟨⟨by decide, C24_failed_mutation_atomic.1 _ _ _ .ExcNotUsefulForThisDimension
      (by decide)⟩,
    ⟨by decide, C24_failed_mutation_atomic.2.1 _ _ _ .ExcCellNotUsed (by decide)⟩,
    ⟨by decide, C24_failed_mutation_atomic.2.2.1 _ _ _ _ .ExcCellFlaggedForRefinement
      (by decide)⟩⟩

end DealII
